import Mathlib

/-!
# findballexp: the experiment controller

A shallow embedding of `src/src/FindBallExperiment.cpp` (class `FindBallExperiment`) and of the
constants declared in `src/include/FindBallExperiment.h`.

Modelling conventions.

* The controller object is the record `FindBallExperiment`; a member function that mutates the
  object takes the record and returns the new record.
* The collaborators (`SimulatorConnection`, `AgentServer`, the wall clock) are read-only during one
  call of `Tick`; what they report during that call is the record `World`.
* Every externally visible action (a simulator command, a row fragment written to one of the two
  CSV sinks, the broadcast to the agents) is an `Effect`; functions return the effects they perform
  in execution order.  Lines written at the levels INFO, WARNING and ERROR are not modelled, and
  neither are the boolean results of the simulator commands, which the source only uses to decide
  whether to print an ERROR line.
* C++ `int` values are integers (`Int`).  The one `int` that grows with the length of a run is
  the sequence index `counter_`: the results of `++counter_` and of `counter_+1` are taken in the
  32-bit two's-complement `int` (`intWrap`), so the index of a valid object stays a valid `int`;
  signed overflow is undefined in C++, and the theorems that depend on the value of an increment
  carry the bound under which there is none.  The other `int` computations are exact: the
  countdown `start_in_` stays in -1..300 on every object that a run can reach, and the start
  offset `start_from - 1` of the constructor is an `int` for every `start_from` above `INT_MIN`.
  `float` values are the rationals denoted by the decimal literals of the source.
* An out-of-bounds array or vector access is undefined behaviour; a function that can perform one
  returns `Option`, and `none` stands for the undefined execution.
-/

namespace findballexp

/-! ## Collaborator data -/

/-- Identity of a connected agent (`librcsscontroller::Agent`); only its identity matters here. -/
abbrev Agent := Nat

/-- Modelled from the spec: `FromRunswiftAgent.h` is not among the sources.  The telemetry record
of section 6 (`player_number, position_x, position_y, orientation, ball_seen_streak, ball_visible,
distance_to_ball`), with the member names used by `FindBallExperiment.cpp`.  The numeric members are
integers here. -/
structure FromRunswiftAgent where
  player_number : Int
  estimated_x_pos : Int
  estimated_y_pos : Int
  estimated_orientation : Int
  ball_seen_count : Int
  can_see_ball : Bool
  dist_from_ball : Int
deriving DecidableEq, Repr

/-- Modelled from the spec: `RoboCupGameControlData.hpp` is not among the sources.  The two penalty
constants used by `Tick`. -/
inductive Penalty where
  | PENALTY_NONE
  | PENALTY_SPL_ILLEGAL_BALL_CONTACT
deriving DecidableEq, Repr

/-- Modelled from the spec: `RoboCupGameControlData.hpp` is not among the sources.  The two game
state constants used by `Tick`. -/
inductive GameState where
  | STATE_PLAYING
  | STATE_PENALISED
deriving DecidableEq, Repr

/-- Modelled from the spec: `ToRunswiftAgent.h` is not among the sources.  The control message
broadcast to the agents; `Tick` assigns exactly these two members. -/
structure ToRunswiftAgent where
  penalty : Penalty
  game_state : GameState
deriving DecidableEq, Repr

/-- Modelled from the spec: `Player.h` is not among the sources.  A player of the simulator
snapshot, `(identity, player_number)` in section 6. -/
structure Player where
  id : Nat
  number : Int
deriving DecidableEq, Repr

/-- Modelled from the spec: `PlayMode.h` is not among the sources.  The controller only
distinguishes `BEFORE_KICK_OFF` and sends `GAME_OVER`; every other phase is `OTHER`. -/
inductive PlayMode where
  | BEFORE_KICK_OFF
  | GAME_OVER
  | OTHER
deriving DecidableEq, Repr

/-- The members of `SimulatorUpdate` (SimulatorUpdate.h, lines 52-56). -/
structure SimulatorUpdate where
  players : List Player
  play_mode : PlayMode
deriving DecidableEq, Repr

/-- What the collaborators report during one call of `Tick`.

* `agents` is `agent_server_.GetAgents()`;
* `lastUpdate a` is `some u` when `agent_server_.GetLastUpdate(a, &u)` returns true and fills `u`,
  and `none` when it returns false;
* `blank` is the content of a local `FromRunswiftAgent` that `GetLastUpdate` did not fill;
* `su` is `simulator_.GetLastUpdate()`;
* `now` is the value stored by `time(&t)`, in seconds (one reading per tick). -/
structure World where
  agents : List Agent
  lastUpdate : Agent → Option FromRunswiftAgent
  blank : FromRunswiftAgent
  su : SimulatorUpdate
  now : Int

/-- Externally visible actions of the controller. -/
inductive Effect where
  /-- The call `simulator_.SendPlayModeCommand(m)`. -/
  | SendPlayModeCommand (m : PlayMode)
  /-- The call `simulator_.SendSelectPlayerCommand(p)`. -/
  | SendSelectPlayerCommand (p : Player)
  /-- The call `simulator_.SendMovePlayerCommand(p, x, y, z, o)`. -/
  | SendMovePlayerCommand (p : Player) (x y z o : ℚ)
  /-- The call `simulator_.SendMoveBallCommand(...)` with the arguments written at the call site. -/
  | SendMoveBallCommand (args : List ℚ)
  /-- The DEBUG_5 write of `PrepareExperiment`: `Test,BallX,BallY,Robots,` -/
  | TestOpened (test : Int) (ball_x_mm ball_y_mm : ℚ) (robots : Nat)
  /-- The DEBUG_5 write of `FinishExperiment`: `Seconds,FoundBy` and the end of the row -/
  | TestClosed (seconds : Int) (found_str : List Char)
  /-- The DEBUG_4 row of `LogAgentPositions`: `Test,Seconds` and five `x;y;orientation` fields -/
  | PositionRow (test : Int) (seconds : Int) (robots : List (Int × Int × Int))
  /-- The call `agent_server_.Send(response)`. -/
  | Send (response : ToRunswiftAgent)
deriving DecidableEq

/-- The standard generator `std::mt19937 mt_` with the distribution `dist_{-1, 1}`, taken as a
parameter: `seed i` is the generator state after `mt_.seed(i)` and `draw g` is the value of
`dist_(mt_)` in state `g` together with the state it leaves. -/
structure Mt19937 where
  seed : Int → Nat
  draw : Nat → ℚ × Nat

/-! ## Constants (FindBallExperiment.h, lines 75-91 and 104) -/

/-- How long in seconds the robots have to find the ball before timeout. -/
def FIND_BALL_TIMEOUT : Int := 300

/-- How many frames in a row the ball must be seen before it is considered to be found. -/
def FIND_BALL_SEEN_FRAMES : Int := 5

/-- The maximum distance (in mm) from the ball before it is considered to be found. -/
def FIND_BALL_MAX_DIST : Int := 300

/-- Number of unique ball positions to use. -/
def UNIQUE_POINTS : Int := 10

/-- Number of pre-determined ball positions to use. -/
def NUM_PREDEFINED_POINTS : Int := 10

/-- The largest value of the 32-bit `int` of the platform. -/
def INT_MAX : Int := 2147483647

/-- The smallest value of the 32-bit `int` of the platform. -/
def INT_MIN : Int := -2147483648

/-- The `int` that holds the result of an `int` computation whose mathematical value is `x`:
`x` itself when it lies in `INT_MIN..INT_MAX`, and the two's-complement value otherwise. -/
def intWrap (x : Int) : Int :=
  (x + 2147483648) % 4294967296 - 2147483648

/-- A point on the field (`std::pair<float, float>`). -/
abbrev Point := ℚ × ℚ

/-- Holds pre-determined ball positions (FindBallExperiment.cpp, lines 24-27). -/
def PREDEFINED_POINTS : List Point :=
  [ (2.25, 0), (4, -2.5), (4, 2.5), (4.5, 3), (2.25, -3),
    (-4.5, 3), (4.5, 0), (-3.5, 0), (4.5, -3), (-4.5, -1) ]

/-- The experiment states (`enum State`). -/
inductive State where
  | NOT_STARTED
  | TEST_STARTING
  | TEST_STARTED
  | TEST_FINISHED
deriving DecidableEq, Repr

open State

/-- The data members of the class that the controller logic reads or writes.  `state_` only ever
holds one of the four enumerators; `mt_` is the state of the random number generator. -/
structure FindBallExperiment where
  start_index_ : Int
  state_ : State
  timer_ : Int
  counter_ : Int
  num_agents_ : Int
  started_ : Bool
  start_in_ : Int
  last_log_ : Int
  mt_ : Nat
deriving DecidableEq, Repr

/-- The constructor (lines 29-38); `now` is the clock reading of `time(&timer_)`. -/
def FindBallExperiment.new (mt : Mt19937) (start_from : Int) (now : Int) : FindBallExperiment :=
  { start_index_ := start_from - 1
    state_ := NOT_STARTED
    timer_ := now
    counter_ := start_from - 1
    started_ := false
    num_agents_ := 0
    start_in_ := 0
    last_log_ := 0
    mt_ := mt.seed 0 }

/-! ## Member functions -/

/-- The member function `GetExperimentState` (lines 390-393). -/
def GetExperimentState (e : FindBallExperiment) : State := e.state_

/-- The member function `ResetTimer` (lines 342-345). -/
def ResetTimer (e : FindBallExperiment) (w : World) : FindBallExperiment :=
  { e with timer_ := w.now }

/-- The member function `GetTimerSeconds` (lines 403-408): `difftime(new_time, timer_)` as an
`int`. -/
def GetTimerSeconds (e : FindBallExperiment) (w : World) : Int :=
  w.now - e.timer_

/-- The member function `HasNewAgent` (lines 395-401): the result and the object with
`num_agents_` updated. -/
def HasNewAgent (e : FindBallExperiment) (w : World) : Bool × FindBallExperiment :=
  let new_num_agents : Int := w.agents.length
  let new_agent := decide (new_num_agents > e.num_agents_)
  (new_agent, { e with num_agents_ := new_num_agents })

/-- The member function `StartExperiment` (lines 294-299). -/
def StartExperiment (e : FindBallExperiment) (w : World) : FindBallExperiment :=
  ResetTimer e w

/-- The member function `SetExperimentState` (lines 216-242). -/
def SetExperimentState (e : FindBallExperiment) (w : World) (s : State) : FindBallExperiment :=
  let e1 :=
    match s with
    | NOT_STARTED => { e with start_in_ := 0, started_ := false }
    | TEST_STARTING => { e with start_in_ := 150, started_ := false }
    | TEST_STARTED => StartExperiment { e with start_in_ := 0, started_ := true } w
    | TEST_FINISHED => { e with start_in_ := 300, started_ := false }
  { e1 with state_ := s }

/-- The test of lines 420-422 on one telemetry record. -/
def ballFoundTest (u : FromRunswiftAgent) : Bool :=
  decide (u.ball_seen_count ≥ FIND_BALL_SEEN_FRAMES) && u.can_see_ball
    && decide (u.dist_from_ball ≤ FIND_BALL_MAX_DIST)

/-- The loop of `IsBallFound` (lines 414-431) over the remaining agents, carrying the local
`found` and the vector behind the pointer `found_by` (`none` for a null pointer). -/
def IsBallFound.loop (w : World) :
    List Agent → Bool → Option (List Agent) → Bool × Option (List Agent)
  | [], found, found_by => (found, found_by)
  | a :: rest, found, found_by =>
    match w.lastUpdate a with
    | some u =>
      if ballFoundTest u then
        IsBallFound.loop w rest true (found_by.map (fun v => v ++ [a]))
      else
        IsBallFound.loop w rest found found_by
    | none => IsBallFound.loop w rest found found_by

/-- The member function `IsBallFound` (lines 410-433): the result and the vector behind
`found_by` afterwards. -/
def IsBallFound (w : World) (found_by : Option (List Agent)) : Bool × Option (List Agent) :=
  IsBallFound.loop w w.agents false found_by

/-- The character appended by `found_str += '0' + update.player_number` (line 310): the sum is
converted to `char`. -/
def playerChar (player_number : Int) : Char :=
  Char.ofNat ((48 + player_number) % 256).toNat

/-- The loop of `FinishExperiment` (lines 305-313): the characters appended to `found_str` for the
remaining elements of `found_by`.  The iterator is the last one exactly when no element follows. -/
def FinishExperiment.found_str (w : World) : List Agent → List Char
  | [] => []
  | a :: rest =>
    (match w.lastUpdate a with
      | some update => playerChar update.player_number :: (if rest ≠ [] then [';'] else [])
      | none => [])
    ++ FinishExperiment.found_str w rest

/-- The member function `FinishExperiment` (lines 301-329); `++counter_` is the increment of an
`int`. -/
def FinishExperiment (e : FindBallExperiment) (w : World) (time : Int) (found_by : List Agent) :
    FindBallExperiment × List Effect :=
  let found_str := FinishExperiment.found_str w found_by
  let found_str := if found_str = [] then ['-', '1'] else found_str
  ({ e with counter_ := intWrap (e.counter_ + 1) }, [Effect.TestClosed time found_str])

/-- The member function `CancelExperiment` (lines 331-340). -/
def CancelExperiment (e : FindBallExperiment) (w : World) : FindBallExperiment × List Effect :=
  if GetExperimentState e = TEST_STARTED ∨ GetExperimentState e = NOT_STARTED then
    FinishExperiment e w (GetTimerSeconds e w) []
  else
    (e, [])

/-- The member function `CheckSimulatorGameState` (lines 347-355). -/
def CheckSimulatorGameState (w : World) : List Effect :=
  if w.su.play_mode = PlayMode.BEFORE_KICK_OFF then
    [Effect.SendPlayModeCommand PlayMode.GAME_OVER]
  else
    []

/-- The member function `GetStartingPosition` (lines 435-473): `some (x, y, o)` when the function
assigns the three outputs and returns true, `none` when it returns false without assigning. -/
def GetStartingPosition (player_num : Int) : Option (ℚ × ℚ × ℚ) :=
  if player_num = 2 then some (-3.25, 3, 180)
  else if player_num = 4 then some (-1.75, 3, 180)
  else if player_num = 1 then some (-3, -3, 0)
  else if player_num = 3 then some (-2, -3, 0)
  else if player_num = 5 then some (-1, -3, 0)
  else none

/-- The loop of `PrepareExperiment` that moves the players (lines 251-263). -/
def PrepareExperiment.movePlayers : List Player → List Effect
  | [] => []
  | p :: rest =>
    (match GetStartingPosition p.number with
      | some (x, y, o) => [Effect.SendMovePlayerCommand p x y 0.4 o]
      | none => [])
    ++ PrepareExperiment.movePlayers rest

/-- The choice of the ball position in `PrepareExperiment` (lines 265-279): the pair
`(ball_x, ball_y)` and the generator state afterwards; `none` when the table is indexed out of
bounds.  `%` is C++ remainder (truncated division). -/
def PrepareExperiment.ball (mt : Mt19937) (e : FindBallExperiment) : Option (Point × Nat) :=
  let ball_index : Int := Int.tmod e.counter_ UNIQUE_POINTS
  if ball_index < NUM_PREDEFINED_POINTS then
    if 0 ≤ ball_index then
      (PREDEFINED_POINTS[ball_index.toNat]?).map (fun p => (p, e.mt_))
    else
      none
  else
    let g0 := mt.seed ball_index
    let d1 := mt.draw g0
    let d2 := mt.draw d1.2
    some ((d1.1 * 4.5, d2.1 * 3), d2.2)

/-- The member function `PrepareExperiment` (lines 244-292); the trial number `counter_+1` is an
`int` addition.  The function has no return statement; its result is not used by the caller and
is not modelled. -/
def PrepareExperiment (mt : Mt19937) (e : FindBallExperiment) (w : World) :
    Option (FindBallExperiment × List Effect) :=
  let su := w.su
  match PrepareExperiment.ball mt e with
  | none => none
  | some ((ball_x, ball_y), g) =>
    some ({ e with mt_ := g },
      PrepareExperiment.movePlayers su.players
        ++ [Effect.SendMoveBallCommand [ball_x, ball_y, 0, 0, 0, 0],
            Effect.TestOpened (intWrap (e.counter_ + 1)) (ball_x * 1000) (ball_y * 1000)
              su.players.length])

/-- The member function `HandleNotStarted` (lines 151-159). -/
def HandleNotStarted (e : FindBallExperiment) (w : World) : FindBallExperiment :=
  let r := HasNewAgent e w
  if r.1 then SetExperimentState r.2 w TEST_STARTING else r.2

/-- The member function `HandleStarting` (lines 161-176); `none` when `players[0]` or the table
of predefined points is read out of bounds. -/
def HandleStarting (mt : Mt19937) (e : FindBallExperiment) (w : World) :
    Option (FindBallExperiment × List Effect) :=
  let r1 : Option (FindBallExperiment × List Effect) :=
    if e.start_in_ = 0 then
      match w.su.players[0]? with
      | some p => some (SetExperimentState e w TEST_STARTED, [Effect.SendSelectPlayerCommand p])
      | none => none
    else
      some (e, [])
  match r1 with
  | none => none
  | some (e1, out1) =>
    let r2 : Option (FindBallExperiment × List Effect) :=
      if e1.start_in_ = 50 then PrepareExperiment mt e1 w else some (e1, [])
    match r2 with
    | none => none
    | some (e2, out2) => some ({ e2 with start_in_ := e2.start_in_ - 1 }, out1 ++ out2)

/-- Lines 189-191 of `HandleStarted`: the value of `finish` and the content of the local vector
`found_by` afterwards.  `||` does not evaluate `IsBallFound` when the timeout test is true, and
`&&` evaluates it before the test `time > 1`. -/
def HandleStarted.finish (w : World) (time : Int) : Bool × List Agent :=
  if time > FIND_BALL_TIMEOUT then
    (true, [])
  else
    let r := IsBallFound w (some [])
    (r.1 && decide (time > 1), r.2.getD [])

/-- The member function `HandleStarted` (lines 178-198). -/
def HandleStarted (e : FindBallExperiment) (w : World) : FindBallExperiment × List Effect :=
  let r := HasNewAgent e w
  if r.1 then
    let c := CancelExperiment r.2 w
    (SetExperimentState { c.1 with counter_ := c.1.start_index_ } w TEST_STARTING, c.2)
  else
    let time := GetTimerSeconds r.2 w
    let f := HandleStarted.finish w time
    if f.1 then
      let c := FinishExperiment r.2 w time f.2
      (SetExperimentState c.1 w TEST_FINISHED, c.2)
    else
      (r.2, [])

/-- The member function `HandleFinished` (lines 200-214). -/
def HandleFinished (e : FindBallExperiment) (w : World) : FindBallExperiment × List Effect :=
  let r : FindBallExperiment × List Effect :=
    if e.start_in_ = 300 then
      (e, [Effect.SendMoveBallCommand [10000, 10000, 0]])
    else if e.start_in_ = 150 then
      (SetExperimentState e w TEST_STARTING, [])
    else
      (e, [])
  ({ r.1 with start_in_ := r.1.start_in_ - 1 }, r.2)

/-- The first loop of `LogAgentPositions` (lines 369-374) over the remaining agents, `n` being the
number of iterations still allowed by `i < 5`; `none` when `updates` is written out of bounds. -/
def LogAgentPositions.fill (w : World) :
    Nat → List Agent → List FromRunswiftAgent → Option (List FromRunswiftAgent)
  | 0, _, updates => some updates
  | _ + 1, [], updates => some updates
  | n + 1, a :: rest, updates =>
    let u := (w.lastUpdate a).getD w.blank
    let i := u.player_number - 1
    if 0 ≤ i ∧ i < 5 then
      LogAgentPositions.fill w n rest (updates.set i.toNat u)
    else
      none

/-- The member function `LogAgentPositions` (lines 357-388); the trial number `counter_+1` is an
`int` addition. -/
def LogAgentPositions (e : FindBallExperiment) (w : World) :
    Option (FindBallExperiment × List Effect) :=
  let time := GetTimerSeconds e w
  if !e.started_ || e.last_log_ == time then
    some (e, [])
  else
    let e1 := { e with last_log_ := time }
    match LogAgentPositions.fill w 5 w.agents (List.replicate 5 w.blank) with
    | none => none
    | some updates =>
      some (e1, [Effect.PositionRow (intWrap (e1.counter_ + 1)) (GetTimerSeconds e1 w)
        (updates.map (fun u => (u.estimated_x_pos, u.estimated_y_pos, u.estimated_orientation)))])

/-- The switch of `Tick` (lines 104-119). -/
def Tick.handle (mt : Mt19937) (e : FindBallExperiment) (w : World) :
    Option (FindBallExperiment × List Effect) :=
  match GetExperimentState e with
  | NOT_STARTED => some (HandleNotStarted e w, [])
  | TEST_STARTING => HandleStarting mt e w
  | TEST_STARTED => some (HandleStarted e w)
  | TEST_FINISHED => some (HandleFinished e w)

/-- The message for active play (lines 125-126). -/
def responsePlaying : ToRunswiftAgent :=
  { penalty := Penalty.PENALTY_NONE, game_state := GameState.STATE_PLAYING }

/-- The message for held agents (lines 131-132). -/
def responsePenalised : ToRunswiftAgent :=
  { penalty := Penalty.PENALTY_SPL_ILLEGAL_BALL_CONTACT, game_state := GameState.STATE_PENALISED }

/-- Lines 121-134 of `Tick`: the response, the position log and the broadcast. -/
def Tick.respond (e : FindBallExperiment) (w : World) :
    Option (FindBallExperiment × List Effect) :=
  if GetExperimentState e = TEST_STARTED ∨ GetExperimentState e = TEST_FINISHED then
    match LogAgentPositions e w with
    | none => none
    | some (e1, out) => some (e1, out ++ [Effect.Send responsePlaying])
  else
    some (e, [Effect.Send responsePenalised])

/-- The member function `Tick` (lines 100-137): the object after the call and the effects of the
call, in order. -/
def Tick (mt : Mt19937) (e : FindBallExperiment) (w : World) :
    Option (FindBallExperiment × List Effect) :=
  let out0 := CheckSimulatorGameState w
  match Tick.handle mt e w with
  | none => none
  | some (e1, out1) =>
    match Tick.respond e1 w with
    | none => none
    | some (e2, out2) => some (e2, out0 ++ out1 ++ out2)

/-- The member function `Finish` (lines 139-148); closing the files is not modelled. -/
def Finish (e : FindBallExperiment) (w : World) : FindBallExperiment × List Effect :=
  CancelExperiment e w

/-- The driver loop of `run_experiment` (lines 543-552) for the given successive readings of the
collaborators: for each call of `Tick`, in order, the object after the call and the effects of the
call; `none` when one of the calls is undefined. -/
def run (mt : Mt19937) : FindBallExperiment → List World →
    Option (List (FindBallExperiment × List Effect))
  | _, [] => some []
  | e, w :: ws =>
    match Tick mt e w with
    | none => none
    | some r =>
      match run mt r.1 ws with
      | none => none
      | some rs => some (r :: rs)

/-- The object after the calls recorded in `hist`, starting from `e`. -/
def finalObject (e : FindBallExperiment) (hist : List (FindBallExperiment × List Effect)) :
    FindBallExperiment :=
  match hist.getLast? with
  | some r => r.1
  | none => e

/-- The object before call number `k` (counted from 0) of a run from `e` recorded in `hist`,
which is the object after `k` calls; the final object when `hist` has no call number `k`. -/
def objectBefore (e : FindBallExperiment) :
    List (FindBallExperiment × List Effect) → Nat → FindBallExperiment
  | [], _ => e
  | _ :: _, 0 => e
  | r :: rs, k + 1 => objectBefore r.1 rs k

/-- The effects of call number `k` (counted from 0) recorded in `hist`; none when `hist` has no
call number `k`. -/
def effectsOf : List (FindBallExperiment × List Effect) → Nat → List Effect
  | [], _ => []
  | r :: _, 0 => r.2
  | _ :: rs, k + 1 => effectsOf rs k

/-- All effects recorded in `hist`, in order. -/
def allEffects (hist : List (FindBallExperiment × List Effect)) : List Effect :=
  (hist.map Prod.snd).flatten

/-! ## Specification-side definitions -/

/-- The found-ball predicate in the words of the specification (section 4.2): telemetry is
available, the streak counter is at least 5, the ball is currently visible and the reported
distance is at most 300. -/
def satisfiesFoundBall (w : World) (a : Agent) : Bool :=
  match w.lastUpdate a with
  | some u => decide (5 ≤ u.ball_seen_count) && u.can_see_ball && decide (u.dist_from_ball ≤ 300)
  | none => false

/-- The roster has grown since the last check: the test made by `HasNewAgent`. -/
def rosterGrew (e : FindBallExperiment) (w : World) : Prop :=
  (w.agents.length : Int) > e.num_agents_

instance (e : FindBallExperiment) (w : World) : Decidable (rosterGrew e w) := by
  unfold rosterGrew; infer_instance

/-- The condition under which the specification ends a live trial (section 4.1): the elapsed
seconds exceed 300, or they exceed 1 and some connected agent satisfies the found-ball predicate. -/
def trialEnds (e : FindBallExperiment) (w : World) : Prop :=
  w.now - e.timer_ > 300 ∨ (w.now - e.timer_ > 1 ∧ ∃ a ∈ w.agents, satisfiesFoundBall w a = true)

instance (e : FindBallExperiment) (w : World) : Decidable (trialEnds e w) := by
  unfold trialEnds; infer_instance

/-- The objects a controller constructed with `start_from` can be in after some number of calls
of `Tick`. -/
def Reachable (mt : Mt19937) (start_from : Int) (e : FindBallExperiment) : Prop :=
  ∃ (t0 : Int) (ws : List World) (hist : List (FindBallExperiment × List Effect)),
    run mt (FindBallExperiment.new mt start_from t0) ws = some hist
      ∧ e = finalObject (FindBallExperiment.new mt start_from t0) hist

/-- Recognises the "trial opened" write. -/
def Effect.isTestOpened : Effect → Bool
  | Effect.TestOpened _ _ _ _ => true
  | _ => false

/-- Recognises the "trial closed" write. -/
def Effect.isTestClosed : Effect → Bool
  | Effect.TestClosed _ _ => true
  | _ => false

/-- Recognises a move-ball command. -/
def Effect.isMoveBall : Effect → Bool
  | Effect.SendMoveBallCommand _ => true
  | _ => false

/-- The writes to the trial-summary sink among the effects, in order: `true` for a "trial opened"
record and `false` for a "trial closed" record. -/
def sinkWrites : List Effect → List Bool
  | [] => []
  | Effect.TestOpened _ _ _ _ :: rest => true :: sinkWrites rest
  | Effect.TestClosed _ _ :: rest => false :: sinkWrites rest
  | _ :: rest => sinkWrites rest

/-- The list alternates between the two values and starts with `next`. -/
def alternating : Bool → List Bool → Bool
  | _, [] => true
  | next, x :: xs => x == next && alternating (!next) xs

/-- A trial is open: the last write to the trial-summary sink is a "trial opened" record. -/
def trialOpen (trace : List Effect) : Bool :=
  (sinkWrites trace).getLast? == some true

/-- The trial-summary sink as an automaton over the effects: from `isOpen`, an opened record is
only accepted when no trial is open and a closed record only when one is. -/
def sinkAfter : Bool → List Effect → Option Bool
  | isOpen, [] => some isOpen
  | isOpen, Effect.TestOpened _ _ _ _ :: rest => if isOpen then none else sinkAfter true rest
  | isOpen, Effect.TestClosed _ _ :: rest => if isOpen then sinkAfter false rest else none
  | isOpen, _ :: rest => sinkAfter isOpen rest

/-- How the state and the countdown of the controller relate to the sink: no trial is open in
NOT_STARTED and TEST_FINISHED, one is open in TEST_STARTED, and in TEST_STARTING one is open
exactly when the countdown has passed 50. -/
def sinkInv (e : FindBallExperiment) (isOpen : Bool) : Prop :=
  match e.state_ with
  | NOT_STARTED => isOpen = false
  | TEST_STARTING => 0 ≤ e.start_in_ ∧ e.start_in_ ≤ 150 ∧ (isOpen = true ↔ e.start_in_ < 50)
  | TEST_STARTED => isOpen = true
  | TEST_FINISHED => isOpen = false

/-- The position log can be written for these readings: each of the first five connected agents
leaves a player number in 1..5 in the local that `LogAgentPositions` uses as an index. -/
def positionsLoggable (w : World) : Prop :=
  ∀ a ∈ w.agents.take 5,
    1 ≤ ((w.lastUpdate a).getD w.blank).player_number
      ∧ ((w.lastUpdate a).getD w.blank).player_number ≤ 5

/-! ## Concrete data for the examples -/

/-- A generator model for the examples: every draw is 0. -/
def exampleMt : Mt19937 :=
  { seed := fun _ => 0, draw := fun g => (0, g) }

/-- Telemetry of the scenario of section 8: player 1 reports streak 5, ball visible, distance 250. -/
def exampleUpdate : FromRunswiftAgent :=
  { player_number := 1, estimated_x_pos := 0, estimated_y_pos := 0, estimated_orientation := 0,
    ball_seen_count := 5, can_see_ball := true, dist_from_ball := 250 }

/-- Telemetry of an agent that does not see the ball. -/
def exampleBlind : FromRunswiftAgent :=
  { player_number := 1, estimated_x_pos := 0, estimated_y_pos := 0, estimated_orientation := 0,
    ball_seen_count := 0, can_see_ball := false, dist_from_ball := 0 }

/-- A snapshot with one player, numbered 1, in a phase other than before kick-off. -/
def exampleSnapshot : SimulatorUpdate :=
  { players := [{ id := 7, number := 1 }], play_mode := PlayMode.OTHER }

/-- The collaborators when the agents `agents` are connected, each reporting `exampleUpdate`, at
clock reading `now`. -/
def exampleWorld (agents : List Agent) (now : Int) : World :=
  { agents := agents, lastUpdate := fun _ => some exampleUpdate, blank := exampleBlind,
    su := exampleSnapshot, now := now }

/-- The collaborators when the agents `agents` are connected, none of them seeing the ball. -/
def exampleQuiet (agents : List Agent) (now : Int) : World :=
  { agents := agents, lastUpdate := fun _ => some exampleBlind, blank := exampleBlind,
    su := exampleSnapshot, now := now }

/-- A controller in TEST_STARTED whose trial started at clock reading 100 with one agent; it is the
object reached from `FindBallExperiment.new exampleMt 1 100` after 152 ticks with one agent. -/
def exampleStarted : FindBallExperiment :=
  { start_index_ := 0, state_ := TEST_STARTED, timer_ := 100, counter_ := 0, num_agents_ := 1,
    started_ := true, start_in_ := -1, last_log_ := 0, mt_ := 0 }

/-- The readings of the collaborators during a first trial that one agent wins after 2 seconds and
the pre-roll and first moment of a second trial: 1 tick in NOT_STARTED, 151 in TEST_STARTING, 2 in
TEST_STARTED, 151 in TEST_FINISHED and 150 in TEST_STARTING. -/
def exampleTwoTrials : List World :=
  List.replicate 153 (exampleQuiet [0] 100) ++ [exampleWorld [0] 102]
    ++ List.replicate 301 (exampleQuiet [0] 102)

/-- The controller in TEST_STARTED at the start of its second trial; it is the object reached from
`FindBallExperiment.new exampleMt 1 100` after the ticks of `exampleTwoTrials`. -/
def exampleSecondTrial : FindBallExperiment :=
  { start_index_ := 0, state_ := TEST_STARTED, timer_ := 102, counter_ := 1, num_agents_ := 1,
    started_ := true, start_in_ := -1, last_log_ := 0, mt_ := 0 }

/-- What the controller constructed with `start_from = 1` at clock reading 100 does during the
ticks of `exampleTwoTrials`. -/
def exampleHistory : List (FindBallExperiment × List Effect) :=
  (run exampleMt (FindBallExperiment.new exampleMt 1 100) exampleTwoTrials).getD []

/-- A second generator model for the examples, different from `exampleMt`. -/
def exampleMt2 : Mt19937 :=
  { seed := fun i => i.toNat + 1, draw := fun g => (1, g + 1) }

/-- A controller with another history than `exampleSecondTrial`: constructed with
`start_from = 5`, waiting in TEST_STARTING with countdown 50 for its twelfth trial. -/
def exampleTwelfth : FindBallExperiment :=
  { start_index_ := 4, state_ := TEST_STARTING, timer_ := 7, counter_ := 11, num_agents_ := 3,
    started_ := false, start_in_ := 50, last_log_ := 9, mt_ := 12345 }

/-- The controller just after its first trial was won: the object reached from
`FindBallExperiment.new exampleMt 1 100` after the first 154 ticks of `exampleTwoTrials`, entering
TEST_FINISHED with the countdown at 300. -/
def exampleFinished : FindBallExperiment :=
  { start_index_ := 0, state_ := TEST_FINISHED, timer_ := 100, counter_ := 1, num_agents_ := 1,
    started_ := false, start_in_ := 300, last_log_ := 0, mt_ := 0 }

/-- What the controller does during the 151 ticks that follow `exampleFinished`. -/
def exampleCooldown : List (FindBallExperiment × List Effect) :=
  (run exampleMt exampleFinished (List.replicate 151 (exampleQuiet [0] 102))).getD []

/-- The controller after its first tick with one agent connected: it has just entered
TEST_STARTING from NOT_STARTED. -/
def exampleEntered : FindBallExperiment :=
  { start_index_ := 0, state_ := TEST_STARTING, timer_ := 100, counter_ := 0, num_agents_ := 1,
    started_ := false, start_in_ := 150, last_log_ := 0, mt_ := 0 }

/-- What the controller does during the 151 ticks that follow `exampleEntered`. -/
def examplePreroll : List (FindBallExperiment × List Effect) :=
  (run exampleMt exampleEntered (List.replicate 151 (exampleQuiet [0] 100))).getD []

/-- Recognises the broadcast to the agents. -/
def Effect.isSend : Effect → Bool
  | Effect.Send _ => true
  | _ => false

/-- Recognises a position-log row. -/
def Effect.isPositionRow : Effect → Bool
  | Effect.PositionRow _ _ _ => true
  | _ => false

/-- Recognises a select-player command. -/
def Effect.isSelectPlayer : Effect → Bool
  | Effect.SendSelectPlayerCommand _ => true
  | _ => false

/-- Recognises what a state handler can do: a select-player, move-player or move-ball command or a
write to the trial-summary sink. -/
def Effect.isHandlerEffect : Effect → Bool
  | Effect.SendSelectPlayerCommand _ => true
  | Effect.SendMovePlayerCommand _ _ _ _ _ => true
  | Effect.SendMoveBallCommand _ => true
  | Effect.TestOpened _ _ _ _ => true
  | Effect.TestClosed _ _ => true
  | _ => false

/-- The trial numbers of the "trial opened" records among the effects, in order. -/
def openedNumbers : List Effect → List Int
  | [] => []
  | Effect.TestOpened test _ _ _ :: rest => test :: openedNumbers rest
  | _ :: rest => openedNumbers rest

/-- The readings when no agent is connected and the simulator is before kick-off. -/
def exampleEmpty (now : Int) : World :=
  { agents := [], lastUpdate := fun _ => none, blank := exampleBlind,
    su := { players := [], play_mode := PlayMode.BEFORE_KICK_OFF }, now := now }

/-- The readings with one connected agent that does not see the ball, while the simulator is
before kick-off. -/
def exampleKickOff (now : Int) : World :=
  { agents := [0], lastUpdate := fun _ => some exampleBlind, blank := exampleBlind,
    su := { players := [{ id := 7, number := 1 }], play_mode := PlayMode.BEFORE_KICK_OFF },
    now := now }

/-- The readings during a first trial in which a position-log row is written at elapsed second 1,
the ball is found at second 2 and the cooldown is observed at second 3: 1 tick in NOT_STARTED, 151
in TEST_STARTING, then the ticks at clock readings 101, 102 and 103. -/
def exampleLoggedTrial : List World :=
  List.replicate 152 (exampleQuiet [0] 100)
    ++ [exampleQuiet [0] 101, exampleWorld [0] 102, exampleQuiet [0] 103]

/-- What the controller constructed with `start_from = 1` at clock reading 100 does during the
ticks of `exampleLoggedTrial`. -/
def exampleLogged : List (FindBallExperiment × List Effect) :=
  (run exampleMt (FindBallExperiment.new exampleMt 1 100) exampleLoggedTrial).getD []

/-- The readings with one connected agent while the simulator reports no player. -/
def exampleNoPlayers (now : Int) : World :=
  { agents := [0], lastUpdate := fun _ => some exampleBlind, blank := exampleBlind,
    su := { players := [], play_mode := PlayMode.OTHER }, now := now }

/-- What the controller constructed with `start_from = 1` at clock reading 100 does during 151
ticks with one connected agent and no player in the simulator snapshot. -/
def exampleUnplaced : List (FindBallExperiment × List Effect) :=
  (run exampleMt (FindBallExperiment.new exampleMt 1 100)
    (List.replicate 151 (exampleNoPlayers 100))).getD []

/-- No opened record has been written since the sequence index was set to `start_from - 1`: the
controller waits in NOT_STARTED, or in TEST_STARTING before placement, with that index. -/
def awaitsPlacement (start_from : Int) (e : FindBallExperiment) : Prop :=
  e.counter_ = start_from - 1
    ∧ (e.state_ = NOT_STARTED ∨ (e.state_ = TEST_STARTING ∧ 50 ≤ e.start_in_))

/-- The readings when the agents `agents` are connected and agent `a` reports player number
`a + 1`, streak 5, ball visible and distance 250. -/
def exampleTeam (agents : List Agent) (now : Int) : World :=
  { agents := agents,
    lastUpdate := fun a => some { exampleUpdate with player_number := (a : Int) + 1 },
    blank := exampleBlind, su := exampleSnapshot, now := now }

/-- The record that `LogAgentPositions` holds for a roster entry: the telemetry of the agent, or
the unfilled local when `GetLastUpdate` fails. -/
def loggedUpdate (w : World) (a : Agent) : FromRunswiftAgent :=
  (w.lastUpdate a).getD w.blank

/-- The record of the last agent, in roster order among the first five roster entries, that
reports player number `k`; `none` when none of them does. -/
def lastReport (w : World) (k : Int) : Option FromRunswiftAgent :=
  (((w.agents.take 5).map (loggedUpdate w)).filter
    (fun u => decide (u.player_number = k))).getLast?

/-- The readings with seven connected agents that report the player numbers 2, 1, 2, 5, 1, 3, 4
in roster order, agent `a` reporting the position `(10 a, 20 a)` and the orientation `a`. -/
def exampleCrowd (now : Int) : World :=
  { agents := [0, 1, 2, 3, 4, 5, 6],
    lastUpdate := fun a =>
      some { exampleBlind with
        player_number := ([2, 1, 2, 5, 1, 3, 4] : List Int).getD a 1,
        estimated_x_pos := 10 * (a : Int), estimated_y_pos := 20 * (a : Int),
        estimated_orientation := (a : Int) },
    blank := exampleBlind, su := exampleSnapshot, now := now }

/-- The readings with two connected agents: agent 0 reports player number 1 at position (10, 20)
with orientation 3, and `GetLastUpdate` fails for agent 1; `number` is the player number held by a
local `FromRunswiftAgent` that was not filled, whose other members are 0. -/
def exampleSilent (number : Int) (agents : List Agent) : World :=
  { agents := agents,
    lastUpdate := fun a =>
      if a = 0 then
        some { exampleBlind with
          player_number := 1, estimated_x_pos := 10, estimated_y_pos := 20,
          estimated_orientation := 3 }
      else none,
    blank := { exampleBlind with player_number := number },
    su := exampleSnapshot, now := 101 }

/-- What the controller does during the 151 ticks that follow `exampleEntered` when a second
agent is connected during the whole pre-roll. -/
def exampleJoined : List (FindBallExperiment × List Effect) :=
  (run exampleMt exampleEntered (List.replicate 151 (exampleQuiet [0, 1] 100))).getD []

/-- The controller constructed with `start_from = 2147483647` at the start of its second trial: the
object reached from `FindBallExperiment.new exampleMt 2147483647 100` after the ticks of
`exampleTwoTrials`, with the sequence index at `INT_MAX`. -/
def exampleLastTrial : FindBallExperiment :=
  { start_index_ := 2147483646, state_ := TEST_STARTED, timer_ := 102, counter_ := 2147483647,
    num_agents_ := 1, started_ := true, start_in_ := -1, last_log_ := 0, mt_ := 0 }

/-- The controller of `exampleLastTrial` after the tick at clock reading 104 on which its agent
has found the ball: the increment of the sequence index has overflowed. -/
def exampleWrapped : FindBallExperiment :=
  { start_index_ := 2147483646, state_ := TEST_FINISHED, timer_ := 102, counter_ := -2147483648,
    num_agents_ := 1, started_ := false, start_in_ := 300, last_log_ := 0, mt_ := 0 }

/-! ## Lemmas on the found-ball test -/

theorem satisfiesFoundBall_some (w : World) (a : Agent) (u : FromRunswiftAgent)
    (h : w.lastUpdate a = some u) : satisfiesFoundBall w a = ballFoundTest u := by
  simp [satisfiesFoundBall, h, ballFoundTest, FIND_BALL_SEEN_FRAMES, FIND_BALL_MAX_DIST]

theorem satisfiesFoundBall_none (w : World) (a : Agent)
    (h : w.lastUpdate a = none) : satisfiesFoundBall w a = false := by
  simp [satisfiesFoundBall, h]

theorem IsBallFound.loop_eq (w : World) (l : List Agent) (found : Bool)
    (found_by : Option (List Agent)) :
    IsBallFound.loop w l found found_by
      = (found || l.any (satisfiesFoundBall w),
         found_by.map (fun v => v ++ l.filter (satisfiesFoundBall w))) := by
  induction l generalizing found found_by with
  | nil => cases found_by <;> simp [IsBallFound.loop]
  | cons a rest ih =>
    cases hu : w.lastUpdate a with
    | none =>
      have hs := satisfiesFoundBall_none w a hu
      simp [IsBallFound.loop, hu, ih, hs]
    | some u =>
      have hs := satisfiesFoundBall_some w a u hu
      by_cases ht : ballFoundTest u = true
      · rw [ht] at hs
        cases found_by <;> simp [IsBallFound.loop, hu, ih, hs, ht]
      · have ht' : ballFoundTest u = false := by simpa using ht
        rw [ht'] at hs
        simp [IsBallFound.loop, hu, ih, hs, ht']

theorem IsBallFound_eq (w : World) (found_by : Option (List Agent)) :
    IsBallFound w found_by
      = (w.agents.any (satisfiesFoundBall w),
         found_by.map (fun v => v ++ w.agents.filter (satisfiesFoundBall w))) := by
  simp [IsBallFound, IsBallFound.loop_eq]

theorem HandleStarted.finish_eq (w : World) (time : Int) :
    HandleStarted.finish w time
      = if time > 300 then (true, [])
        else (w.agents.any (satisfiesFoundBall w) && decide (time > 1),
              w.agents.filter (satisfiesFoundBall w)) := by
  simp [HandleStarted.finish, IsBallFound_eq, FIND_BALL_TIMEOUT]

theorem HandleStarted.finish_iff (e : FindBallExperiment) (w : World) :
    (HandleStarted.finish w (w.now - e.timer_)).1 = true ↔ trialEnds e w := by
  rw [HandleStarted.finish_eq, trialEnds]
  by_cases h : w.now - e.timer_ > 300
  · simp [h]
  · simp only [h, if_false, false_or, Bool.and_eq_true, List.any_eq_true, decide_eq_true_eq]
    constructor
    · rintro ⟨h1, h2⟩; exact ⟨h2, h1⟩
    · rintro ⟨h1, h2⟩; exact ⟨h2, h1⟩

/-! ## Lemmas on `HandleStarted` -/

theorem HandleStarted_grew (e : FindBallExperiment) (w : World)
    (hs : e.state_ = TEST_STARTED) (hg : rosterGrew e w) :
    HandleStarted e w
      = ({ e with num_agents_ := w.agents.length, counter_ := e.start_index_, start_in_ := 150,
                  started_ := false, state_ := TEST_STARTING },
         [Effect.TestClosed (w.now - e.timer_) ['-', '1']]) := by
  unfold rosterGrew at hg
  simp [HandleStarted, HasNewAgent, hg, CancelExperiment, GetExperimentState, hs,
    FinishExperiment, FinishExperiment.found_str, SetExperimentState, GetTimerSeconds]

theorem HandleStarted_not_grew (e : FindBallExperiment) (w : World) (hg : ¬ rosterGrew e w) :
    HandleStarted e w
      = if (HandleStarted.finish w (w.now - e.timer_)).1 = true then
          (SetExperimentState
            (FinishExperiment { e with num_agents_ := w.agents.length } w (w.now - e.timer_)
              (HandleStarted.finish w (w.now - e.timer_)).2).1 w TEST_FINISHED,
           (FinishExperiment { e with num_agents_ := w.agents.length } w (w.now - e.timer_)
              (HandleStarted.finish w (w.now - e.timer_)).2).2)
        else ({ e with num_agents_ := w.agents.length }, []) := by
  unfold rosterGrew at hg
  simp [HandleStarted, HasNewAgent, hg, GetTimerSeconds]

theorem FinishExperiment.found_str_ne_nil (w : World) (found_by : List Agent)
    (hne : found_by ≠ []) (hall : ∀ a ∈ found_by, satisfiesFoundBall w a = true) :
    FinishExperiment.found_str w found_by ≠ [] := by
  cases found_by with
  | nil => exact absurd rfl hne
  | cons a rest =>
    have ha := hall a (List.mem_cons_self a rest)
    cases hu : w.lastUpdate a with
    | none => rw [satisfiesFoundBall_none w a hu] at ha; exact absurd ha (by decide)
    | some u => simp [FinishExperiment.found_str, hu]

/-! ## The live trial: closing (C1, C2, C3) -/

/-- C1: in TEST_STARTED, on a tick without roster growth, `HandleStarted` closes the trial (writes
the closing fields and moves to TEST_FINISHED) if and only if the elapsed seconds exceed 300, or
exceed 1 while at least one agent satisfies the found-ball predicate; otherwise it writes nothing
and stays in TEST_STARTED. -/
theorem HandleStarted_closes_iff (e : FindBallExperiment) (w : World)
    (hs : e.state_ = TEST_STARTED) (hg : ¬ rosterGrew e w) :
    (((HandleStarted e w).1.state_ = TEST_FINISHED
        ∧ ∃ found_str, (HandleStarted e w).2 = [Effect.TestClosed (w.now - e.timer_) found_str])
      ↔ trialEnds e w)
    ∧ (¬ trialEnds e w →
        (HandleStarted e w).1.state_ = TEST_STARTED ∧ (HandleStarted e w).2 = []) := by
  rw [HandleStarted_not_grew e w hg]
  by_cases hf : (HandleStarted.finish w (w.now - e.timer_)).1 = true
  · have ht : trialEnds e w := (HandleStarted.finish_iff e w).1 hf
    rw [if_pos hf]
    refine ⟨⟨fun _ => ht, fun _ => ⟨by simp [SetExperimentState], ?_⟩⟩, fun hn => absurd ht hn⟩
    simp [FinishExperiment]
  · have ht : ¬ trialEnds e w := fun h => hf ((HandleStarted.finish_iff e w).2 h)
    rw [if_neg hf]
    refine ⟨⟨fun h => ?_, fun h => absurd h ht⟩, fun _ => ⟨hs, rfl⟩⟩
    rw [hs] at h
    exact absurd h.1 (by decide)

/-- C1, the scenario of section 8: with one agent reporting streak 5, ball visible and distance
250, the trial closes at elapsed = 2, crediting player 1, and does not close at elapsed = 1. -/
theorem HandleStarted_closes_iff_witness :
    (exampleStarted.state_ = TEST_STARTED ∧ ¬ rosterGrew exampleStarted (exampleWorld [0] 102)
      ∧ ¬ rosterGrew exampleStarted (exampleWorld [0] 101))
    ∧ ((HandleStarted exampleStarted (exampleWorld [0] 102)).1.state_ = TEST_FINISHED
      ∧ (HandleStarted exampleStarted (exampleWorld [0] 102)).2 = [Effect.TestClosed 2 ['1']])
    ∧ ((HandleStarted exampleStarted (exampleWorld [0] 101)).1.state_ = TEST_STARTED
      ∧ (HandleStarted exampleStarted (exampleWorld [0] 101)).2 = []) :=
  ⟨⟨rfl, by decide, by decide⟩,
   ⟨((HandleStarted_closes_iff exampleStarted (exampleWorld [0] 102) rfl (by decide)).1.2
      (Or.inr ⟨by decide, 0, by decide, by decide⟩)).1, by decide⟩,
   (HandleStarted_closes_iff exampleStarted (exampleWorld [0] 101) rfl (by decide)).2
      (by decide)⟩

/-- C2, refuted as stated: at elapsed = 301 an agent satisfies the found-ball predicate, yet the
finder list handed to `FinishExperiment` is empty and the closing record carries the sentinel,
because the timeout test is evaluated first and `IsBallFound` is then not called. -/
theorem HandleStarted_timeout_drops_finders :
    exampleStarted.state_ = TEST_STARTED
    ∧ ¬ rosterGrew exampleStarted (exampleWorld [0] 401)
    ∧ (exampleWorld [0] 401).now - exampleStarted.timer_ = 301
    ∧ (0 ∈ (exampleWorld [0] 401).agents ∧ satisfiesFoundBall (exampleWorld [0] 401) 0 = true)
    ∧ (HandleStarted.finish (exampleWorld [0] 401) 301).2 = []
    ∧ (HandleStarted exampleStarted (exampleWorld [0] 401)).2
        = [Effect.TestClosed 301 ['-', '1']] := by
  refine ⟨rfl, by decide, by decide, ⟨by decide, by decide⟩, by decide, ?_⟩
  rw [HandleStarted_not_grew _ _ (by decide)]
  decide

/-- C2, amended: in TEST_STARTED, on a tick without roster growth and with 1 < elapsed ≤ 300, if
at least one agent satisfies the found-ball predicate then `HandleStarted` finishes the trial
(the handler run by `Tick` in that state) through `FinishExperiment` with a finder list that is
non-empty, consists of connected agents
satisfying the predicate and contains every connected agent that satisfies it; the closing record
carries a non-empty finder string and the state becomes TEST_FINISHED. -/
theorem HandleStarted_success_collects_all (mt : Mt19937) (e : FindBallExperiment) (w : World)
    (hs : e.state_ = TEST_STARTED) (hg : ¬ rosterGrew e w)
    (h1 : w.now - e.timer_ > 1) (h300 : w.now - e.timer_ ≤ 300)
    (hq : ∃ a ∈ w.agents, satisfiesFoundBall w a = true) :
    (Tick.handle mt e w
        = some (SetExperimentState
            (FinishExperiment { e with num_agents_ := w.agents.length } w (w.now - e.timer_)
              (HandleStarted.finish w (w.now - e.timer_)).2).1 w TEST_FINISHED,
           [Effect.TestClosed (w.now - e.timer_)
              (FinishExperiment.found_str w (HandleStarted.finish w (w.now - e.timer_)).2)]))
    ∧ (HandleStarted e w).1.state_ = TEST_FINISHED
    ∧ (HandleStarted.finish w (w.now - e.timer_)).2 ≠ []
    ∧ FinishExperiment.found_str w (HandleStarted.finish w (w.now - e.timer_)).2 ≠ []
    ∧ (∀ a, a ∈ (HandleStarted.finish w (w.now - e.timer_)).2
          ↔ a ∈ w.agents ∧ satisfiesFoundBall w a = true) := by
  have hf : (HandleStarted.finish w (w.now - e.timer_)).1 = true :=
    (HandleStarted.finish_iff e w).2 (Or.inr ⟨h1, hq⟩)
  have hlist : (HandleStarted.finish w (w.now - e.timer_)).2
      = w.agents.filter (satisfiesFoundBall w) := by
    rw [HandleStarted.finish_eq, if_neg (not_lt.mpr h300)]
  have hmem : ∀ a, a ∈ (HandleStarted.finish w (w.now - e.timer_)).2
      ↔ a ∈ w.agents ∧ satisfiesFoundBall w a = true := by
    intro a; rw [hlist, List.mem_filter]
  have hne : (HandleStarted.finish w (w.now - e.timer_)).2 ≠ [] := by
    obtain ⟨a, ha, hsat⟩ := hq
    exact List.ne_nil_of_mem ((hmem a).2 ⟨ha, hsat⟩)
  have hstr : FinishExperiment.found_str w (HandleStarted.finish w (w.now - e.timer_)).2 ≠ [] :=
    FinishExperiment.found_str_ne_nil w _ hne (fun a ha => ((hmem a).1 ha).2)
  have heq : HandleStarted e w
      = (SetExperimentState
          (FinishExperiment { e with num_agents_ := w.agents.length } w (w.now - e.timer_)
            (HandleStarted.finish w (w.now - e.timer_)).2).1 w TEST_FINISHED,
         [Effect.TestClosed (w.now - e.timer_)
            (FinishExperiment.found_str w (HandleStarted.finish w (w.now - e.timer_)).2)]) := by
    rw [HandleStarted_not_grew e w hg, if_pos hf]
    simp [FinishExperiment, hstr]
  refine ⟨?_, ?_, hne, hstr, hmem⟩
  · simp only [Tick.handle, GetExperimentState, hs, heq]
  · rw [heq]
    simp [SetExperimentState]

/-- C2, amended, at a concrete tick: two agents both satisfy the predicate at elapsed = 2, the
state becomes TEST_FINISHED and both agents are in the finder list. -/
theorem HandleStarted_success_collects_all_witness :
    (exampleStarted.state_ = TEST_STARTED
      ∧ ¬ rosterGrew { exampleStarted with num_agents_ := 2 } (exampleWorld [0, 1] 102))
    ∧ (HandleStarted { exampleStarted with num_agents_ := 2 }
        (exampleWorld [0, 1] 102)).1.state_ = TEST_FINISHED
    ∧ 0 ∈ (HandleStarted.finish (exampleWorld [0, 1] 102) 2).2
    ∧ 1 ∈ (HandleStarted.finish (exampleWorld [0, 1] 102) 2).2 :=
  have h := HandleStarted_success_collects_all exampleMt { exampleStarted with num_agents_ := 2 }
      (exampleWorld [0, 1] 102) rfl (by decide) (by decide) (by decide)
      ⟨0, by decide, by decide⟩
  ⟨⟨rfl, by decide⟩, h.2.1, (h.2.2.2.2 0).2 ⟨by decide, by decide⟩,
    (h.2.2.2.2 1).2 ⟨by decide, by decide⟩⟩

/-- C3: `IsBallFound` appends to `found_by` exactly the connected agents, in roster order and
once per roster entry, whose telemetry is available and has `ball_seen_count >= 5`, `can_see_ball`
true and `dist_from_ball <= 300`; it returns true if and only if there is such an agent, whether
or not a vector is supplied. -/
theorem IsBallFound_collects_exactly (w : World) (v : List Agent) :
    (IsBallFound w (some v)).2 = some (v ++ w.agents.filter (satisfiesFoundBall w))
    ∧ (IsBallFound w (some [])).2 = some (w.agents.filter (satisfiesFoundBall w))
    ∧ ((IsBallFound w (some v)).1 = true ↔ w.agents.filter (satisfiesFoundBall w) ≠ [])
    ∧ ((IsBallFound w none).1 = true ↔ w.agents.filter (satisfiesFoundBall w) ≠ [])
    ∧ (∀ a, satisfiesFoundBall w a = true ↔
        ∃ u, w.lastUpdate a = some u ∧ u.ball_seen_count ≥ 5 ∧ u.can_see_ball = true
          ∧ u.dist_from_ball ≤ 300) := by
  have hany : w.agents.any (satisfiesFoundBall w) = true
      ↔ w.agents.filter (satisfiesFoundBall w) ≠ [] := by
    rw [List.any_eq_true, Ne, List.filter_eq_nil_iff]
    push_neg
    rfl
  refine ⟨by simp [IsBallFound_eq], by simp [IsBallFound_eq], ?_, ?_, ?_⟩
  · rw [IsBallFound_eq]; exact hany
  · rw [IsBallFound_eq]; exact hany
  · intro a
    cases hu : w.lastUpdate a with
    | none => simp [satisfiesFoundBall, hu]
    | some u => simp [satisfiesFoundBall, hu, and_assoc]

/-! ## One call of `Tick`, state by state -/

theorem HandleNotStarted_eq (e : FindBallExperiment) (w : World) :
    HandleNotStarted e w
      = if rosterGrew e w then
          { e with num_agents_ := w.agents.length, start_in_ := 150, started_ := false,
                   state_ := TEST_STARTING }
        else { e with num_agents_ := w.agents.length } := by
  unfold rosterGrew
  by_cases hg : (w.agents.length : Int) > e.num_agents_ <;>
    simp [HandleNotStarted, HasNewAgent, hg, SetExperimentState]

theorem Tick_not_started (mt : Mt19937) (e : FindBallExperiment) (w : World)
    (hs : e.state_ = NOT_STARTED) :
    Tick mt e w
      = some (HandleNotStarted e w,
          CheckSimulatorGameState w ++ [Effect.Send responsePenalised]) := by
  rw [HandleNotStarted_eq]
  by_cases hg : rosterGrew e w
  · simp [Tick, Tick.handle, GetExperimentState, hs, HandleNotStarted_eq, hg, Tick.respond]
  · simp [Tick, Tick.handle, GetExperimentState, hs, HandleNotStarted_eq, hg, Tick.respond]

theorem Tick_finished (mt : Mt19937) (e : FindBallExperiment) (w : World)
    (hs : e.state_ = TEST_FINISHED) (hst : e.started_ = false) :
    Tick mt e w
      = if e.start_in_ = 300 then
          some ({ e with start_in_ := 299 },
            CheckSimulatorGameState w
              ++ [Effect.SendMoveBallCommand [10000, 10000, 0], Effect.Send responsePlaying])
        else if e.start_in_ = 150 then
          some ({ e with start_in_ := 149, started_ := false, state_ := TEST_STARTING },
            CheckSimulatorGameState w ++ [Effect.Send responsePenalised])
        else
          some ({ e with start_in_ := e.start_in_ - 1 },
            CheckSimulatorGameState w ++ [Effect.Send responsePlaying]) := by
  by_cases h300 : e.start_in_ = 300
  · simp [Tick, Tick.handle, GetExperimentState, hs, HandleFinished, h300, Tick.respond,
      LogAgentPositions, hst]
  · by_cases h150 : e.start_in_ = 150
    · simp [Tick, Tick.handle, GetExperimentState, hs, HandleFinished, h150, Tick.respond,
        SetExperimentState]
    · simp [Tick, Tick.handle, GetExperimentState, hs, HandleFinished, h300, h150, Tick.respond,
        LogAgentPositions, hst]

theorem Tick_started_grew (mt : Mt19937) (e : FindBallExperiment) (w : World)
    (hs : e.state_ = TEST_STARTED) (hg : rosterGrew e w) :
    Tick mt e w
      = some ({ e with num_agents_ := w.agents.length, counter_ := e.start_index_,
                       start_in_ := 150, started_ := false, state_ := TEST_STARTING },
          CheckSimulatorGameState w
            ++ [Effect.TestClosed (w.now - e.timer_) ['-', '1'], Effect.Send responsePenalised]) := by
  simp [Tick, Tick.handle, GetExperimentState, hs, HandleStarted_grew e w hs hg, Tick.respond]

theorem Tick_started_finish (mt : Mt19937) (e : FindBallExperiment) (w : World)
    (hs : e.state_ = TEST_STARTED) (hg : ¬ rosterGrew e w) (hf : trialEnds e w) :
    ∃ found_str,
      Tick mt e w
        = some ({ e with num_agents_ := w.agents.length, counter_ := intWrap (e.counter_ + 1),
                         start_in_ := 300, started_ := false, state_ := TEST_FINISHED },
            CheckSimulatorGameState w
              ++ [Effect.TestClosed (w.now - e.timer_) found_str, Effect.Send responsePlaying]) := by
  have hf' := (HandleStarted.finish_iff e w).2 hf
  refine ⟨if FinishExperiment.found_str w (HandleStarted.finish w (w.now - e.timer_)).2 = []
    then ['-', '1']
    else FinishExperiment.found_str w (HandleStarted.finish w (w.now - e.timer_)).2, ?_⟩
  have hH : HandleStarted e w
      = ({ e with num_agents_ := w.agents.length, counter_ := intWrap (e.counter_ + 1),
                  start_in_ := 300, started_ := false, state_ := TEST_FINISHED },
         [Effect.TestClosed (w.now - e.timer_)
            (if FinishExperiment.found_str w (HandleStarted.finish w (w.now - e.timer_)).2 = []
              then ['-', '1']
              else FinishExperiment.found_str w (HandleStarted.finish w (w.now - e.timer_)).2)]) := by
    rw [HandleStarted_not_grew e w hg, if_pos hf']
    simp [FinishExperiment, SetExperimentState]
  simp [Tick, Tick.handle, GetExperimentState, hs, hH, Tick.respond, LogAgentPositions]

theorem Tick_started_continue (mt : Mt19937) (e : FindBallExperiment) (w : World)
    (hs : e.state_ = TEST_STARTED) (hg : ¬ rosterGrew e w) (hf : ¬ trialEnds e w) :
    Tick mt e w
      = (LogAgentPositions { e with num_agents_ := w.agents.length } w).map
          (fun r => (r.1, CheckSimulatorGameState w ++ r.2 ++ [Effect.Send responsePlaying])) := by
  have hf' : ¬ (HandleStarted.finish w (w.now - e.timer_)).1 = true :=
    fun h => hf ((HandleStarted.finish_iff e w).1 h)
  have hH : HandleStarted e w = ({ e with num_agents_ := w.agents.length }, []) := by
    rw [HandleStarted_not_grew e w hg, if_neg hf']
  obtain ⟨si, st, tm, ct, na, sd, sn, ll, g⟩ := e
  simp only at hs
  subst hs
  simp only [Tick, Tick.handle, GetExperimentState, hH, Tick.respond]
  cases hL : LogAgentPositions ⟨si, TEST_STARTED, tm, ct, w.agents.length, sd, sn, ll, g⟩ w with
  | none => simp [hL]
  | some r => simp [hL]

theorem Tick_starting_count (mt : Mt19937) (e : FindBallExperiment) (w : World)
    (hs : e.state_ = TEST_STARTING) (h0 : e.start_in_ ≠ 0) (h50 : e.start_in_ ≠ 50) :
    Tick mt e w
      = some ({ e with start_in_ := e.start_in_ - 1 },
          CheckSimulatorGameState w ++ [Effect.Send responsePenalised]) := by
  simp [Tick, Tick.handle, GetExperimentState, hs, HandleStarting, h0, h50, Tick.respond]

theorem Tick_starting_prepare (mt : Mt19937) (e : FindBallExperiment) (w : World)
    (hs : e.state_ = TEST_STARTING) (h50 : e.start_in_ = 50) :
    Tick mt e w
      = (PrepareExperiment mt e w).map
          (fun r => ({ r.1 with start_in_ := 49 },
            CheckSimulatorGameState w ++ r.2 ++ [Effect.Send responsePenalised])) := by
  obtain ⟨si, st, tm, ct, na, sd, sn, ll, g⟩ := e
  simp only at hs h50
  subst hs h50
  simp only [Tick, Tick.handle, GetExperimentState, HandleStarting]
  cases hp : PrepareExperiment mt ⟨si, TEST_STARTING, tm, ct, na, sd, 50, ll, g⟩ w with
  | none => simp [hp]
  | some r =>
    have hr : r.1.start_in_ = 50 ∧ r.1.state_ = TEST_STARTING := by
      unfold PrepareExperiment at hp
      split at hp
      · exact absurd hp (by simp)
      · simp only [Option.some.injEq] at hp
        rw [← hp]
        exact ⟨rfl, rfl⟩
    simp [hp, Tick.respond, GetExperimentState, hr.1, hr.2]

theorem Tick_starting_go (mt : Mt19937) (e : FindBallExperiment) (w : World)
    (hs : e.state_ = TEST_STARTING) (h0 : e.start_in_ = 0) :
    Tick mt e w
      = match w.su.players[0]? with
        | none => none
        | some p =>
          (LogAgentPositions { e with start_in_ := -1, started_ := true, timer_ := w.now,
                                      state_ := TEST_STARTED } w).map
            (fun r => (r.1, CheckSimulatorGameState w ++ [Effect.SendSelectPlayerCommand p]
              ++ r.2 ++ [Effect.Send responsePlaying])) := by
  obtain ⟨si, st, tm, ct, na, sd, sn, ll, g⟩ := e
  simp only at hs h0
  subst hs h0
  simp only [Tick, Tick.handle, GetExperimentState, HandleStarting]
  cases hp : w.su.players[0]? with
  | none => simp
  | some p =>
    simp only [SetExperimentState, StartExperiment, ResetTimer, Tick.respond, GetExperimentState]
    cases hL : LogAgentPositions ⟨si, TEST_STARTED, w.now, ct, na, true, -1, ll, g⟩ w with
    | none => simp [hL]
    | some r => simp [hL]

/-! ## Runs -/

theorem finalObject_cons (e : FindBallExperiment) (r : FindBallExperiment × List Effect)
    (rs : List (FindBallExperiment × List Effect)) :
    finalObject e (r :: rs) = finalObject r.1 rs := by
  cases rs with
  | nil => rfl
  | cons r2 rs2 =>
    simp only [finalObject, List.getLast?_cons_cons]
    cases h : (r2 :: rs2).getLast? with
    | none => simp at h
    | some x => rfl

theorem allEffects_cons (r : FindBallExperiment × List Effect)
    (rs : List (FindBallExperiment × List Effect)) :
    allEffects (r :: rs) = r.2 ++ allEffects rs := by
  simp [allEffects]

theorem run_cons_eq (mt : Mt19937) (e : FindBallExperiment) (w : World) (ws : List World)
    (hist : List (FindBallExperiment × List Effect)) (h : run mt e (w :: ws) = some hist) :
    ∃ r rs, Tick mt e w = some r ∧ run mt r.1 ws = some rs ∧ hist = r :: rs := by
  unfold run at h
  cases hT : Tick mt e w with
  | none => simp [hT] at h
  | some r =>
    cases hR : run mt r.1 ws with
    | none => simp [hT, hR] at h
    | some rs =>
      simp only [hT, hR, Option.some.injEq] at h
      exact ⟨r, rs, rfl, hR, h.symm⟩

theorem run_cons_some (mt : Mt19937) (e : FindBallExperiment) (w : World) (ws : List World)
    (r : FindBallExperiment × List Effect) (rs : List (FindBallExperiment × List Effect))
    (hT : Tick mt e w = some r) (hR : run mt r.1 ws = some rs) :
    run mt e (w :: ws) = some (r :: rs) := by
  simp [run, hT, hR]

theorem run_single (mt : Mt19937) (e : FindBallExperiment) (w : World)
    (r : FindBallExperiment × List Effect) (hT : Tick mt e w = some r) :
    run mt e [w] = some [r] := by
  simp [run, hT]

theorem run_length (mt : Mt19937) (ws : List World) :
    ∀ (e : FindBallExperiment) (hist : List (FindBallExperiment × List Effect)),
      run mt e ws = some hist → hist.length = ws.length := by
  induction ws with
  | nil => intro e hist h; simp [run] at h; simp [← h]
  | cons w ws ih =>
    intro e hist h
    obtain ⟨r, rs, _, hR, rfl⟩ := run_cons_eq mt e w ws hist h
    simp [ih r.1 rs hR]

/-- A property of the object and of the effects written so far that every defined call of `Tick`
preserves holds after every run. -/
theorem run_invariant (mt : Mt19937) (P : FindBallExperiment → List Effect → Prop)
    (hstep : ∀ e pre w r, P e pre → Tick mt e w = some r → P r.1 (pre ++ r.2))
    (ws : List World) :
    ∀ (e0 : FindBallExperiment) (pre : List Effect)
      (hist : List (FindBallExperiment × List Effect)),
      P e0 pre → run mt e0 ws = some hist → P (finalObject e0 hist) (pre ++ allEffects hist) := by
  induction ws with
  | nil =>
    intro e0 pre hist h0 h
    simp [run] at h
    subst h
    simpa [finalObject, allEffects] using h0
  | cons w ws ih =>
    intro e0 pre hist h0 h
    obtain ⟨r, rs, hT, hR, rfl⟩ := run_cons_eq mt e0 w ws hist h
    have h1 := ih r.1 (pre ++ r.2) rs (hstep e0 pre w r h0 hT) hR
    rw [finalObject_cons, allEffects_cons, ← List.append_assoc]
    exact h1

/-- Induction over the reachable objects. -/
theorem Reachable.induct (mt : Mt19937) (start_from : Int) (P : FindBallExperiment → Prop)
    (h0 : ∀ t0, P (FindBallExperiment.new mt start_from t0))
    (hstep : ∀ e w r, P e → Tick mt e w = some r → P r.1)
    (e : FindBallExperiment) (hr : Reachable mt start_from e) : P e := by
  obtain ⟨t0, ws, hist, hrun, rfl⟩ := hr
  have := run_invariant mt (fun e _ => P e) (fun e _ w r he hT => hstep e w r he hT) ws
    (FindBallExperiment.new mt start_from t0) [] hist (h0 t0) hrun
  exact this

theorem Tick_parts (mt : Mt19937) (e : FindBallExperiment) (w : World)
    (r : FindBallExperiment × List Effect) (hT : Tick mt e w = some r) :
    ∃ h out2, Tick.handle mt e w = some h ∧ Tick.respond h.1 w = some (r.1, out2)
      ∧ r.2 = CheckSimulatorGameState w ++ h.2 ++ out2 := by
  unfold Tick at hT
  cases hH : Tick.handle mt e w with
  | none => simp [hH] at hT
  | some h =>
    cases hR : Tick.respond h.1 w with
    | none => simp [hH, hR] at hT
    | some r2 =>
      simp only [hH, hR, Option.some.injEq] at hT
      subst hT
      exact ⟨h, r2.2, rfl, hR, rfl⟩

theorem LogAgentPositions_skip (e : FindBallExperiment) (w : World)
    (h : e.started_ = false ∨ e.last_log_ = w.now - e.timer_) :
    LogAgentPositions e w = some (e, []) := by
  rcases h with h | h
  · simp [LogAgentPositions, h]
  · simp [LogAgentPositions, GetTimerSeconds, h]

theorem LogAgentPositions_active (e : FindBallExperiment) (w : World)
    (hs : e.started_ = true) (hl : e.last_log_ ≠ w.now - e.timer_) :
    LogAgentPositions e w
      = (LogAgentPositions.fill w 5 w.agents (List.replicate 5 w.blank)).map
          (fun updates => ({ e with last_log_ := w.now - e.timer_ },
            [Effect.PositionRow (intWrap (e.counter_ + 1)) (w.now - e.timer_)
              (updates.map
                (fun u => (u.estimated_x_pos, u.estimated_y_pos, u.estimated_orientation)))])) := by
  unfold LogAgentPositions GetTimerSeconds
  have hc : ¬ ((!e.started_ || e.last_log_ == w.now - e.timer_) = true) := by
    simp [hs, hl]
  simp only [hc, if_false]
  cases LogAgentPositions.fill w 5 w.agents (List.replicate 5 w.blank) with
  | none => rfl
  | some updates => rfl

theorem LogAgentPositions_fields (e : FindBallExperiment) (w : World)
    (r : FindBallExperiment × List Effect) (h : LogAgentPositions e w = some r) :
    r.1 = { e with last_log_ := r.1.last_log_ } := by
  by_cases hc : e.started_ = false ∨ e.last_log_ = w.now - e.timer_
  · rw [LogAgentPositions_skip e w hc] at h
    simp only [Option.some.injEq] at h
    subst h; rfl
  · have hs : e.started_ = true := by
      cases hst : e.started_ with
      | false => exact absurd (Or.inl hst) hc
      | true => rfl
    rw [LogAgentPositions_active e w hs (fun hh => hc (Or.inr hh))] at h
    cases hF : LogAgentPositions.fill w 5 w.agents (List.replicate 5 w.blank) with
    | none => rw [hF] at h; exact absurd h (by simp)
    | some updates =>
      rw [hF] at h
      simp only [Option.map_some', Option.some.injEq] at h
      subst h; rfl

theorem Tick.respond_fields (e : FindBallExperiment) (w : World)
    (r : FindBallExperiment × List Effect) (h : Tick.respond e w = some r) :
    r.1 = { e with last_log_ := r.1.last_log_ } := by
  unfold Tick.respond at h
  split at h
  · cases hL : LogAgentPositions e w with
    | none => simp [hL] at h
    | some r1 =>
      simp only [hL, Option.some.injEq] at h
      subst h
      exact LogAgentPositions_fields e w r1 hL
  · simp only [Option.some.injEq] at h; subst h; rfl

theorem PrepareExperiment_fields (mt : Mt19937) (e : FindBallExperiment) (w : World)
    (r : FindBallExperiment × List Effect) (h : PrepareExperiment mt e w = some r) :
    r.1 = { e with mt_ := r.1.mt_ } := by
  unfold PrepareExperiment at h
  split at h
  · exact absurd h (by simp)
  · simp only [Option.some.injEq] at h; subst h; rfl

theorem HandleStarting_fields (mt : Mt19937) (e : FindBallExperiment) (w : World)
    (r : FindBallExperiment × List Effect) (h : HandleStarting mt e w = some r) :
    r.1.start_index_ = e.start_index_ ∧ r.1.counter_ = e.counter_
      ∧ r.1.num_agents_ = e.num_agents_ := by
  by_cases h0 : e.start_in_ = 0
  · simp only [HandleStarting, h0, if_true] at h
    cases hp : w.su.players[0]? with
    | none => simp [hp] at h
    | some p =>
      simp [hp, SetExperimentState, StartExperiment, ResetTimer] at h
      subst h
      exact ⟨rfl, rfl, rfl⟩
  · by_cases h50 : e.start_in_ = 50
    · cases hp : PrepareExperiment mt e w with
      | none => simp [HandleStarting, h0, h50, hp] at h
      | some r1 =>
        have hf := PrepareExperiment_fields mt e w r1 hp
        simp [HandleStarting, h0, h50, hp] at h
        subst h
        rw [hf]
        exact ⟨rfl, rfl, rfl⟩
    · simp [HandleStarting, h0, h50] at h
      subst h
      exact ⟨rfl, rfl, rfl⟩

/-- Every call of `Tick` leaves `start_index_` alone; it sets `counter_` to `start_index_` when it
cancels, adds one when it finishes a trial and leaves it alone otherwise. -/
theorem Tick_counter (mt : Mt19937) (e : FindBallExperiment) (w : World)
    (r : FindBallExperiment × List Effect) (hT : Tick mt e w = some r) :
    r.1.start_index_ = e.start_index_
    ∧ (e.state_ = TEST_STARTED ∧ rosterGrew e w → r.1.counter_ = e.start_index_)
    ∧ (e.state_ = TEST_STARTED ∧ ¬ rosterGrew e w ∧ trialEnds e w
        → r.1.counter_ = intWrap (e.counter_ + 1))
    ∧ (¬ (e.state_ = TEST_STARTED ∧ (rosterGrew e w ∨ trialEnds e w))
        → r.1.counter_ = e.counter_) := by
  obtain ⟨h, out2, hH, hR, _⟩ := Tick_parts mt e w r hT
  have hf := Tick.respond_fields h.1 w (r.1, out2) hR
  have hsi : r.1.start_index_ = h.1.start_index_ := by rw [hf]
  have hct : r.1.counter_ = h.1.counter_ := by rw [hf]
  rw [hsi, hct]
  unfold Tick.handle GetExperimentState at hH
  cases hs : e.state_ with
  | NOT_STARTED =>
    simp only [hs, Option.some.injEq] at hH
    subst hH
    rw [HandleNotStarted_eq]
    by_cases hg : rosterGrew e w <;> simp [hg]
  | TEST_STARTING =>
    simp only [hs] at hH
    have := HandleStarting_fields mt e w h hH
    simp [this.1, this.2.1]
  | TEST_STARTED =>
    simp only [hs, Option.some.injEq] at hH
    subst hH
    by_cases hg : rosterGrew e w
    · rw [HandleStarted_grew e w hs hg]
      simp [hg]
    · rw [HandleStarted_not_grew e w hg]
      by_cases hfin : trialEnds e w
      · rw [if_pos ((HandleStarted.finish_iff e w).2 hfin)]
        simp [hg, hfin, SetExperimentState, FinishExperiment]
      · rw [if_neg (fun hh => hfin ((HandleStarted.finish_iff e w).1 hh))]
        simp [hg, hfin]
  | TEST_FINISHED =>
    simp only [hs, Option.some.injEq] at hH
    subst hH
    by_cases h300 : e.start_in_ = 300
    · simp [HandleFinished, h300]
    · by_cases h150 : e.start_in_ = 150
      · simp [HandleFinished, h150, SetExperimentState]
      · simp [HandleFinished, h300, h150]

theorem Reachable.of_run (mt : Mt19937) (start_from t0 : Int) (ws : List World)
    (e : FindBallExperiment)
    (h : (run mt (FindBallExperiment.new mt start_from t0) ws).map
      (finalObject (FindBallExperiment.new mt start_from t0)) = some e) :
    Reachable mt start_from e := by
  cases hr : run mt (FindBallExperiment.new mt start_from t0) ws with
  | none => rw [hr] at h; exact absurd h (by simp)
  | some hist =>
    rw [hr] at h
    simp only [Option.map_some', Option.some.injEq] at h
    exact ⟨t0, ws, hist, hr, h.symm⟩

/-- An `int` computation whose mathematical value is in the range of `int` has that value. -/
theorem intWrap_of_int (x : Int) (h1 : INT_MIN ≤ x) (h2 : x ≤ INT_MAX) : intWrap x = x := by
  unfold INT_MIN at h1
  unfold INT_MAX at h2
  unfold intWrap
  omega

/-- The result of an `int` computation is in the range of `int`. -/
theorem intWrap_int (x : Int) : INT_MIN ≤ intWrap x ∧ intWrap x ≤ INT_MAX := by
  unfold INT_MIN INT_MAX intWrap
  omega

/-- The increment of the largest `int` gives the smallest one. -/
theorem intWrap_overflow : intWrap (INT_MAX + 1) = INT_MIN := by
  decide

/-- In every reachable object the start offset is `start_from - 1`, and the sequence index is
an `int` when the start offset is one. -/
theorem Reachable.counter (mt : Mt19937) (start_from : Int) (e : FindBallExperiment)
    (hr : Reachable mt start_from e) :
    e.start_index_ = start_from - 1
    ∧ (INT_MIN ≤ start_from - 1 → start_from - 1 ≤ INT_MAX →
        INT_MIN ≤ e.counter_ ∧ e.counter_ ≤ INT_MAX) := by
  refine Reachable.induct mt start_from
    (fun e => e.start_index_ = start_from - 1
      ∧ (INT_MIN ≤ start_from - 1 → start_from - 1 ≤ INT_MAX →
          INT_MIN ≤ e.counter_ ∧ e.counter_ ≤ INT_MAX)) ?_ ?_ e hr
  · intro t0
    exact ⟨rfl, fun h1 h2 => ⟨h1, h2⟩⟩
  · intro e w r ⟨hsi, hct⟩ hT
    obtain ⟨h1, h2, h3, h4⟩ := Tick_counter mt e w r hT
    refine ⟨by rw [h1, hsi], ?_⟩
    intro hlo hhi
    by_cases hs : e.state_ = TEST_STARTED
    · by_cases hg : rosterGrew e w
      · rw [h2 ⟨hs, hg⟩, hsi]; exact ⟨hlo, hhi⟩
      · by_cases hf : trialEnds e w
        · rw [h3 ⟨hs, hg, hf⟩]; exact intWrap_int _
        · rw [h4 (fun hh => hh.2.elim hg hf)]; exact hct hlo hhi
    · rw [h4 (fun hh => hs hh.1)]; exact hct hlo hhi

/-- While the sequence index before every tick of a run is below `INT_MAX`, no increment
overflows: the index stays between the start offset and its first value plus the number of
ticks. -/
theorem run_counter_bounds (mt : Mt19937) (ws : List World) :
    ∀ (e0 : FindBallExperiment) (hist : List (FindBallExperiment × List Effect)),
      INT_MIN ≤ e0.start_index_ → e0.start_index_ ≤ e0.counter_ → e0.counter_ ≤ INT_MAX →
      run mt e0 ws = some hist →
      (∀ k, k < ws.length → (objectBefore e0 hist k).counter_ < INT_MAX) →
      (finalObject e0 hist).start_index_ = e0.start_index_
      ∧ e0.start_index_ ≤ (finalObject e0 hist).counter_
      ∧ (finalObject e0 hist).counter_ ≤ e0.counter_ + ws.length
      ∧ (finalObject e0 hist).counter_ ≤ INT_MAX := by
  induction ws with
  | nil =>
    intro e0 hist _ h0 h1 h _
    simp [run] at h
    subst h
    simpa [finalObject] using ⟨h0, h1⟩
  | cons w ws ih =>
    intro e0 hist hsi h0 _ h hno
    obtain ⟨r, rs, hT, hR, rfl⟩ := run_cons_eq mt e0 w ws hist h
    obtain ⟨h1, h2, h3, h4⟩ := Tick_counter mt e0 w r hT
    have hlt : e0.counter_ < INT_MAX := hno 0 (by simp)
    have hw1 : intWrap (e0.counter_ + 1) = e0.counter_ + 1 :=
      intWrap_of_int _ (by omega) (by omega)
    have hstep : e0.start_index_ ≤ r.1.counter_ ∧ r.1.counter_ ≤ e0.counter_ + 1 := by
      by_cases hs : e0.state_ = TEST_STARTED
      · by_cases hg : rosterGrew e0 w
        · rw [h2 ⟨hs, hg⟩]; omega
        · by_cases hf : trialEnds e0 w
          · rw [h3 ⟨hs, hg, hf⟩, hw1]; omega
          · rw [h4 (fun hh => hh.2.elim hg hf)]; omega
      · rw [h4 (fun hh => hs hh.1)]; omega
    obtain ⟨i1, i2, i3, i4⟩ := ih r.1 rs (by rw [h1]; exact hsi) (by rw [h1]; exact hstep.1)
      (by omega) hR (fun k hk => hno (k + 1) (by simpa using hk))
    rw [finalObject_cons]
    rw [h1] at i1 i2
    refine ⟨i1, i2, ?_, i4⟩
    simp only [List.length_cons, Nat.cast_add, Nat.cast_one]
    omega

set_option maxRecDepth 100000 in
theorem exampleStarted_reachable : Reachable exampleMt 1 exampleStarted :=
  Reachable.of_run exampleMt 1 100 (List.replicate 152 (exampleQuiet [0] 100)) exampleStarted
    (by decide)

set_option maxRecDepth 100000 in
theorem exampleSecondTrial_reachable : Reachable exampleMt 1 exampleSecondTrial :=
  Reachable.of_run exampleMt 1 100 exampleTwoTrials exampleSecondTrial (by decide)

set_option maxRecDepth 100000 in
theorem exampleLastTrial_reachable : Reachable exampleMt 2147483647 exampleLastTrial :=
  Reachable.of_run exampleMt 2147483647 100 exampleTwoTrials exampleLastTrial (by decide)

set_option maxRecDepth 100000 in
theorem exampleWrapped_reachable : Reachable exampleMt 2147483647 exampleWrapped :=
  Reachable.of_run exampleMt 2147483647 100 (exampleTwoTrials ++ [exampleWorld [0] 104])
    exampleWrapped (by decide)

theorem exampleEntered_reachable : Reachable exampleMt 1 exampleEntered :=
  Reachable.of_run exampleMt 1 100 [exampleQuiet [0] 100] exampleEntered (by decide)

/-! ## Cancellation and the trial sequence index (C4, C5, C6) -/

/-- C4: for a controller constructed with `start_from` that is in TEST_STARTED, a tick on which
the connected-agent count exceeds the count stored at the previous check is defined and cancels the
trial: besides the phase reconciliation and the held broadcast, its only effect is one closing
record with the current elapsed seconds and the sentinel "-1"; the sequence index becomes
`start_from - 1`, the countdown 150 and the state TEST_STARTING.  The outcome does not depend on
the telemetry, and the elapsed time only appears in the record. -/
theorem Tick_cancels_on_roster_growth (mt : Mt19937) (start_from : Int)
    (e : FindBallExperiment) (hr : Reachable mt start_from e) (hs : e.state_ = TEST_STARTED)
    (w : World) (hg : rosterGrew e w) :
    Tick mt e w
        = some ({ e with num_agents_ := w.agents.length, counter_ := start_from - 1,
                         start_in_ := 150, started_ := false, state_ := TEST_STARTING },
            CheckSimulatorGameState w
              ++ [Effect.TestClosed (w.now - e.timer_) ['-', '1'],
                  Effect.Send responsePenalised])
    ∧ (∀ w2 : World, w2.agents = w.agents → w2.su = w.su → w2.now = w.now →
        Tick mt e w2 = Tick mt e w) := by
  have hsi := (Reachable.counter mt start_from e hr).1
  have key : ∀ w1 : World, rosterGrew e w1 →
      Tick mt e w1
        = some ({ e with num_agents_ := w1.agents.length, counter_ := start_from - 1,
                         start_in_ := 150, started_ := false, state_ := TEST_STARTING },
            CheckSimulatorGameState w1
              ++ [Effect.TestClosed (w1.now - e.timer_) ['-', '1'],
                  Effect.Send responsePenalised]) := by
    intro w1 hg1
    rw [Tick_started_grew mt e w1 hs hg1, hsi]
  refine ⟨key w hg, ?_⟩
  intro w2 ha hsu hnow
  have hg2 : rosterGrew e w2 := by
    unfold rosterGrew at hg ⊢
    rw [ha]; exact hg
  rw [key w hg, key w2 hg2, ha, hnow]
  simp [CheckSimulatorGameState, hsu]

/-- C4 at a concrete tick: a second agent connects 10 seconds into the first trial of a controller
constructed with `start_from = 1`. -/
theorem Tick_cancels_on_roster_growth_witness :
    Tick exampleMt exampleStarted (exampleWorld [0, 1] 110)
      = some ({ exampleStarted with num_agents_ := 2, counter_ := 0, start_in_ := 150,
                                    started_ := false, state_ := TEST_STARTING },
          [Effect.TestClosed 10 ['-', '1'], Effect.Send responsePenalised]) :=
  (Tick_cancels_on_roster_growth exampleMt 1 exampleStarted exampleStarted_reachable rfl
    (exampleWorld [0, 1] 110) (by decide)).1

/-- C5, refuted as stated: the controller constructed with `start_from = 1` reaches its second
trial with sequence index 1, and the tick on which a second agent connects leaves the index at 0. -/
theorem counter_decreases_on_cancel :
    Reachable exampleMt 1 exampleSecondTrial
    ∧ exampleSecondTrial.counter_ = 1
    ∧ (Tick exampleMt exampleSecondTrial (exampleQuiet [0, 1] 103)).map
        (fun r => r.1.counter_) = some 0 :=
  ⟨exampleSecondTrial_reachable, rfl, by decide⟩

/-- C5, amended: for a controller constructed with an `int` `start_from` above `INT_MIN`, after
any sequence of ticks the sequence index is an `int`, and the index after a further tick is not
smaller than before it, with two exceptions: a tick that cancels the trial on roster growth in
TEST_STARTED sets the index to `start_from - 1`, and a tick that finalizes a trial when the index
is `INT_MAX` overflows the increment (the index becomes `INT_MIN`).  A tick from an index in
`start_from - 1 .. INT_MAX - 1` leaves it at least `start_from - 1`, and so does every run during
which the index before each tick is below `INT_MAX`. -/
theorem counter_monotone_except_cancel (mt : Mt19937) (start_from : Int)
    (e : FindBallExperiment) (hr : Reachable mt start_from e)
    (hlo : INT_MIN < start_from) (hhi : start_from ≤ INT_MAX) (w : World)
    (r : FindBallExperiment × List Effect) (hT : Tick mt e w = some r) :
    (INT_MIN ≤ e.counter_ ∧ e.counter_ ≤ INT_MAX)
    ∧ (¬ (e.state_ = TEST_STARTED ∧ rosterGrew e w) →
        ¬ (e.state_ = TEST_STARTED ∧ trialEnds e w ∧ e.counter_ = INT_MAX) →
        e.counter_ ≤ r.1.counter_)
    ∧ (e.state_ = TEST_STARTED ∧ rosterGrew e w → r.1.counter_ = start_from - 1)
    ∧ (e.state_ = TEST_STARTED ∧ ¬ rosterGrew e w ∧ trialEnds e w → e.counter_ = INT_MAX →
        r.1.counter_ = INT_MIN)
    ∧ (start_from - 1 ≤ e.counter_ → e.counter_ < INT_MAX → start_from - 1 ≤ r.1.counter_)
    ∧ (∀ (t0 : Int) (ws : List World) (hist : List (FindBallExperiment × List Effect)),
        run mt (FindBallExperiment.new mt start_from t0) ws = some hist →
        (∀ k, k < ws.length →
          (objectBefore (FindBallExperiment.new mt start_from t0) hist k).counter_ < INT_MAX) →
        start_from - 1 ≤ (finalObject (FindBallExperiment.new mt start_from t0) hist).counter_) := by
  obtain ⟨hsi, hct⟩ := Reachable.counter mt start_from e hr
  obtain ⟨hc1, hc2⟩ := hct (by omega) (by omega)
  obtain ⟨_, h2, h3, h4⟩ := Tick_counter mt e w r hT
  have hcancel : e.state_ = TEST_STARTED ∧ rosterGrew e w → r.1.counter_ = start_from - 1 :=
    fun hc => by rw [h2 hc, hsi]
  have hmono : ¬ (e.state_ = TEST_STARTED ∧ rosterGrew e w) →
      ¬ (e.state_ = TEST_STARTED ∧ trialEnds e w ∧ e.counter_ = INT_MAX) →
      e.counter_ ≤ r.1.counter_ := by
    intro hn hov
    by_cases hf : e.state_ = TEST_STARTED ∧ trialEnds e w
    · have hg : ¬ rosterGrew e w := fun hg => hn ⟨hf.1, hg⟩
      have hlt : e.counter_ < INT_MAX :=
        lt_of_le_of_ne hc2 (fun hmax => hov ⟨hf.1, hf.2, hmax⟩)
      rw [h3 ⟨hf.1, hg, hf.2⟩, intWrap_of_int _ (by omega) (by omega)]; omega
    · rw [h4 (fun hh => hh.2.elim (fun hg => hn ⟨hh.1, hg⟩) (fun ht => hf ⟨hh.1, ht⟩))]
  refine ⟨⟨hc1, hc2⟩, hmono, hcancel, ?_, ?_, ?_⟩
  · intro hf hmax
    rw [h3 hf, hmax]
    exact intWrap_overflow
  · intro hge hlt
    by_cases hc : e.state_ = TEST_STARTED ∧ rosterGrew e w
    · rw [hcancel hc]
    · exact le_trans hge (hmono hc (fun hh => absurd hh.2.2 (ne_of_lt hlt)))
  · intro t0 ws hist hrun hno
    exact (run_counter_bounds mt ws (FindBallExperiment.new mt start_from t0) hist
      (by show INT_MIN ≤ start_from - 1; omega) (le_refl _)
      (by show start_from - 1 ≤ INT_MAX; omega) hrun hno).2.1

/-- C5, amended, at a concrete tick: the cancelling tick of the second trial of a controller
constructed with `start_from = 1` puts the index back from 1 to `start_from - 1`. -/
theorem counter_monotone_except_cancel_witness :
    (exampleSecondTrial.state_ = TEST_STARTED
      ∧ rosterGrew exampleSecondTrial (exampleQuiet [0, 1] 103))
    ∧ exampleSecondTrial.counter_ = 1
    ∧ (Tick exampleMt exampleSecondTrial (exampleQuiet [0, 1] 103)).map (fun r => r.1.counter_)
        = some (1 - 1) := by
  have hT := Tick_started_grew exampleMt exampleSecondTrial (exampleQuiet [0, 1] 103) rfl
    (by decide)
  have hc := (counter_monotone_except_cancel exampleMt 1 exampleSecondTrial
    exampleSecondTrial_reachable (by decide) (by decide) (exampleQuiet [0, 1] 103) _
    hT).2.2.1 ⟨rfl, by decide⟩
  refine ⟨⟨rfl, by decide⟩, rfl, ?_⟩
  rw [hT, Option.map_some']
  exact congrArg some hc

/-- C6, refuted as stated: the controller constructed with `start_from = 2147483647` starts its
second trial with the sequence index at `INT_MAX`; on the tick that finalizes this trial by
success the increment overflows, and the index after the tick is `INT_MIN`, not the index before
it plus 1. -/
theorem counter_step_overflows :
    Reachable exampleMt 2147483647 exampleLastTrial
    ∧ exampleLastTrial.state_ = TEST_STARTED
    ∧ ¬ rosterGrew exampleLastTrial (exampleWorld [0] 104)
    ∧ (HandleStarted.finish (exampleWorld [0] 104)
        ((exampleWorld [0] 104).now - exampleLastTrial.timer_)).1 = true
    ∧ exampleLastTrial.counter_ = 2147483647
    ∧ (Tick exampleMt exampleLastTrial (exampleWorld [0] 104)).map
        (fun r => (r.1.state_, r.1.counter_)) = some (TEST_FINISHED, -2147483648) :=
  ⟨exampleLastTrial_reachable, rfl, by decide, by decide, rfl, by decide⟩

/-- C6, amended: a tick in TEST_STARTED without roster growth on which `HandleStarted` takes the
finish branch (timeout or success) is defined, ends in TEST_FINISHED and increments the sequence
index as an `int`: when the index before the tick is an `int` below `INT_MAX`, the index after it
is the index before it plus exactly 1, and at `INT_MAX` it is `INT_MIN`; every tick that neither
finalizes nor cancels a trial leaves the index unchanged. -/
theorem counter_step (mt : Mt19937) (e : FindBallExperiment) (w : World) :
    (e.state_ = TEST_STARTED → ¬ rosterGrew e w →
      (HandleStarted.finish w (w.now - e.timer_)).1 = true →
      ∃ r, Tick mt e w = some r ∧ r.1.state_ = TEST_FINISHED
        ∧ r.1.counter_ = intWrap (e.counter_ + 1)
        ∧ (INT_MIN ≤ e.counter_ → e.counter_ < INT_MAX → r.1.counter_ = e.counter_ + 1)
        ∧ (e.counter_ = INT_MAX → r.1.counter_ = INT_MIN))
    ∧ (∀ r, Tick mt e w = some r →
        ¬ (e.state_ = TEST_STARTED
            ∧ (rosterGrew e w ∨ (HandleStarted.finish w (w.now - e.timer_)).1 = true)) →
        r.1.counter_ = e.counter_) := by
  constructor
  · intro hs hg hf
    obtain ⟨found_str, hT⟩ :=
      Tick_started_finish mt e w hs hg ((HandleStarted.finish_iff e w).1 hf)
    refine ⟨_, hT, rfl, rfl, ?_, ?_⟩
    · intro h1 h2
      exact intWrap_of_int _ (by omega) (by omega)
    · intro hmax
      show intWrap (e.counter_ + 1) = INT_MIN
      rw [hmax]
      exact intWrap_overflow
  · intro r hT hn
    refine (Tick_counter mt e w r hT).2.2.2 (fun hh => hn ⟨hh.1, ?_⟩)
    exact hh.2.imp id (fun ht => (HandleStarted.finish_iff e w).2 ht)

/-- C6, amended, at concrete ticks: the tick that ends the first trial by success takes the index
from 0 to 1, and a waiting tick in NOT_STARTED leaves it at 0. -/
theorem counter_step_witness :
    (Tick exampleMt exampleStarted (exampleWorld [0] 102)).map
        (fun r => (r.1.state_, r.1.counter_)) = some (TEST_FINISHED, 0 + 1)
    ∧ (Tick exampleMt (FindBallExperiment.new exampleMt 1 100) (exampleQuiet [] 100)).map
        (fun r => r.1.counter_) = some 0 := by
  obtain ⟨r, hT, hs, _, hc, _⟩ :=
    (counter_step exampleMt exampleStarted (exampleWorld [0] 102)).1 rfl (by decide) (by decide)
  have hc1 := hc (by decide) (by decide)
  have h2 := (counter_step exampleMt (FindBallExperiment.new exampleMt 1 100)
    (exampleQuiet [] 100)).2 _ (Tick_not_started exampleMt _ (exampleQuiet [] 100) rfl)
    (fun hh => absurd hh.1 (by decide))
  constructor
  · rw [hT, Option.map_some', hs, hc1]; rfl
  · rw [Tick_not_started exampleMt _ (exampleQuiet [] 100) rfl, Option.map_some']
    exact congrArg some h2

/-! ## The trial-summary sink (C7) -/

theorem sinkWrites_append (l1 l2 : List Effect) :
    sinkWrites (l1 ++ l2) = sinkWrites l1 ++ sinkWrites l2 := by
  induction l1 with
  | nil => rfl
  | cons x xs ih => cases x <;> simp [sinkWrites, ih]

theorem sinkAfter_append (l1 l2 : List Effect) :
    ∀ b, sinkAfter b (l1 ++ l2) = (sinkAfter b l1).bind (fun b1 => sinkAfter b1 l2) := by
  induction l1 with
  | nil => intro b; rfl
  | cons x xs ih =>
    intro b
    cases x <;> cases b <;> simp [sinkAfter, ih]

theorem sinkAfter_silent (l : List Effect) (h : sinkWrites l = []) :
    ∀ b, sinkAfter b l = some b := by
  induction l with
  | nil => intro b; rfl
  | cons x xs ih =>
    intro b
    cases x <;> simp [sinkWrites] at h <;> simp [sinkAfter, ih h]

/-- What the automaton accepts is an alternating sequence of writes, and the state it ends in
tells whether the last write is an opened record. -/
theorem sinkAfter_spec (l : List Effect) :
    ∀ b0 b, sinkAfter b0 l = some b →
      alternating (!b0) (sinkWrites l) = true ∧ b = (sinkWrites l).getLast?.getD b0 := by
  induction l with
  | nil =>
    intro b0 b h
    simp [sinkAfter] at h
    simp [sinkWrites, alternating, h]
  | cons x xs ih =>
    intro b0 b h
    cases x with
    | TestOpened t bx by_ n =>
      cases b0 with
      | true => simp [sinkAfter] at h
      | false =>
        simp only [sinkAfter, Bool.false_eq_true, if_false] at h
        obtain ⟨h1, h2⟩ := ih true b h
        simp only [Bool.not_true] at h1
        simp [sinkWrites, alternating, h1, h2, List.getLast?_cons]
    | TestClosed t f =>
      cases b0 with
      | false => simp [sinkAfter] at h
      | true =>
        simp only [sinkAfter, if_true] at h
        obtain ⟨h1, h2⟩ := ih false b h
        simp only [Bool.not_false] at h1
        simp [sinkWrites, alternating, h1, h2, List.getLast?_cons]
    | SendPlayModeCommand m => exact ih b0 b (by simpa [sinkAfter] using h)
    | SendSelectPlayerCommand p => exact ih b0 b (by simpa [sinkAfter] using h)
    | SendMovePlayerCommand p x y z o => exact ih b0 b (by simpa [sinkAfter] using h)
    | SendMoveBallCommand args => exact ih b0 b (by simpa [sinkAfter] using h)
    | PositionRow t sec rs => exact ih b0 b (by simpa [sinkAfter] using h)
    | Send resp => exact ih b0 b (by simpa [sinkAfter] using h)

theorem sinkWrites_CheckSimulatorGameState (w : World) :
    sinkWrites (CheckSimulatorGameState w) = [] := by
  unfold CheckSimulatorGameState
  split <;> rfl

theorem sinkWrites_movePlayers (ps : List Player) :
    sinkWrites (PrepareExperiment.movePlayers ps) = [] := by
  induction ps with
  | nil => rfl
  | cons p rest ih =>
    unfold PrepareExperiment.movePlayers
    rw [sinkWrites_append, ih]
    cases GetStartingPosition p.number with
    | none => rfl
    | some t => rfl

theorem sinkWrites_LogAgentPositions (e : FindBallExperiment) (w : World)
    (r : FindBallExperiment × List Effect) (h : LogAgentPositions e w = some r) :
    sinkWrites r.2 = [] := by
  by_cases hc : e.started_ = false ∨ e.last_log_ = w.now - e.timer_
  · rw [LogAgentPositions_skip e w hc] at h
    simp only [Option.some.injEq] at h
    subst h; rfl
  · have hs : e.started_ = true := by
      cases hst : e.started_ with
      | false => exact absurd (Or.inl hst) hc
      | true => rfl
    rw [LogAgentPositions_active e w hs (fun hh => hc (Or.inr hh))] at h
    cases hF : LogAgentPositions.fill w 5 w.agents (List.replicate 5 w.blank) with
    | none => rw [hF] at h; exact absurd h (by simp)
    | some updates =>
      rw [hF] at h
      simp only [Option.map_some', Option.some.injEq] at h
      subst h; rfl

theorem sinkWrites_respond (e : FindBallExperiment) (w : World)
    (r : FindBallExperiment × List Effect) (h : Tick.respond e w = some r) :
    sinkWrites r.2 = [] := by
  unfold Tick.respond at h
  split at h
  · cases hL : LogAgentPositions e w with
    | none => simp [hL] at h
    | some r1 =>
      simp only [hL, Option.some.injEq] at h
      subst h
      simp [sinkWrites_append, sinkWrites_LogAgentPositions e w r1 hL, sinkWrites]
  · simp only [Option.some.injEq] at h; subst h; rfl

theorem PrepareExperiment_cases (mt : Mt19937) (e : FindBallExperiment) (w : World)
    (r : FindBallExperiment × List Effect) (h : PrepareExperiment mt e w = some r) :
    ∃ ball_x ball_y g, PrepareExperiment.ball mt e = some ((ball_x, ball_y), g)
      ∧ r = ({ e with mt_ := g },
          PrepareExperiment.movePlayers w.su.players
            ++ [Effect.SendMoveBallCommand [ball_x, ball_y, 0, 0, 0, 0],
                Effect.TestOpened (intWrap (e.counter_ + 1)) (ball_x * 1000) (ball_y * 1000)
                  w.su.players.length]) := by
  unfold PrepareExperiment at h
  cases hb : PrepareExperiment.ball mt e with
  | none => simp [hb] at h
  | some q =>
    obtain ⟨⟨ball_x, ball_y⟩, g⟩ := q
    simp only [hb, Option.some.injEq] at h
    exact ⟨ball_x, ball_y, g, rfl, h.symm⟩

theorem HandleStarting_cases (mt : Mt19937) (e : FindBallExperiment) (w : World)
    (h : FindBallExperiment × List Effect) (hH : HandleStarting mt e w = some h) :
    (e.start_in_ = 0 ∧ ∃ p, w.su.players[0]? = some p
        ∧ h = ({ e with start_in_ := -1, started_ := true, timer_ := w.now,
                        state_ := TEST_STARTED }, [Effect.SendSelectPlayerCommand p]))
    ∨ (e.start_in_ = 50 ∧ ∃ r1, PrepareExperiment mt e w = some r1
        ∧ h = ({ r1.1 with start_in_ := 49 }, r1.2))
    ∨ (e.start_in_ ≠ 0 ∧ e.start_in_ ≠ 50 ∧ h = ({ e with start_in_ := e.start_in_ - 1 }, [])) := by
  by_cases h0 : e.start_in_ = 0
  · left
    refine ⟨h0, ?_⟩
    cases hp : w.su.players[0]? with
    | none => simp [HandleStarting, h0, hp] at hH
    | some p =>
      simp [HandleStarting, h0, hp, SetExperimentState, StartExperiment, ResetTimer] at hH
      exact ⟨p, rfl, hH.symm⟩
  · by_cases h50 : e.start_in_ = 50
    · right; left
      refine ⟨h50, ?_⟩
      cases hp : PrepareExperiment mt e w with
      | none => simp [HandleStarting, h0, h50, hp] at hH
      | some r1 =>
        have hf := PrepareExperiment_fields mt e w r1 hp
        simp [HandleStarting, h0, h50, hp] at hH
        refine ⟨r1, rfl, ?_⟩
        rw [← hH, hf]
        simp [h50]
    · right; right
      simp [HandleStarting, h0, h50] at hH
      exact ⟨h0, h50, hH.symm⟩

/-- One call of the state handler keeps the sink consistent with the state. -/
theorem handle_sink (mt : Mt19937) (e : FindBallExperiment) (w : World)
    (h : FindBallExperiment × List Effect) (hH : Tick.handle mt e w = some h)
    (b : Bool) (hinv : sinkInv e b) :
    ∃ b1, sinkAfter b h.2 = some b1 ∧ sinkInv h.1 b1
      ∧ (h.1.state_ = NOT_STARTED → e.state_ = NOT_STARTED ∧ h.2 = []) := by
  unfold Tick.handle GetExperimentState at hH
  cases hs : e.state_ with
  | NOT_STARTED =>
    simp only [hs, Option.some.injEq] at hH
    subst hH
    simp only [sinkInv, hs] at hinv
    rw [HandleNotStarted_eq]
    by_cases hg : rosterGrew e w
    · refine ⟨b, rfl, ?_, fun _ => ⟨rfl, rfl⟩⟩
      simp [hg, sinkInv, hinv]
    · refine ⟨b, rfl, ?_, fun _ => ⟨rfl, rfl⟩⟩
      simp [hg, sinkInv, hs, hinv]
  | TEST_STARTING =>
    simp only [hs] at hH
    simp only [sinkInv, hs] at hinv
    obtain ⟨hlo, hhi, hiff⟩ := hinv
    rcases HandleStarting_cases mt e w h hH with ⟨h0, p, _, rfl⟩ | ⟨h50, r1, hp, rfl⟩ |
      ⟨h0, h50, rfl⟩
    · refine ⟨b, rfl, ?_, fun hh => absurd hh (by simp)⟩
      simp only [sinkInv]
      exact hiff.2 (by omega)
    · obtain ⟨bx, by_, g, _, rfl⟩ := PrepareExperiment_cases mt e w r1 hp
      have hb : b = false := by
        cases b with
        | false => rfl
        | true => exact absurd (hiff.1 rfl) (by omega)
      subst hb
      refine ⟨true, ?_, ?_, fun hh => ?_⟩
      · rw [sinkAfter_append, sinkAfter_silent _ (sinkWrites_movePlayers _)]
        rfl
      · simp [sinkInv, hs]
      · simp [hs] at hh
    · refine ⟨b, rfl, ?_, fun hh => ?_⟩
      · simp only [sinkInv, hs]
        refine ⟨by omega, by omega, ?_⟩
        rw [hiff]
        constructor <;> intro hh <;> omega
      · simp [hs] at hh
  | TEST_STARTED =>
    simp only [hs, Option.some.injEq] at hH
    subst hH
    simp only [sinkInv, hs] at hinv
    subst hinv
    by_cases hg : rosterGrew e w
    · rw [HandleStarted_grew e w hs hg]
      exact ⟨false, rfl, by simp [sinkInv], fun hh => absurd hh (by simp)⟩
    · rw [HandleStarted_not_grew e w hg]
      by_cases hf : (HandleStarted.finish w (w.now - e.timer_)).1 = true
      · rw [if_pos hf]
        refine ⟨false, ?_, ?_, fun hh => ?_⟩
        · simp [FinishExperiment, sinkAfter]
        · simp [sinkInv, SetExperimentState]
        · simp [SetExperimentState] at hh
      · rw [if_neg hf]
        refine ⟨true, rfl, ?_, fun hh => ?_⟩
        · simp [sinkInv, hs]
        · simp [hs] at hh
  | TEST_FINISHED =>
    simp only [hs, Option.some.injEq] at hH
    subst hH
    simp only [sinkInv, hs] at hinv
    subst hinv
    by_cases h300 : e.start_in_ = 300
    · refine ⟨false, ?_, ?_, fun hh => ?_⟩
      · simp [HandleFinished, h300, sinkAfter]
      · simp [HandleFinished, h300, sinkInv, hs]
      · simp [HandleFinished, h300, hs] at hh
    · by_cases h150 : e.start_in_ = 150
      · refine ⟨false, ?_, ?_, fun hh => ?_⟩
        · simp [HandleFinished, h150, sinkAfter]
        · simp [HandleFinished, h150, sinkInv, SetExperimentState]
        · simp [HandleFinished, h150, SetExperimentState] at hh
      · refine ⟨false, ?_, ?_, fun hh => ?_⟩
        · simp [HandleFinished, h300, h150, sinkAfter]
        · simp [HandleFinished, h300, h150, sinkInv, hs]
        · simp [HandleFinished, h300, h150, hs] at hh

/-- One call of `Tick` keeps the sink consistent with the state. -/
theorem Tick_sink (mt : Mt19937) (e : FindBallExperiment) (w : World)
    (r : FindBallExperiment × List Effect) (hT : Tick mt e w = some r)
    (b : Bool) (hinv : sinkInv e b) :
    ∃ b1, sinkAfter b r.2 = some b1 ∧ sinkInv r.1 b1
      ∧ (r.1.state_ = NOT_STARTED → e.state_ = NOT_STARTED ∧ sinkWrites r.2 = []) := by
  obtain ⟨h, out2, hH, hR, hout⟩ := Tick_parts mt e w r hT
  obtain ⟨b1, hb1, hinv1, hns⟩ := handle_sink mt e w h hH b hinv
  have hf := Tick.respond_fields h.1 w (r.1, out2) hR
  have hq := sinkWrites_respond h.1 w (r.1, out2) hR
  have hstate : r.1.state_ = h.1.state_ := by rw [hf]
  have hsin : r.1.start_in_ = h.1.start_in_ := by rw [hf]
  refine ⟨b1, ?_, ?_, fun hh => ?_⟩
  · rw [hout, sinkAfter_append, sinkAfter_append,
      sinkAfter_silent _ (sinkWrites_CheckSimulatorGameState w)]
    rw [Option.some_bind, hb1, Option.some_bind]
    exact sinkAfter_silent _ hq b1
  · unfold sinkInv at hinv1 ⊢
    rw [hstate, hsin]
    exact hinv1
  · obtain ⟨h1, h2⟩ := hns (hstate ▸ hh)
    refine ⟨h1, ?_⟩
    rw [hout, sinkWrites_append, sinkWrites_append, sinkWrites_CheckSimulatorGameState, h2]
    simpa [sinkWrites] using hq

theorem Option.eq_some_getD {α : Type} (o : Option α) (d : α) (h : o.isSome = true) :
    o = some (o.getD d) := by
  cases o with
  | none => simp at h
  | some x => rfl

set_option maxRecDepth 100000 in
theorem exampleHistory_run :
    run exampleMt (FindBallExperiment.new exampleMt 1 100) exampleTwoTrials
      = some exampleHistory :=
  Option.eq_some_getD _ [] (by decide)

set_option maxRecDepth 100000 in
theorem exampleHistory_final :
    finalObject (FindBallExperiment.new exampleMt 1 100) exampleHistory = exampleSecondTrial := by
  decide

/-- C7: after every sequence of ticks from the initial state, the writes to the trial-summary sink
alternate between "trial opened" and "trial closed" records, starting with an opened record, so
at most one trial is open at a time; nothing has been written while the state is NOT_STARTED, in
TEST_STARTED the last write is an opened record (a trial is open), and in TEST_FINISHED it is
not. -/
theorem summary_sink_alternates (mt : Mt19937) (start_from t0 : Int) (ws : List World)
    (hist : List (FindBallExperiment × List Effect))
    (hrun : run mt (FindBallExperiment.new mt start_from t0) ws = some hist) :
    alternating true (sinkWrites (allEffects hist)) = true
    ∧ ((finalObject (FindBallExperiment.new mt start_from t0) hist).state_ = NOT_STARTED
        → sinkWrites (allEffects hist) = [])
    ∧ ((finalObject (FindBallExperiment.new mt start_from t0) hist).state_ = TEST_STARTED
        → trialOpen (allEffects hist) = true)
    ∧ ((finalObject (FindBallExperiment.new mt start_from t0) hist).state_ = TEST_FINISHED
        → trialOpen (allEffects hist) = false) := by
  have key := run_invariant mt
    (fun e tr => ∃ b, sinkAfter false tr = some b ∧ sinkInv e b
      ∧ (e.state_ = NOT_STARTED → sinkWrites tr = []))
    (by
      intro e pre w r ⟨b, hb, hinv, hns⟩ hT
      obtain ⟨b1, hb1, hinv1, hns1⟩ := Tick_sink mt e w r hT b hinv
      refine ⟨b1, ?_, hinv1, fun hh => ?_⟩
      · rw [sinkAfter_append, hb, Option.some_bind, hb1]
      · obtain ⟨h1, h2⟩ := hns1 hh
        rw [sinkWrites_append, hns h1, h2]; rfl)
    ws (FindBallExperiment.new mt start_from t0) [] hist
    ⟨false, rfl, by simp [sinkInv, FindBallExperiment.new], fun _ => rfl⟩ hrun
  obtain ⟨b, hb, hinv, hns⟩ := key
  rw [List.nil_append] at hb hns
  obtain ⟨halt, hlast⟩ := sinkAfter_spec _ false b hb
  refine ⟨by simpa using halt, hns, fun hs => ?_, fun hs => ?_⟩
  · simp only [sinkInv, hs] at hinv
    rw [hinv] at hlast
    unfold trialOpen
    cases hg : (sinkWrites (allEffects hist)).getLast? with
    | none => rw [hg] at hlast; simp at hlast
    | some x => rw [hg] at hlast; simp at hlast; simp [← hlast]
  · simp only [sinkInv, hs] at hinv
    rw [hinv] at hlast
    unfold trialOpen
    cases hg : (sinkWrites (allEffects hist)).getLast? with
    | none => rfl
    | some x => rw [hg] at hlast; simp at hlast; simp [← hlast]

/-- C7 on a concrete run of 455 ticks (a first trial won after 2 seconds, then the pre-roll of the
second trial): the state is TEST_STARTED, the sink has seen opened, closed, opened, and a trial is
open. -/
theorem summary_sink_alternates_witness :
    run exampleMt (FindBallExperiment.new exampleMt 1 100) exampleTwoTrials = some exampleHistory
    ∧ (finalObject (FindBallExperiment.new exampleMt 1 100) exampleHistory).state_ = TEST_STARTED
    ∧ alternating true (sinkWrites (allEffects exampleHistory)) = true
    ∧ trialOpen (allEffects exampleHistory) = true :=
  have hst : (finalObject (FindBallExperiment.new exampleMt 1 100) exampleHistory).state_
      = TEST_STARTED := by rw [exampleHistory_final]; rfl
  have h := summary_sink_alternates exampleMt 1 100 exampleTwoTrials exampleHistory
    exampleHistory_run
  ⟨exampleHistory_run, hst, h.1, h.2.2.1 hst⟩

/-! ## Spawn points (C8) -/

theorem PrepareExperiment.ball_of_nonneg (mt : Mt19937) (e : FindBallExperiment)
    (hc : 0 ≤ e.counter_) :
    PrepareExperiment.ball mt e
      = (PREDEFINED_POINTS[(e.counter_ % 10).toNat]?).map (fun p => (p, e.mt_)) := by
  have ht : Int.tmod e.counter_ 10 = e.counter_ % 10 :=
    Int.tmod_eq_emod hc (by decide)
  have hlt : e.counter_ % 10 < 10 := Int.emod_lt_of_pos _ (by decide)
  have hge : 0 ≤ e.counter_ % 10 := Int.emod_nonneg _ (by decide)
  simp only [PrepareExperiment.ball, UNIQUE_POINTS, NUM_PREDEFINED_POINTS, ht, hlt, hge, if_true]

/-- C8: for every controller whose sequence index `c` is non-negative, whatever its generator and
its other members, `PrepareExperiment` is defined, leaves the generator alone (the random
fallback is not taken) and sends the ball to `PREDEFINED_POINTS[c mod 10]`, writing these
coordinates times 1000 in the opened record; two controllers whose indices are congruent modulo
10 choose the same point. -/
theorem spawn_point_is_predefined (mt1 mt2 : Mt19937) (e1 e2 : FindBallExperiment)
    (h1 : 0 ≤ e1.counter_) (h2 : 0 ≤ e2.counter_) :
    (∃ p, PREDEFINED_POINTS[(e1.counter_ % 10).toNat]? = some p
        ∧ PrepareExperiment.ball mt1 e1 = some (p, e1.mt_)
        ∧ ∀ w, PrepareExperiment mt1 e1 w
            = some (e1, PrepareExperiment.movePlayers w.su.players
                ++ [Effect.SendMoveBallCommand [p.1, p.2, 0, 0, 0, 0],
                    Effect.TestOpened (intWrap (e1.counter_ + 1)) (p.1 * 1000) (p.2 * 1000)
                      w.su.players.length]))
    ∧ (e1.counter_ % 10 = e2.counter_ % 10 →
        (PrepareExperiment.ball mt1 e1).map Prod.fst
          = (PrepareExperiment.ball mt2 e2).map Prod.fst) := by
  have hlt : e1.counter_ % 10 < 10 := Int.emod_lt_of_pos _ (by decide)
  have hge : 0 ≤ e1.counter_ % 10 := Int.emod_nonneg _ (by decide)
  have hn : (e1.counter_ % 10).toNat < PREDEFINED_POINTS.length := by
    have : PREDEFINED_POINTS.length = 10 := rfl
    omega
  constructor
  · refine ⟨PREDEFINED_POINTS[(e1.counter_ % 10).toNat], List.getElem?_eq_getElem hn, ?_, ?_⟩
    · rw [PrepareExperiment.ball_of_nonneg mt1 e1 h1, List.getElem?_eq_getElem hn]
      rfl
    · intro w
      have hb : PrepareExperiment.ball mt1 e1
          = some (PREDEFINED_POINTS[(e1.counter_ % 10).toNat], e1.mt_) := by
        rw [PrepareExperiment.ball_of_nonneg mt1 e1 h1, List.getElem?_eq_getElem hn]
        rfl
      simp only [PrepareExperiment, hb]
      rfl
  · intro hmod
    rw [PrepareExperiment.ball_of_nonneg mt1 e1 h1, PrepareExperiment.ball_of_nonneg mt2 e2 h2,
      hmod]
    simp [Option.map_map, Function.comp_def]

/-- C8 at concrete controllers: with index 1 the ball goes to the second predefined point
`(4, -2.5)`, and a controller with index 11, another start offset, another history and another
generator chooses the same point. -/
theorem spawn_point_is_predefined_witness :
    ((0 : Int) ≤ exampleSecondTrial.counter_ ∧ (0 : Int) ≤ exampleTwelfth.counter_
      ∧ exampleSecondTrial.counter_ % 10 = exampleTwelfth.counter_ % 10)
    ∧ PrepareExperiment.ball exampleMt exampleSecondTrial = some ((4, -2.5), 0)
    ∧ (PrepareExperiment.ball exampleMt exampleSecondTrial).map Prod.fst
        = (PrepareExperiment.ball exampleMt2 exampleTwelfth).map Prod.fst := by
  have h := spawn_point_is_predefined exampleMt exampleMt2 exampleSecondTrial exampleTwelfth
    (by decide) (by decide)
  obtain ⟨⟨p, hp, hb, _⟩, hsame⟩ := h
  refine ⟨⟨by decide, by decide, by decide⟩, ?_, hsame (by decide)⟩
  have hp2 : PREDEFINED_POINTS[(exampleSecondTrial.counter_ % 10).toNat]? = some (4, -2.5) := rfl
  rw [hp2] at hp
  rw [hb, ← Option.some.inj hp]
  rfl

/-! ## When a tick is defined -/

theorem LogAgentPositions.fill_defined (w : World) (n : Nat) :
    ∀ (agents : List Agent) (updates : List FromRunswiftAgent),
      (∀ a ∈ agents.take n,
        1 ≤ ((w.lastUpdate a).getD w.blank).player_number
          ∧ ((w.lastUpdate a).getD w.blank).player_number ≤ 5) →
      ∃ filled, LogAgentPositions.fill w n agents updates = some filled := by
  induction n with
  | zero => intro agents updates _; exact ⟨updates, rfl⟩
  | succ m ih =>
    intro agents updates h
    cases agents with
    | nil => exact ⟨updates, rfl⟩
    | cons a rest =>
      have ha := h a (by simp)
      have hrest : ∀ b ∈ rest.take m,
          1 ≤ ((w.lastUpdate b).getD w.blank).player_number
            ∧ ((w.lastUpdate b).getD w.blank).player_number ≤ 5 :=
        fun b hb => h b (by simp [List.take_succ_cons, hb])
      have hc : 0 ≤ ((w.lastUpdate a).getD w.blank).player_number - 1
          ∧ ((w.lastUpdate a).getD w.blank).player_number - 1 < 5 := by omega
      simp only [LogAgentPositions.fill, hc, and_self, if_true]
      exact ih rest _ hrest

theorem LogAgentPositions_defined (e : FindBallExperiment) (w : World)
    (hw : positionsLoggable w) : ∃ r, LogAgentPositions e w = some r := by
  by_cases hc : e.started_ = false ∨ e.last_log_ = w.now - e.timer_
  · exact ⟨_, LogAgentPositions_skip e w hc⟩
  · have hs : e.started_ = true := by
      cases hst : e.started_ with
      | false => exact absurd (Or.inl hst) hc
      | true => rfl
    obtain ⟨filled, hF⟩ := LogAgentPositions.fill_defined w 5 w.agents
      (List.replicate 5 w.blank) hw
    rw [LogAgentPositions_active e w hs (fun hh => hc (Or.inr hh)), hF]
    exact ⟨_, rfl⟩

theorem PrepareExperiment_defined (mt : Mt19937) (e : FindBallExperiment) (w : World)
    (hc : 0 ≤ e.counter_) : ∃ r, PrepareExperiment mt e w = some r := by
  have hlt : e.counter_ % 10 < 10 := Int.emod_lt_of_pos _ (by decide)
  have hge : 0 ≤ e.counter_ % 10 := Int.emod_nonneg _ (by decide)
  have hn : (e.counter_ % 10).toNat < PREDEFINED_POINTS.length := by
    have : PREDEFINED_POINTS.length = 10 := rfl
    omega
  have hb : PrepareExperiment.ball mt e
      = some (PREDEFINED_POINTS[(e.counter_ % 10).toNat], e.mt_) := by
    rw [PrepareExperiment.ball_of_nonneg mt e hc, List.getElem?_eq_getElem hn]
    rfl
  simp only [PrepareExperiment, hb]
  exact ⟨_, rfl⟩

/-- A tick is defined when the sequence index is not negative, the snapshot has a player and the
position log can be written. -/
theorem Tick_defined (mt : Mt19937) (e : FindBallExperiment) (w : World)
    (hc : 0 ≤ e.counter_) (hp : w.su.players ≠ []) (hw : positionsLoggable w) :
    ∃ r, Tick mt e w = some r := by
  cases hs : e.state_ with
  | NOT_STARTED => exact ⟨_, Tick_not_started mt e w hs⟩
  | TEST_STARTING =>
    by_cases h0 : e.start_in_ = 0
    · rw [Tick_starting_go mt e w hs h0]
      cases hpl : w.su.players with
      | nil => exact absurd hpl hp
      | cons p rest =>
        obtain ⟨r, hr⟩ := LogAgentPositions_defined
          { e with start_in_ := -1, started_ := true, timer_ := w.now, state_ := TEST_STARTED }
          w hw
        simp only [List.getElem?_cons_zero, hr]
        exact ⟨_, rfl⟩
    · by_cases h50 : e.start_in_ = 50
      · obtain ⟨r, hr⟩ := PrepareExperiment_defined mt e w hc
        rw [Tick_starting_prepare mt e w hs h50, hr]
        exact ⟨_, rfl⟩
      · exact ⟨_, Tick_starting_count mt e w hs h0 h50⟩
  | TEST_STARTED =>
    by_cases hg : rosterGrew e w
    · exact ⟨_, Tick_started_grew mt e w hs hg⟩
    · by_cases hf : trialEnds e w
      · obtain ⟨fs, hT⟩ := Tick_started_finish mt e w hs hg hf
        exact ⟨_, hT⟩
      · obtain ⟨r, hr⟩ := LogAgentPositions_defined { e with num_agents_ := w.agents.length }
          w hw
        rw [Tick_started_continue mt e w hs hg hf, hr]
        exact ⟨_, rfl⟩
  | TEST_FINISHED =>
    obtain ⟨r, hr⟩ := LogAgentPositions_defined (HandleFinished e w).1 w hw
    have hstate : (HandleFinished e w).1.state_ = TEST_FINISHED
        ∨ (HandleFinished e w).1.state_ = TEST_STARTING := by
      by_cases h300 : e.start_in_ = 300
      · left; simp [HandleFinished, h300, hs]
      · by_cases h150 : e.start_in_ = 150
        · right; simp [HandleFinished, h150, SetExperimentState]
        · left; simp [HandleFinished, h300, h150, hs]
    rcases hstate with hst | hst
    · simp [Tick, Tick.handle, GetExperimentState, hs, Tick.respond, hst, hr]
    · simp [Tick, Tick.handle, GetExperimentState, hs, Tick.respond, hst]

/-- A run is defined when the start offset is not negative, the sequence index is not below it
and cannot reach `INT_MAX` within the number of ticks of the run, every snapshot has a player and
every position log can be written. -/
theorem run_defined (mt : Mt19937) (ws : List World) :
    ∀ (e : FindBallExperiment), 0 ≤ e.start_index_ → e.start_index_ ≤ e.counter_ →
      e.counter_ + ws.length ≤ INT_MAX →
      (∀ w ∈ ws, w.su.players ≠ [] ∧ positionsLoggable w) →
      ∃ hist, run mt e ws = some hist := by
  induction ws with
  | nil => intro e _ _ _ _; exact ⟨[], rfl⟩
  | cons w ws1 ih =>
    intro e hsi hct hb hall
    obtain ⟨hp, hw⟩ := hall w (by simp)
    obtain ⟨r, hT⟩ := Tick_defined mt e w (le_trans hsi hct) hp hw
    obtain ⟨h1, h2, h3, h4⟩ := Tick_counter mt e w r hT
    simp only [List.length_cons, Nat.cast_add, Nat.cast_one] at hb
    have hw1 : intWrap (e.counter_ + 1) = e.counter_ + 1 :=
      intWrap_of_int _ (by unfold INT_MIN; omega) (by omega)
    have hct1 : r.1.start_index_ ≤ r.1.counter_ ∧ r.1.counter_ ≤ e.counter_ + 1 := by
      rw [h1]
      by_cases hs : e.state_ = TEST_STARTED
      · by_cases hg : rosterGrew e w
        · rw [h2 ⟨hs, hg⟩]; omega
        · by_cases hf : trialEnds e w
          · rw [h3 ⟨hs, hg, hf⟩, hw1]; omega
          · rw [h4 (fun hh => hh.2.elim hg hf)]; omega
      · rw [h4 (fun hh => hs hh.1)]; omega
    obtain ⟨rs, hrs⟩ := ih r.1 (by rw [h1]; exact hsi) hct1.1 (by omega)
      (fun w1 hw1 => hall w1 (by simp [hw1]))
    exact ⟨r :: rs, run_cons_some mt e w ws1 r rs hT hrs⟩

/-- The pre-roll is defined: from TEST_STARTING with countdown `n` and a sequence index that is
not negative, the run of `n + 1` ticks is defined when every snapshot has a player and every
position log can be written. -/
theorem run_starting_defined (mt : Mt19937) (n : Nat) :
    ∀ (e : FindBallExperiment) (ws : List World),
      e.state_ = TEST_STARTING → e.start_in_ = (n : Int) → ws.length = n + 1 →
      0 ≤ e.counter_ → (∀ w ∈ ws, w.su.players ≠ [] ∧ positionsLoggable w) →
      ∃ hist, run mt e ws = some hist := by
  induction n with
  | zero =>
    intro e ws _ _ hlen hc hall
    obtain ⟨w, rfl⟩ : ∃ w, ws = [w] := by
      match ws, hlen with
      | [w], _ => exact ⟨w, rfl⟩
    obtain ⟨hp, hw⟩ := hall w (by simp)
    obtain ⟨r, hT⟩ := Tick_defined mt e w hc hp hw
    exact ⟨[r], run_single mt e w r hT⟩
  | succ n ih =>
    intro e ws hs hin hlen hc hall
    obtain ⟨w, ws1, rfl⟩ : ∃ w ws1, ws = w :: ws1 := by
      match ws, hlen with
      | w :: ws1, _ => exact ⟨w, ws1, rfl⟩
    obtain ⟨hp, hw⟩ := hall w (by simp)
    obtain ⟨r, hT⟩ := Tick_defined mt e w hc hp hw
    obtain ⟨_, _, _, h4⟩ := Tick_counter mt e w r hT
    have hcr : r.1.counter_ = e.counter_ :=
      h4 (fun hh => by rw [hs] at hh; exact absurd hh.1 (by decide))
    have hne : e.start_in_ ≠ 0 := by rw [hin]; push_cast; omega
    by_cases h50 : e.start_in_ = 50
    · rw [Tick_starting_prepare mt e w hs h50] at hT
      cases hp1 : PrepareExperiment mt e w with
      | none => rw [hp1] at hT; exact absurd hT (by simp)
      | some r1 =>
        rw [hp1] at hT
        simp only [Option.map_some', Option.some.injEq] at hT
        have hf := PrepareExperiment_fields mt e w r1 hp1
        have hst1 : r.1.state_ = TEST_STARTING := by rw [← hT]; show r1.1.state_ = _; rw [hf]; exact hs
        have hin1 : r.1.start_in_ = (n : Int) := by
          rw [← hT]; show (49 : Int) = n; rw [h50] at hin; push_cast at hin; omega
        obtain ⟨rs, hrs⟩ := ih r.1 ws1 hst1 hin1 (by simpa using hlen) (by rw [hcr]; exact hc)
          (fun w1 hw1 => hall w1 (by simp [hw1]))
        exact ⟨r :: rs, run_cons_some mt e w ws1 r rs
          (by rw [Tick_starting_prepare mt e w hs h50, hp1]; rw [← hT]; rfl) hrs⟩
    · have hT2 := Tick_starting_count mt e w hs hne h50
      rw [hT2] at hT
      have hr := Option.some.inj hT
      have hst1 : r.1.state_ = TEST_STARTING := by rw [← hr]; exact hs
      have hin1 : r.1.start_in_ = (n : Int) := by
        rw [← hr]; show e.start_in_ - 1 = n; rw [hin]; push_cast; omega
      obtain ⟨rs, hrs⟩ := ih r.1 ws1 hst1 hin1 (by simpa using hlen) (by rw [hcr]; exact hc)
        (fun w1 hw1 => hall w1 (by simp [hw1]))
      exact ⟨r :: rs, run_cons_some mt e w ws1 r rs (by rw [hT2, hr]) hrs⟩

/-! ## Countdowns (C9, C10) -/

theorem filter_isMoveBall_CheckSimulatorGameState (w : World) :
    (CheckSimulatorGameState w).filter Effect.isMoveBall = [] := by
  unfold CheckSimulatorGameState
  split <;> rfl

theorem Tick_finished_wait (mt : Mt19937) (e : FindBallExperiment) (w : World)
    (hs : e.state_ = TEST_FINISHED) (hst : e.started_ = false)
    (h300 : e.start_in_ ≠ 300) (h150 : e.start_in_ ≠ 150) :
    ∃ r, Tick mt e w = some r ∧ r.1 = { e with start_in_ := e.start_in_ - 1 }
      ∧ r.2 = CheckSimulatorGameState w ++ [Effect.Send responsePlaying] := by
  have hT := Tick_finished mt e w hs hst
  rw [if_neg h300, if_neg h150] at hT
  exact ⟨_, hT, rfl, rfl⟩

theorem Tick_finished_leave (mt : Mt19937) (e : FindBallExperiment) (w : World)
    (hs : e.state_ = TEST_FINISHED) (hst : e.started_ = false) (h150 : e.start_in_ = 150) :
    ∃ r, Tick mt e w = some r
      ∧ r.1 = { e with start_in_ := 149, started_ := false, state_ := TEST_STARTING }
      ∧ r.2 = CheckSimulatorGameState w ++ [Effect.Send responsePenalised] := by
  have hT := Tick_finished mt e w hs hst
  rw [if_neg (by omega), if_pos h150] at hT
  exact ⟨_, hT, rfl, rfl⟩

theorem Tick_finished_enter (mt : Mt19937) (e : FindBallExperiment) (w : World)
    (hs : e.state_ = TEST_FINISHED) (hst : e.started_ = false) (h300 : e.start_in_ = 300) :
    ∃ r, Tick mt e w = some r ∧ r.1 = { e with start_in_ := 299 }
      ∧ r.2 = CheckSimulatorGameState w
          ++ [Effect.SendMoveBallCommand [10000, 10000, 0], Effect.Send responsePlaying] := by
  have hT := Tick_finished mt e w hs hst
  rw [if_pos h300] at hT
  exact ⟨_, hT, rfl, rfl⟩

/-- The cooldown below 300: from TEST_FINISHED with countdown `150 + n`, `n < 150`, every tick is
defined, the next `n` ticks stay in TEST_FINISHED, tick number `n` sees the countdown 150 and ends
in TEST_STARTING with countdown 149, and no tick moves the ball. -/
theorem run_finished_countdown (mt : Mt19937) (n : Nat) :
    ∀ (e : FindBallExperiment) (ws : List World),
      e.state_ = TEST_FINISHED → e.started_ = false → e.start_in_ = 150 + (n : Int) → n < 150 →
      ws.length = n + 1 →
      ∃ hist, run mt e ws = some hist
        ∧ (∀ k, k ≤ n → (objectBefore e hist k).state_ = TEST_FINISHED
            ∧ (objectBefore e hist k).start_in_ = 150 + (n : Int) - (k : Int))
        ∧ (finalObject e hist).state_ = TEST_STARTING
        ∧ (finalObject e hist).start_in_ = 149
        ∧ (∀ k, (effectsOf hist k).filter Effect.isMoveBall = []) := by
  induction n with
  | zero =>
    intro e ws hs hst hin _ hlen
    obtain ⟨w, rfl⟩ : ∃ w, ws = [w] := by
      match ws, hlen with
      | [w], _ => exact ⟨w, rfl⟩
    have h150 : e.start_in_ = 150 := by simpa using hin
    obtain ⟨r, hT, hr1, hr2⟩ := Tick_finished_leave mt e w hs hst h150
    refine ⟨[r], run_single mt e w r hT, ?_, ?_, ?_, ?_⟩
    · intro k hk
      have hk0 : k = 0 := by omega
      subst hk0
      simp [objectBefore, hs, hin]
    · simp [finalObject, hr1]
    · simp [finalObject, hr1]
    · intro k
      cases k with
      | zero =>
        simp [effectsOf, hr2, filter_isMoveBall_CheckSimulatorGameState, Effect.isMoveBall]
      | succ j => simp [effectsOf]
  | succ m ih =>
    intro e ws hs hst hin hlt hlen
    obtain ⟨w, ws1, rfl⟩ : ∃ w ws1, ws = w :: ws1 := by
      match ws, hlen with
      | w :: ws1, _ => exact ⟨w, ws1, rfl⟩
    have hlen1 : ws1.length = m + 1 := by simpa using hlen
    have hin1 : e.start_in_ = 150 + (m : Int) + 1 := by rw [hin]; push_cast; ring
    obtain ⟨r, hT, hr1, hr2⟩ :=
      Tick_finished_wait mt e w hs hst (by omega) (by omega)
    obtain ⟨rs, hrs, hobj, hfs, hfc, heff⟩ :=
      ih r.1 ws1 (by rw [hr1]; exact hs) (by rw [hr1]; exact hst)
        (by rw [hr1]; show e.start_in_ - 1 = 150 + (m : Int); omega) (by omega) hlen1
    refine ⟨r :: rs, run_cons_some mt e w ws1 r rs hT hrs, ?_, ?_, ?_, ?_⟩
    · intro k hk
      cases k with
      | zero => simp [objectBefore, hs, hin]
      | succ j =>
        have := hobj j (by omega)
        simp only [objectBefore]
        refine ⟨this.1, ?_⟩
        rw [this.2]; push_cast; ring
    · rw [finalObject_cons]; exact hfs
    · rw [finalObject_cons]; exact hfc
    · intro k
      cases k with
      | zero =>
        simp [effectsOf, hr2, filter_isMoveBall_CheckSimulatorGameState, Effect.isMoveBall]
      | succ j => simpa [effectsOf] using heff j

theorem any_isTestOpened_iff (l : List Effect) :
    l.any Effect.isTestOpened = true ↔ true ∈ sinkWrites l := by
  induction l with
  | nil => simp [sinkWrites]
  | cons x xs ih =>
    cases x <;> simp [sinkWrites, Effect.isTestOpened, ih]

/-- One tick in TEST_STARTING: the countdown goes down by one, the state becomes TEST_STARTED
exactly when the countdown was 0, and an opened record is written exactly when it was 50. -/
theorem Tick_starting_summary (mt : Mt19937) (e : FindBallExperiment) (w : World)
    (r : FindBallExperiment × List Effect) (hs : e.state_ = TEST_STARTING)
    (hT : Tick mt e w = some r) :
    r.1.state_ = (if e.start_in_ = 0 then TEST_STARTED else TEST_STARTING)
    ∧ r.1.start_in_ = (if e.start_in_ = 0 then -1 else e.start_in_ - 1)
    ∧ sinkWrites r.2 = (if e.start_in_ = 50 then [true] else []) := by
  obtain ⟨h, out2, hH, hR, hout⟩ := Tick_parts mt e w r hT
  have hf := Tick.respond_fields h.1 w (r.1, out2) hR
  have hq : sinkWrites out2 = [] := sinkWrites_respond h.1 w (r.1, out2) hR
  have hstate : r.1.state_ = h.1.state_ := by rw [hf]
  have hsin : r.1.start_in_ = h.1.start_in_ := by rw [hf]
  have hw : sinkWrites r.2 = sinkWrites h.2 := by
    rw [hout, sinkWrites_append, sinkWrites_append, sinkWrites_CheckSimulatorGameState, hq]
    simp
  rw [hstate, hsin, hw]
  simp only [Tick.handle, GetExperimentState, hs] at hH
  rcases HandleStarting_cases mt e w h hH with ⟨h0, p, _, rfl⟩ | ⟨h50, r1, hp, rfl⟩ |
    ⟨h0, h50, rfl⟩
  · simp [h0, sinkWrites]
  · obtain ⟨bx, by_, g, _, rfl⟩ := PrepareExperiment_cases mt e w r1 hp
    simp [h50, hs, sinkWrites_append, sinkWrites_movePlayers, sinkWrites]
  · simp [h0, h50, hs, sinkWrites]

/-- The pre-roll: from TEST_STARTING with countdown `n`, a defined run of `n + 1` ticks stays in
TEST_STARTING for `n` ticks, tick number `k` seeing the countdown `n - k`; the last tick ends in
TEST_STARTED, and the opened record is written by the tick that sees the countdown 50. -/
theorem run_starting_countdown (mt : Mt19937) (n : Nat) :
    ∀ (e : FindBallExperiment) (ws : List World)
      (hist : List (FindBallExperiment × List Effect)),
      e.state_ = TEST_STARTING → e.start_in_ = (n : Int) → ws.length = n + 1 →
      run mt e ws = some hist →
      (∀ k, k ≤ n → (objectBefore e hist k).state_ = TEST_STARTING
          ∧ (objectBefore e hist k).start_in_ = (n : Int) - (k : Int))
      ∧ (finalObject e hist).state_ = TEST_STARTED
      ∧ (∀ k, k ≤ n →
          ((effectsOf hist k).any Effect.isTestOpened = true ↔ (n : Int) - (k : Int) = 50)) := by
  induction n with
  | zero =>
    intro e ws hist hs hin hlen hrun
    obtain ⟨w, rfl⟩ : ∃ w, ws = [w] := by
      match ws, hlen with
      | [w], _ => exact ⟨w, rfl⟩
    obtain ⟨r, rs, hT, hR, rfl⟩ := run_cons_eq mt e w [] hist hrun
    have hrs : rs = [] := by simpa [run] using hR.symm
    subst hrs
    have h0 : e.start_in_ = 0 := by simpa using hin
    obtain ⟨h1, _, h3⟩ := Tick_starting_summary mt e w r hs hT
    rw [if_pos h0] at h1
    rw [if_neg (by omega)] at h3
    refine ⟨?_, ?_, ?_⟩
    · intro k hk
      have hk0 : k = 0 := by omega
      subst hk0
      simp [objectBefore, hs, hin]
    · simp [finalObject, h1]
    · intro k hk
      have hk0 : k = 0 := by omega
      subst hk0
      simp only [effectsOf]
      rw [any_isTestOpened_iff, h3]
      simp
  | succ m ih =>
    intro e ws hist hs hin hlen hrun
    obtain ⟨w, ws1, rfl⟩ : ∃ w ws1, ws = w :: ws1 := by
      match ws, hlen with
      | w :: ws1, _ => exact ⟨w, ws1, rfl⟩
    have hlen1 : ws1.length = m + 1 := by simpa using hlen
    obtain ⟨r, rs, hT, hR, rfl⟩ := run_cons_eq mt e w ws1 hist hrun
    have hin1 : e.start_in_ = (m : Int) + 1 := by rw [hin]; push_cast; ring
    obtain ⟨h1, h2, h3⟩ := Tick_starting_summary mt e w r hs hT
    rw [if_neg (by omega)] at h1 h2
    obtain ⟨hobj, hfs, heff⟩ := ih r.1 ws1 rs h1 (by rw [h2]; omega) hlen1 hR
    refine ⟨?_, ?_, ?_⟩
    · intro k hk
      cases k with
      | zero => simp [objectBefore, hs, hin]
      | succ j =>
        have := hobj j (by omega)
        simp only [objectBefore]
        refine ⟨this.1, ?_⟩
        rw [this.2]; push_cast; ring
    · rw [finalObject_cons]; exact hfs
    · intro k hk
      cases k with
      | zero =>
        simp only [effectsOf, any_isTestOpened_iff, h3]
        by_cases h50 : e.start_in_ = 50
        · simp only [h50, if_true, List.mem_singleton, true_iff]
          rw [← hin, h50]; simp
        · simp only [h50, if_false, List.not_mem_nil, false_iff]
          intro hh; apply h50; rw [hin]; simpa using hh
      | succ j =>
        have := heff j (by omega)
        simp only [effectsOf]
        rw [this]
        constructor <;> intro hh <;> push_cast at hh ⊢ <;> omega

/-- How TEST_STARTING is entered: a tick that starts in another state and ends in TEST_STARTING
leaves the countdown at 149 when it started in TEST_FINISHED and at 150 otherwise. -/
theorem Tick_enters_starting (mt : Mt19937) (e : FindBallExperiment) (w : World)
    (r : FindBallExperiment × List Effect) (hT : Tick mt e w = some r)
    (hne : e.state_ ≠ TEST_STARTING) (hst : r.1.state_ = TEST_STARTING) :
    r.1.start_in_ = (if e.state_ = TEST_FINISHED then 149 else 150) := by
  obtain ⟨h, out2, hH, hR, _⟩ := Tick_parts mt e w r hT
  have hf := Tick.respond_fields h.1 w (r.1, out2) hR
  have hstate : r.1.state_ = h.1.state_ := by rw [hf]
  have hsin : r.1.start_in_ = h.1.start_in_ := by rw [hf]
  rw [hstate] at hst
  rw [hsin]
  unfold Tick.handle GetExperimentState at hH
  cases hs : e.state_ with
  | NOT_STARTED =>
    simp only [hs, Option.some.injEq] at hH
    subst hH
    rw [HandleNotStarted_eq] at hst ⊢
    by_cases hg : rosterGrew e w
    · simp [hg]
    · simp [hg, hs] at hst
  | TEST_STARTING => exact absurd hs hne
  | TEST_STARTED =>
    simp only [hs, Option.some.injEq] at hH
    subst hH
    by_cases hg : rosterGrew e w
    · rw [HandleStarted_grew e w hs hg]
      simp
    · rw [HandleStarted_not_grew e w hg] at hst
      by_cases hf : (HandleStarted.finish w (w.now - e.timer_)).1 = true
      · rw [if_pos hf] at hst
        simp [SetExperimentState] at hst
      · rw [if_neg hf] at hst
        simp [hs] at hst
  | TEST_FINISHED =>
    simp only [hs, Option.some.injEq] at hH
    subst hH
    by_cases h300 : e.start_in_ = 300
    · simp [HandleFinished, h300, hs] at hst
    · by_cases h150 : e.start_in_ = 150
      · simp [HandleFinished, h150, SetExperimentState]
      · simp [HandleFinished, h300, h150, hs] at hst

set_option maxRecDepth 100000 in
theorem examplePreroll_run :
    run exampleMt exampleEntered (List.replicate 151 (exampleQuiet [0] 100))
      = some examplePreroll :=
  Option.eq_some_getD _ [] (by decide)

set_option maxRecDepth 100000 in
/-- C9, the code at the failing input: in the run `exampleHistory` of the controller constructed
with `start_from = 1`, TEST_STARTING is entered from NOT_STARTED on tick 0 and from TEST_FINISHED
on tick 304.  After the entry from NOT_STARTED, where `HandleNotStarted` leaves the countdown at
150, the controller is still in TEST_STARTING 150 ticks later, only the 151st tick ends in
TEST_STARTED, and the opened record is written by the 101st tick, not by the 100th.  After the
entry from TEST_FINISHED, where `HandleFinished` decrements the countdown to 149 on the entering
tick, the 150th tick ends in TEST_STARTED and the opened record is written by the 100th. -/
theorem starting_entry_off_by_one :
    ((objectBefore (FindBallExperiment.new exampleMt 1 100) exampleHistory 0).state_ = NOT_STARTED
      ∧ (objectBefore (FindBallExperiment.new exampleMt 1 100) exampleHistory 1).state_
          = TEST_STARTING
      ∧ (objectBefore (FindBallExperiment.new exampleMt 1 100) exampleHistory 1).start_in_ = 150
      ∧ (objectBefore (FindBallExperiment.new exampleMt 1 100) exampleHistory 151).state_
          = TEST_STARTING
      ∧ (objectBefore (FindBallExperiment.new exampleMt 1 100) exampleHistory 152).state_
          = TEST_STARTED
      ∧ (effectsOf exampleHistory 100).any Effect.isTestOpened = false
      ∧ (effectsOf exampleHistory 101).any Effect.isTestOpened = true)
    ∧ ((objectBefore (FindBallExperiment.new exampleMt 1 100) exampleHistory 304).state_
          = TEST_FINISHED
      ∧ (objectBefore (FindBallExperiment.new exampleMt 1 100) exampleHistory 305).state_
          = TEST_STARTING
      ∧ (objectBefore (FindBallExperiment.new exampleMt 1 100) exampleHistory 305).start_in_ = 149
      ∧ (objectBefore (FindBallExperiment.new exampleMt 1 100) exampleHistory 454).state_
          = TEST_STARTING
      ∧ (objectBefore (FindBallExperiment.new exampleMt 1 100) exampleHistory 455).state_
          = TEST_STARTED
      ∧ (effectsOf exampleHistory 403).any Effect.isTestOpened = false
      ∧ (effectsOf exampleHistory 404).any Effect.isTestOpened = true) := by
  decide

/-- The length of the pre-roll for every entry: let a tick start in a state other than
TEST_STARTING and end in TEST_STARTING, and let `n` be 150 when it started in TEST_FINISHED and 151 when it started in NOT_STARTED or
(cancelling) in TEST_STARTED.  In every defined run of `n` further ticks the state is
TEST_STARTING until the last of them, which ends in TEST_STARTED, and the opened record of
`PrepareExperiment` is written on tick `n - 50` of them (the 100th, respectively the 101st) and on
no other; nothing else about the previous state matters.  Such a run is defined when the start
offset is not negative, the sequence index is not below it, every snapshot has a player and every
position log can be written. -/
theorem starting_duration (mt : Mt19937) (e0 : FindBallExperiment) (w0 : World)
    (r0 : FindBallExperiment × List Effect) (hT : Tick mt e0 w0 = some r0)
    (hne : e0.state_ ≠ TEST_STARTING) (hst : r0.1.state_ = TEST_STARTING)
    (n : Nat) (hn : n = if e0.state_ = TEST_FINISHED then 150 else 151)
    (ws : List World) (hlen : ws.length = n) :
    (∀ hist, run mt r0.1 ws = some hist →
      (∀ k, k < n → (objectBefore r0.1 hist k).state_ = TEST_STARTING)
      ∧ (finalObject r0.1 hist).state_ = TEST_STARTED
      ∧ (∀ k, k < n →
          ((effectsOf hist k).any Effect.isTestOpened = true ↔ k + 1 = n - 50)))
    ∧ (0 ≤ r0.1.start_index_ → r0.1.start_index_ ≤ r0.1.counter_ →
        (∀ w ∈ ws, w.su.players ≠ [] ∧ positionsLoggable w) →
        ∃ hist, run mt r0.1 ws = some hist) := by
  have hin := Tick_enters_starting mt e0 w0 r0 hT hne hst
  refine ⟨fun hist hrun => ?_, fun hsi hct hall => ?_⟩
  swap
  · by_cases hF : e0.state_ = TEST_FINISHED
    · rw [if_pos hF] at hin hn
      exact run_starting_defined mt 149 r0.1 ws hst (by rw [hin]; rfl) (by rw [hlen, hn])
        (le_trans hsi hct) hall
    · rw [if_neg hF] at hin hn
      exact run_starting_defined mt 150 r0.1 ws hst (by rw [hin]; rfl) (by rw [hlen, hn])
        (le_trans hsi hct) hall
  by_cases hF : e0.state_ = TEST_FINISHED
  · rw [if_pos hF] at hin hn
    subst hn
    obtain ⟨h1, h2, h3⟩ := run_starting_countdown mt 149 r0.1 ws hist hst
      (by rw [hin]; rfl) hlen hrun
    refine ⟨fun k hk => (h1 k (by omega)).1, h2, fun k hk => ?_⟩
    rw [h3 k (by omega)]
    constructor <;> intro hh <;> push_cast at hh ⊢ <;> omega
  · rw [if_neg hF] at hin hn
    subst hn
    obtain ⟨h1, h2, h3⟩ := run_starting_countdown mt 150 r0.1 ws hist hst
      (by rw [hin]; rfl) hlen hrun
    refine ⟨fun k hk => (h1 k (by omega)).1, h2, fun k hk => ?_⟩
    rw [h3 k (by omega)]
    constructor <;> intro hh <;> push_cast at hh ⊢ <;> omega

/-- The length of the pre-roll on a concrete run: entered from NOT_STARTED, the controller is still in
TEST_STARTING after 150 ticks, is in TEST_STARTED after 151, and writes the opened record on the
101st tick. -/
theorem starting_duration_witness :
    (Tick exampleMt (FindBallExperiment.new exampleMt 1 100) (exampleQuiet [0] 100)
        = some (exampleEntered, [Effect.Send responsePenalised])
      ∧ (FindBallExperiment.new exampleMt 1 100).state_ ≠ TEST_STARTING
      ∧ run exampleMt exampleEntered (List.replicate 151 (exampleQuiet [0] 100))
          = some examplePreroll)
    ∧ (objectBefore exampleEntered examplePreroll 150).state_ = TEST_STARTING
    ∧ (finalObject exampleEntered examplePreroll).state_ = TEST_STARTED
    ∧ (effectsOf examplePreroll 100).any Effect.isTestOpened = true :=
  have hT : Tick exampleMt (FindBallExperiment.new exampleMt 1 100) (exampleQuiet [0] 100)
      = some (exampleEntered, [Effect.Send responsePenalised]) := by decide
  have h := (starting_duration exampleMt (FindBallExperiment.new exampleMt 1 100)
    (exampleQuiet [0] 100) (exampleEntered, [Effect.Send responsePenalised]) hT
    (by decide) rfl 151 (by decide) (List.replicate 151 (exampleQuiet [0] 100))
    (by simp)).1 examplePreroll examplePreroll_run
  ⟨⟨hT, by decide, examplePreroll_run⟩, h.1 150 (by decide), h.2.1,
    (h.2.2 100 (by decide)).2 (by decide)⟩

set_option maxRecDepth 100000 in
theorem exampleCooldown_run :
    run exampleMt exampleFinished (List.replicate 151 (exampleQuiet [0] 102))
      = some exampleCooldown :=
  Option.eq_some_getD _ [] (by decide)

set_option maxRecDepth 100000 in
/-- C10, refuted as stated: in the cooldown that follows the first trial, the tick whose
remaining countdown is 200 (after 100 ticks in the state) sends no move-ball command; the command
is sent by the first tick in the state, whose remaining countdown is 300. -/
theorem move_ball_not_at_countdown_200 :
    (objectBefore exampleFinished exampleCooldown 100).state_ = TEST_FINISHED
    ∧ (objectBefore exampleFinished exampleCooldown 100).start_in_ = 200
    ∧ (effectsOf exampleCooldown 100).any Effect.isMoveBall = false
    ∧ (objectBefore exampleFinished exampleCooldown 0).start_in_ = 300
    ∧ (effectsOf exampleCooldown 0).any Effect.isMoveBall = true := by
  decide

/-- C10, amended: every pass through TEST_FINISHED, which `SetExperimentState` enters with the
countdown at 300, is defined for 151 ticks whatever the collaborators report; tick number `k`
(from 0) sees the remaining countdown `300 - k` in TEST_FINISHED; the move-ball command to
(10000, 10000) is issued exactly once, by the first tick, whose remaining countdown is 300; and
the state becomes TEST_STARTING on the tick whose remaining countdown is 150. -/
theorem cooldown_pass (mt : Mt19937) (e0 : FindBallExperiment) (w0 : World) (ws : List World)
    (hlen : ws.length = 151) :
    ∃ hist, run mt (SetExperimentState e0 w0 TEST_FINISHED) ws = some hist
      ∧ (∀ k, k ≤ 150 →
          (objectBefore (SetExperimentState e0 w0 TEST_FINISHED) hist k).state_ = TEST_FINISHED
          ∧ (objectBefore (SetExperimentState e0 w0 TEST_FINISHED) hist k).start_in_
              = 300 - (k : Int))
      ∧ (finalObject (SetExperimentState e0 w0 TEST_FINISHED) hist).state_ = TEST_STARTING
      ∧ (effectsOf hist 0).filter Effect.isMoveBall
          = [Effect.SendMoveBallCommand [10000, 10000, 0]]
      ∧ (∀ k, 0 < k → (effectsOf hist k).filter Effect.isMoveBall = []) := by
  obtain ⟨w, ws1, rfl⟩ : ∃ w ws1, ws = w :: ws1 := by
    match ws, hlen with
    | w :: ws1, _ => exact ⟨w, ws1, rfl⟩
  have hlen1 : ws1.length = 149 + 1 := by simpa using hlen
  have hs : (SetExperimentState e0 w0 TEST_FINISHED).state_ = TEST_FINISHED := rfl
  have hst : (SetExperimentState e0 w0 TEST_FINISHED).started_ = false := rfl
  have hin : (SetExperimentState e0 w0 TEST_FINISHED).start_in_ = 300 := rfl
  obtain ⟨r, hT, hr1, hr2⟩ :=
    Tick_finished_enter mt (SetExperimentState e0 w0 TEST_FINISHED) w hs hst hin
  obtain ⟨rs, hrs, hobj, hfs, _, heff⟩ :=
    run_finished_countdown mt 149 r.1 ws1 (by rw [hr1]; rfl) (by rw [hr1]; rfl)
      (by rw [hr1]; rfl) (by decide) hlen1
  refine ⟨r :: rs, run_cons_some mt _ w ws1 r rs hT hrs, ?_, ?_, ?_, ?_⟩
  · intro k hk
    cases k with
    | zero => simp [objectBefore, hs, hin]
    | succ j =>
      have := hobj j (by omega)
      simp only [objectBefore]
      refine ⟨this.1, ?_⟩
      rw [this.2]; push_cast; ring
  · rw [finalObject_cons]; exact hfs
  · simp [effectsOf, hr2, filter_isMoveBall_CheckSimulatorGameState, Effect.isMoveBall]
  · intro k hk
    cases k with
    | zero => exact absurd hk (by decide)
    | succ j => simpa [effectsOf] using heff j

/-- C10, amended, on the cooldown that follows the first trial of the example: the first tick
sends the ball away, the tick with remaining countdown 200 sends nothing, and after 151 ticks the
state is TEST_STARTING. -/
theorem cooldown_pass_witness :
    ((List.replicate 151 (exampleQuiet [0] 102)).length = 151
      ∧ SetExperimentState { exampleStarted with counter_ := 1 } (exampleWorld [0] 102)
          TEST_FINISHED = exampleFinished)
    ∧ run exampleMt exampleFinished (List.replicate 151 (exampleQuiet [0] 102))
        = some exampleCooldown
    ∧ (objectBefore exampleFinished exampleCooldown 150).start_in_ = 300 - 150
    ∧ (finalObject exampleFinished exampleCooldown).state_ = TEST_STARTING
    ∧ (effectsOf exampleCooldown 0).filter Effect.isMoveBall
        = [Effect.SendMoveBallCommand [10000, 10000, 0]]
    ∧ (effectsOf exampleCooldown 100).filter Effect.isMoveBall = [] := by
  obtain ⟨hist, hrun, hobj, hfin, hfirst, hrest⟩ :=
    cooldown_pass exampleMt { exampleStarted with counter_ := 1 } (exampleWorld [0] 102)
      (List.replicate 151 (exampleQuiet [0] 102)) (by simp)
  have hE : SetExperimentState { exampleStarted with counter_ := 1 } (exampleWorld [0] 102)
      TEST_FINISHED = exampleFinished := by decide
  rw [hE] at hrun hobj hfin
  have hh : hist = exampleCooldown := by
    have := exampleCooldown_run
    rw [hrun] at this
    exact Option.some.inj this
  subst hh
  exact ⟨⟨by simp, hE⟩, hrun, (hobj 150 (by decide)).2, hfin, hfirst, hrest 100 (by decide)⟩

/-! ## Waiting for agents (C11) -/

theorem Tick_waiting (mt : Mt19937) (e : FindBallExperiment) (w : World)
    (hs : e.state_ = NOT_STARTED) (hn : e.num_agents_ = 0) (ha : w.agents = []) :
    Tick mt e w = some (e, CheckSimulatorGameState w ++ [Effect.Send responsePenalised]) := by
  have hg : ¬ rosterGrew e w := by simp [rosterGrew, ha, hn]
  rw [Tick_not_started mt e w hs, HandleNotStarted_eq, if_neg hg]
  obtain ⟨si, st, tm, ct, na, sd, sn, ll, g⟩ := e
  simp only at hn
  subst hn
  simp [ha]

theorem run_waiting (mt : Mt19937) (e : FindBallExperiment)
    (hs : e.state_ = NOT_STARTED) (hn : e.num_agents_ = 0) (ws : List World)
    (ha : ∀ w ∈ ws, w.agents = []) :
    run mt e ws
      = some (ws.map
          (fun w => (e, CheckSimulatorGameState w ++ [Effect.Send responsePenalised]))) := by
  induction ws with
  | nil => rfl
  | cons w ws1 ih =>
    have hT := Tick_waiting mt e w hs hn (ha w (by simp))
    have hR := ih (fun w1 hw1 => ha w1 (by simp [hw1]))
    exact run_cons_some mt e w ws1 _ _ hT hR

theorem finalObject_map_const (e : FindBallExperiment) (ws : List World)
    (f : World → List Effect) : finalObject e (ws.map (fun w => (e, f w))) = e := by
  induction ws with
  | nil => rfl
  | cons w ws1 ih => rw [List.map_cons, finalObject_cons]; exact ih

theorem waiting_history (e : FindBallExperiment) (ws : List World) :
    sinkWrites (allEffects (ws.map
        (fun w => (e, CheckSimulatorGameState w ++ [Effect.Send responsePenalised])))) = []
    ∧ (allEffects (ws.map
        (fun w => (e, CheckSimulatorGameState w ++ [Effect.Send responsePenalised])))).filter
          Effect.isPositionRow = []
    ∧ (∀ k, k < ws.length →
        (effectsOf (ws.map
          (fun w => (e, CheckSimulatorGameState w ++ [Effect.Send responsePenalised]))) k).filter
            Effect.isSend = [Effect.Send responsePenalised]) := by
  induction ws with
  | nil => exact ⟨rfl, rfl, fun k hk => absurd hk (by simp)⟩
  | cons w ws1 ih =>
    obtain ⟨ih1, ih2, ih3⟩ := ih
    refine ⟨?_, ?_, ?_⟩
    · rw [List.map_cons, allEffects_cons, sinkWrites_append, ih1, sinkWrites_append,
        sinkWrites_CheckSimulatorGameState]
      rfl
    · rw [List.map_cons, allEffects_cons, List.filter_append, ih2]
      simp only [CheckSimulatorGameState]
      split <;> rfl
    · intro k hk
      cases k with
      | zero =>
        simp only [List.map_cons, effectsOf, CheckSimulatorGameState]
        split <;> rfl
      | succ j =>
        simp only [List.map_cons, effectsOf]
        exact ih3 j (by simpa using hk)

/-- C11: if no agent is connected on any tick, then after any number of ticks from the initial
state every tick was defined and left the object as constructed (state NOT_STARTED, sequence
index `start_from - 1`), and each tick did nothing but the phase reconciliation and the broadcast
of the held (penalised) status: no trial-summary write and no position-log row. -/
theorem no_agents_stays_not_started (mt : Mt19937) (start_from t0 : Int) (ws : List World)
    (ha : ∀ w ∈ ws, w.agents = []) :
    run mt (FindBallExperiment.new mt start_from t0) ws
        = some (ws.map (fun w => (FindBallExperiment.new mt start_from t0,
            CheckSimulatorGameState w ++ [Effect.Send responsePenalised])))
    ∧ (∀ hist, run mt (FindBallExperiment.new mt start_from t0) ws = some hist →
        (finalObject (FindBallExperiment.new mt start_from t0) hist).state_ = NOT_STARTED
        ∧ (finalObject (FindBallExperiment.new mt start_from t0) hist).counter_ = start_from - 1
        ∧ sinkWrites (allEffects hist) = []
        ∧ (allEffects hist).filter Effect.isPositionRow = []
        ∧ (∀ k, k < ws.length →
            (effectsOf hist k).filter Effect.isSend = [Effect.Send responsePenalised])) := by
  have hrun := run_waiting mt (FindBallExperiment.new mt start_from t0) rfl rfl ws ha
  refine ⟨hrun, ?_⟩
  intro hist hh
  rw [hrun] at hh
  rw [← Option.some.inj hh]
  obtain ⟨h1, h2, h3⟩ := waiting_history (FindBallExperiment.new mt start_from t0) ws
  refine ⟨?_, ?_, h1, h2, h3⟩
  · rw [finalObject_map_const]; rfl
  · rw [finalObject_map_const]; rfl

/-- C11 on a concrete run: 1000 ticks without any agent leave the controller in NOT_STARTED with
its sequence index at 0; each tick only reconciled the phase and broadcast the held status. -/
theorem no_agents_stays_not_started_witness :
    run exampleMt (FindBallExperiment.new exampleMt 1 100)
        (List.replicate 1000 (exampleEmpty 100))
      = some (List.replicate 1000 (FindBallExperiment.new exampleMt 1 100,
          [Effect.SendPlayModeCommand PlayMode.GAME_OVER, Effect.Send responsePenalised])) := by
  have h := (no_agents_stays_not_started exampleMt 1 100
    (List.replicate 1000 (exampleEmpty 100))
    (fun w hw => by rw [List.eq_of_mem_replicate hw]; rfl)).1
  rw [h, List.map_replicate]
  rfl

/-! ## The effects of one tick (C12, C13, C14) -/

theorem movePlayers_isHandlerEffect (ps : List Player) :
    ∀ x ∈ PrepareExperiment.movePlayers ps, x.isHandlerEffect = true := by
  induction ps with
  | nil => intro x hx; simp [PrepareExperiment.movePlayers] at hx
  | cons p rest ih =>
    intro x hx
    unfold PrepareExperiment.movePlayers at hx
    rw [List.mem_append] at hx
    rcases hx with hx | hx
    · cases hg : GetStartingPosition p.number with
      | none => rw [hg] at hx; simp at hx
      | some t =>
        obtain ⟨x1, y1, o1⟩ := t
        rw [hg] at hx
        simp only [List.mem_singleton] at hx
        subst hx; rfl
    · exact ih x hx

/-- A state handler only sends select-player, move-player and move-ball commands and writes to
the trial-summary sink. -/
theorem handle_effects (mt : Mt19937) (e : FindBallExperiment) (w : World)
    (h : FindBallExperiment × List Effect) (hH : Tick.handle mt e w = some h) :
    ∀ x ∈ h.2, x.isHandlerEffect = true := by
  unfold Tick.handle GetExperimentState at hH
  cases hs : e.state_ with
  | NOT_STARTED =>
    simp only [hs, Option.some.injEq] at hH
    subst hH
    intro x hx; simp at hx
  | TEST_STARTING =>
    simp only [hs] at hH
    rcases HandleStarting_cases mt e w h hH with ⟨_, p, _, rfl⟩ | ⟨_, r1, hp, rfl⟩ | ⟨_, _, rfl⟩
    · intro x hx
      simp only [List.mem_singleton] at hx
      subst hx; rfl
    · obtain ⟨bx, by_, g, _, rfl⟩ := PrepareExperiment_cases mt e w r1 hp
      intro x hx
      simp only [List.mem_append, List.mem_cons, List.mem_singleton, List.not_mem_nil,
        or_false] at hx
      rcases hx with hx | hx | hx
      · exact movePlayers_isHandlerEffect _ x hx
      · subst hx; rfl
      · subst hx; rfl
    · intro x hx; simp at hx
  | TEST_STARTED =>
    simp only [hs, Option.some.injEq] at hH
    subst hH
    by_cases hg : rosterGrew e w
    · rw [HandleStarted_grew e w hs hg]
      intro x hx
      simp only [List.mem_singleton] at hx
      subst hx; rfl
    · rw [HandleStarted_not_grew e w hg]
      by_cases hf : (HandleStarted.finish w (w.now - e.timer_)).1 = true
      · rw [if_pos hf]
        intro x hx
        simp only [FinishExperiment, List.mem_singleton] at hx
        subst hx; rfl
      · rw [if_neg hf]
        intro x hx; simp at hx
  | TEST_FINISHED =>
    simp only [hs, Option.some.injEq] at hH
    subst hH
    intro x hx
    by_cases h300 : e.start_in_ = 300
    · simp only [HandleFinished, h300, if_true, List.mem_singleton] at hx
      subst hx; rfl
    · by_cases h150 : e.start_in_ = 150
      · simp [HandleFinished, h150] at hx
      · simp [HandleFinished, h300, h150] at hx

/-- The end of a tick: at most one position-log row, then the broadcast, whose message is the
active-play status exactly when the state is TEST_STARTED or TEST_FINISHED. -/
theorem respond_effects (e : FindBallExperiment) (w : World)
    (r : FindBallExperiment × List Effect) (hR : Tick.respond e w = some r) :
    ∃ rows, r.2 = rows ++ [Effect.Send
        (if e.state_ = TEST_STARTED ∨ e.state_ = TEST_FINISHED then responsePlaying
          else responsePenalised)]
      ∧ (rows = [] ∨ ∃ t s sl, rows = [Effect.PositionRow t s sl]) := by
  unfold Tick.respond GetExperimentState at hR
  by_cases hc : e.state_ = TEST_STARTED ∨ e.state_ = TEST_FINISHED
  · rw [if_pos hc] at hR
    rw [if_pos hc]
    cases hL : LogAgentPositions e w with
    | none => rw [hL] at hR; exact absurd hR (by simp)
    | some r1 =>
      rw [hL] at hR
      simp only [Option.some.injEq] at hR
      subst hR
      refine ⟨r1.2, rfl, ?_⟩
      by_cases hk : e.started_ = false ∨ e.last_log_ = w.now - e.timer_
      · rw [LogAgentPositions_skip e w hk] at hL
        left
        rw [← Option.some.inj hL]
      · have hs : e.started_ = true := by
          cases hst : e.started_ with
          | false => exact absurd (Or.inl hst) hk
          | true => rfl
        rw [LogAgentPositions_active e w hs (fun hh => hk (Or.inr hh))] at hL
        cases hF : LogAgentPositions.fill w 5 w.agents (List.replicate 5 w.blank) with
        | none => rw [hF] at hL; exact absurd hL (by simp)
        | some updates =>
          rw [hF] at hL
          simp only [Option.map_some', Option.some.injEq] at hL
          right
          rw [← hL]
          exact ⟨_, _, _, rfl⟩
  · rw [if_neg hc] at hR
    rw [if_neg hc]
    simp only [Option.some.injEq] at hR
    subst hR
    exact ⟨[], rfl, Or.inl rfl⟩

theorem filter_isSend_of_isHandlerEffect (l : List Effect)
    (h : ∀ x ∈ l, x.isHandlerEffect = true) : l.filter Effect.isSend = [] := by
  rw [List.filter_eq_nil_iff]
  intro x hx
  have := h x hx
  cases x <;> simp [Effect.isHandlerEffect, Effect.isSend] at this ⊢

theorem filter_isSend_CheckSimulatorGameState (w : World) :
    (CheckSimulatorGameState w).filter Effect.isSend = [] := by
  unfold CheckSimulatorGameState
  split <;> rfl

/-- C12, refuted as stated: the reachable controller `exampleStarted` is in its live trial; on a
tick at elapsed second 1 whose only connected agent has no telemetry, the unfilled local holding
player number 0, the state handler completes in TEST_STARTED, the position log then writes
`updates[-1]` out of bounds, and the tick is undefined: no control message is broadcast. -/
theorem Tick_dies_before_broadcast :
    Reachable exampleMt 1 exampleStarted
    ∧ (exampleSilent 0 [1]).agents = [1]
    ∧ (exampleSilent 0 [1]).lastUpdate 1 = none
    ∧ (Tick.handle exampleMt exampleStarted (exampleSilent 0 [1])).map
        (fun h => (h.1.state_, h.2)) = some (TEST_STARTED, [])
    ∧ (Tick.respond (HandleStarted exampleStarted (exampleSilent 0 [1])).1
        (exampleSilent 0 [1])).isSome = false
    ∧ (Tick exampleMt exampleStarted (exampleSilent 0 [1])).isSome = false :=
  ⟨exampleStarted_reachable, rfl, rfl, by decide, by decide, by decide⟩

/-- C12, amended: every defined tick broadcasts exactly one control message, as its last effect, and that
message is the active-play status (STATE_PLAYING, PENALTY_NONE) if and only if the state after the
state handler, which is the state at the end of the tick, is TEST_STARTED or TEST_FINISHED;
otherwise it is the held status (STATE_PENALISED with the penalty set). -/
theorem Tick_broadcasts_once (mt : Mt19937) (e : FindBallExperiment) (w : World)
    (r : FindBallExperiment × List Effect) (hT : Tick mt e w = some r) :
    (∃ h, Tick.handle mt e w = some h ∧ r.1.state_ = h.1.state_)
    ∧ r.2.filter Effect.isSend
        = [Effect.Send (if r.1.state_ = TEST_STARTED ∨ r.1.state_ = TEST_FINISHED
            then responsePlaying else responsePenalised)]
    ∧ r.2.getLast? = some (Effect.Send
        (if r.1.state_ = TEST_STARTED ∨ r.1.state_ = TEST_FINISHED
          then responsePlaying else responsePenalised))
    ∧ responsePlaying
        = { penalty := Penalty.PENALTY_NONE, game_state := GameState.STATE_PLAYING }
    ∧ responsePenalised
        = { penalty := Penalty.PENALTY_SPL_ILLEGAL_BALL_CONTACT,
            game_state := GameState.STATE_PENALISED } := by
  obtain ⟨h, out2, hH, hR, hout⟩ := Tick_parts mt e w r hT
  have hf := Tick.respond_fields h.1 w (r.1, out2) hR
  have hstate : r.1.state_ = h.1.state_ := by rw [hf]
  obtain ⟨rows, hrows, hkind⟩ := respond_effects h.1 w (r.1, out2) hR
  simp only at hrows
  refine ⟨⟨h, hH, hstate⟩, ?_, ?_, rfl, rfl⟩
  · rw [hout, hrows, hstate, List.filter_append, List.filter_append, List.filter_append,
      filter_isSend_CheckSimulatorGameState,
      filter_isSend_of_isHandlerEffect h.2 (handle_effects mt e w h hH)]
    rcases hkind with hk | ⟨t, s, sl, hk⟩ <;> subst hk <;> rfl
  · rw [hout, hrows, hstate, ← List.append_assoc, List.getLast?_concat]

/-- C12, amended, at concrete ticks: a continuing tick of the live trial broadcasts the active-play status
once, and the cancelling tick, which ends in TEST_STARTING, broadcasts the held status once. -/
theorem Tick_broadcasts_once_witness :
    (Tick exampleMt exampleStarted (exampleQuiet [0] 101)).map
        (fun r => (r.1.state_, r.2.filter Effect.isSend))
      = some (TEST_STARTED, [Effect.Send responsePlaying])
    ∧ (Tick exampleMt exampleStarted (exampleQuiet [0, 1] 101)).map
        (fun r => (r.1.state_, r.2.filter Effect.isSend))
      = some (TEST_STARTING, [Effect.Send responsePenalised]) := by
  have h1 : (Tick exampleMt exampleStarted (exampleQuiet [0] 101)).isSome = true := by decide
  have h2 : (Tick exampleMt exampleStarted (exampleQuiet [0, 1] 101)).isSome = true := by decide
  obtain ⟨r1, hr1⟩ := Option.isSome_iff_exists.1 h1
  obtain ⟨r2, hr2⟩ := Option.isSome_iff_exists.1 h2
  have hs1 : r1.1.state_ = TEST_STARTED := by
    have : (Tick exampleMt exampleStarted (exampleQuiet [0] 101)).map (fun r => r.1.state_)
        = some TEST_STARTED := by decide
    rw [hr1] at this
    exact Option.some.inj this
  have hs2 : r2.1.state_ = TEST_STARTING := by
    have : (Tick exampleMt exampleStarted (exampleQuiet [0, 1] 101)).map (fun r => r.1.state_)
        = some TEST_STARTING := by decide
    rw [hr2] at this
    exact Option.some.inj this
  have b1 := (Tick_broadcasts_once exampleMt exampleStarted (exampleQuiet [0] 101) r1 hr1).2.1
  have b2 := (Tick_broadcasts_once exampleMt exampleStarted (exampleQuiet [0, 1] 101) r2
    hr2).2.1
  rw [hs1] at b1
  rw [hs2] at b2
  constructor
  · rw [hr1, Option.map_some', hs1, b1]; rfl
  · rw [hr2, Option.map_some', hs2, b2]; rfl

/-- A state handler leaves `last_log_` alone and keeps `started_` true exactly in TEST_STARTED. -/
theorem handle_flags (mt : Mt19937) (e : FindBallExperiment) (w : World)
    (h : FindBallExperiment × List Effect) (hH : Tick.handle mt e w = some h)
    (hinv : e.started_ = true ↔ e.state_ = TEST_STARTED) :
    (h.1.started_ = true ↔ h.1.state_ = TEST_STARTED) ∧ h.1.last_log_ = e.last_log_ := by
  unfold Tick.handle GetExperimentState at hH
  cases hs : e.state_ with
  | NOT_STARTED =>
    simp only [hs, Option.some.injEq] at hH
    subst hH
    rw [HandleNotStarted_eq]
    by_cases hg : rosterGrew e w
    · simp [hg]
    · simpa [hg, hs] using hinv
  | TEST_STARTING =>
    simp only [hs] at hH
    rcases HandleStarting_cases mt e w h hH with ⟨_, p, _, rfl⟩ | ⟨_, r1, hp, rfl⟩ | ⟨_, _, rfl⟩
    · simp
    · have hf := PrepareExperiment_fields mt e w r1 hp
      rw [hf]
      simpa [hs] using hinv
    · simpa [hs] using hinv
  | TEST_STARTED =>
    simp only [hs, Option.some.injEq] at hH
    subst hH
    by_cases hg : rosterGrew e w
    · rw [HandleStarted_grew e w hs hg]
      simp
    · rw [HandleStarted_not_grew e w hg]
      by_cases hf : (HandleStarted.finish w (w.now - e.timer_)).1 = true
      · rw [if_pos hf]
        simp [SetExperimentState, FinishExperiment]
      · rw [if_neg hf]
        simpa [hs] using hinv
  | TEST_FINISHED =>
    simp only [hs, Option.some.injEq] at hH
    subst hH
    by_cases h300 : e.start_in_ = 300
    · simpa [HandleFinished, h300, hs] using hinv
    · by_cases h150 : e.start_in_ = 150
      · simp [HandleFinished, h150, SetExperimentState]
      · simpa [HandleFinished, h300, h150, hs] using hinv

/-- In every reachable object `started_` is true exactly in TEST_STARTED. -/
theorem Reachable.started (mt : Mt19937) (start_from : Int) (e : FindBallExperiment)
    (hr : Reachable mt start_from e) : e.started_ = true ↔ e.state_ = TEST_STARTED := by
  refine Reachable.induct mt start_from
    (fun e => e.started_ = true ↔ e.state_ = TEST_STARTED) ?_ ?_ e hr
  · intro t0
    simp [FindBallExperiment.new]
  · intro e w r hinv hT
    obtain ⟨h, out2, hH, hR, _⟩ := Tick_parts mt e w r hT
    have hf := Tick.respond_fields h.1 w (r.1, out2) hR
    have h1 : r.1.started_ = h.1.started_ := by rw [hf]
    have h2 : r.1.state_ = h.1.state_ := by rw [hf]
    rw [h1, h2]
    exact (handle_flags mt e w h hH hinv).1

set_option maxRecDepth 100000 in
theorem exampleLogged_run :
    run exampleMt (FindBallExperiment.new exampleMt 1 100) exampleLoggedTrial
      = some exampleLogged :=
  Option.eq_some_getD _ [] (by decide)

/-- C14, refuted as stated: on a continuing tick of the live trial at elapsed second 1, with the
simulator before kick-off, the effects are the reconciliation command, then the position-log row,
and only then the broadcast. -/
theorem position_row_before_broadcast :
    (Tick exampleMt exampleStarted (exampleKickOff 101)).map Prod.snd
      = some [Effect.SendPlayModeCommand PlayMode.GAME_OVER,
          Effect.PositionRow 1 1 [(0, 0, 0), (0, 0, 0), (0, 0, 0), (0, 0, 0), (0, 0, 0)],
          Effect.Send responsePlaying] := by
  decide

/-- C14, amended: the effects of every defined tick are, in this order, the simulator-phase
reconciliation command (if any), then the effects of the state handler (select-player,
move-player and move-ball commands and trial-summary writes), then the position-log row (if any),
and last the broadcast to the agents. -/
theorem Tick_effect_order (mt : Mt19937) (e : FindBallExperiment) (w : World)
    (r : FindBallExperiment × List Effect) (hT : Tick mt e w = some r) :
    ∃ h rows resp, Tick.handle mt e w = some h
      ∧ r.2 = CheckSimulatorGameState w ++ h.2 ++ rows ++ [Effect.Send resp]
      ∧ (CheckSimulatorGameState w = []
          ∨ CheckSimulatorGameState w = [Effect.SendPlayModeCommand PlayMode.GAME_OVER])
      ∧ (∀ x ∈ h.2, x.isHandlerEffect = true)
      ∧ (rows = [] ∨ ∃ t s sl, rows = [Effect.PositionRow t s sl]) := by
  obtain ⟨h, out2, hH, hR, hout⟩ := Tick_parts mt e w r hT
  obtain ⟨rows, hrows, hkind⟩ := respond_effects h.1 w (r.1, out2) hR
  simp only at hrows
  refine ⟨h, rows,
    if h.1.state_ = TEST_STARTED ∨ h.1.state_ = TEST_FINISHED then responsePlaying
      else responsePenalised,
    hH, ?_, ?_, handle_effects mt e w h hH, hkind⟩
  · rw [hout, hrows, List.append_assoc, List.append_assoc, List.append_assoc]
  · unfold CheckSimulatorGameState
    split
    · right; rfl
    · left; rfl

/-- C14, amended, at a concrete tick: the tick on which the first trial is won, with the
simulator before kick-off, sends the reconciliation command, then writes the closing record of
the handler, and its last effect is the broadcast. -/
theorem Tick_effect_order_witness :
    (Tick exampleMt exampleStarted
        { exampleWorld [0] 102 with su := (exampleKickOff 102).su }).map Prod.snd
      = some [Effect.SendPlayModeCommand PlayMode.GAME_OVER, Effect.TestClosed 2 ['1'],
          Effect.Send responsePlaying]
    ∧ ((Tick exampleMt exampleStarted
        { exampleWorld [0] 102 with su := (exampleKickOff 102).su }).map
          (fun r => r.2.getLast?.map Effect.isSend)) = some (some true) := by
  refine ⟨by decide, ?_⟩
  have h1 : (Tick exampleMt exampleStarted
      { exampleWorld [0] 102 with su := (exampleKickOff 102).su }).isSome = true := by decide
  obtain ⟨r1, hr1⟩ := Option.isSome_iff_exists.1 h1
  obtain ⟨h, rows, resp, _, heq, _⟩ := Tick_effect_order exampleMt exampleStarted
    { exampleWorld [0] 102 with su := (exampleKickOff 102).su } r1 hr1
  rw [hr1, Option.map_some', heq, List.getLast?_concat]
  rfl

/-! ## Starting positions (C15) -/

theorem GetStartingPosition_isSome (n : Int) :
    (GetStartingPosition n).isSome = true ↔ 1 ≤ n ∧ n ≤ 5 := by
  unfold GetStartingPosition
  constructor
  · intro h
    split_ifs at h <;> first | omega | simp at h
  · intro h
    have : n = 1 ∨ n = 2 ∨ n = 3 ∨ n = 4 ∨ n = 5 := by omega
    rcases this with h1 | h1 | h1 | h1 | h1 <;> subst h1 <;> rfl

theorem movePlayers_eq_filterMap (ps : List Player) :
    PrepareExperiment.movePlayers ps
      = ps.filterMap (fun p => (GetStartingPosition p.number).map
          (fun t => Effect.SendMovePlayerCommand p t.1 t.2.1 0.4 t.2.2)) := by
  induction ps with
  | nil => rfl
  | cons p rest ih =>
    unfold PrepareExperiment.movePlayers
    rw [ih]
    cases hg : GetStartingPosition p.number with
    | none => simp [List.filterMap_cons, hg]
    | some t =>
      obtain ⟨x1, y1, o1⟩ := t
      simp [List.filterMap_cons, hg]

theorem mem_movePlayers (ps : List Player) (p : Player) (x y z o : ℚ) :
    Effect.SendMovePlayerCommand p x y z o ∈ PrepareExperiment.movePlayers ps
      ↔ p ∈ ps ∧ GetStartingPosition p.number = some (x, y, o) ∧ z = 0.4 := by
  rw [movePlayers_eq_filterMap, List.mem_filterMap]
  constructor
  · rintro ⟨q, hq, hm⟩
    cases hg : GetStartingPosition q.number with
    | none => rw [hg] at hm; simp at hm
    | some t =>
      obtain ⟨x1, y1, o1⟩ := t
      rw [hg] at hm
      simp only [Option.map_some', Option.some.injEq, Effect.SendMovePlayerCommand.injEq] at hm
      obtain ⟨rfl, rfl, rfl, rfl, rfl⟩ := hm
      exact ⟨hq, hg, rfl⟩
  · rintro ⟨hp, hg, rfl⟩
    exact ⟨p, hp, by rw [hg]; rfl⟩

/-- C15: `GetStartingPosition` succeeds if and only if the player number is in 1..5, and then
returns the fixed triple of that number; for every other number it fails and assigns no output.
During placement the move-player commands are, in snapshot order, one for each player whose
number is in 1..5, to its triple at height 0.4; no move-player command is issued for a player with
another number, and the ball is still moved and the opened record written. -/
theorem starting_position_policy (n : Int) :
    ((GetStartingPosition n).isSome = true ↔ 1 ≤ n ∧ n ≤ 5)
    ∧ (¬ (1 ≤ n ∧ n ≤ 5) → GetStartingPosition n = none)
    ∧ GetStartingPosition 1 = some (-3, -3, 0)
    ∧ GetStartingPosition 2 = some (-3.25, 3, 180)
    ∧ GetStartingPosition 3 = some (-2, -3, 0)
    ∧ GetStartingPosition 4 = some (-1.75, 3, 180)
    ∧ GetStartingPosition 5 = some (-1, -3, 0)
    ∧ (∀ (mt : Mt19937) (e : FindBallExperiment) (w : World)
        (r : FindBallExperiment × List Effect), PrepareExperiment mt e w = some r →
        (∃ ball_x ball_y, r.2
          = w.su.players.filterMap (fun p => (GetStartingPosition p.number).map
              (fun t => Effect.SendMovePlayerCommand p t.1 t.2.1 0.4 t.2.2))
            ++ [Effect.SendMoveBallCommand [ball_x, ball_y, 0, 0, 0, 0],
                Effect.TestOpened (intWrap (e.counter_ + 1)) (ball_x * 1000) (ball_y * 1000)
                  w.su.players.length])
        ∧ (∀ p x y z o, Effect.SendMovePlayerCommand p x y z o ∈ r.2 →
            p ∈ w.su.players ∧ 1 ≤ p.number ∧ p.number ≤ 5
              ∧ GetStartingPosition p.number = some (x, y, o) ∧ z = 0.4)
        ∧ (∀ p ∈ w.su.players, 1 ≤ p.number ∧ p.number ≤ 5 →
            ∃ x y o, GetStartingPosition p.number = some (x, y, o)
              ∧ Effect.SendMovePlayerCommand p x y 0.4 o ∈ r.2))
    ∧ (∀ (mt : Mt19937) (e : FindBallExperiment) (w : World), 0 ≤ e.counter_ →
        ∃ r, PrepareExperiment mt e w = some r) := by
  refine ⟨GetStartingPosition_isSome n, ?_, rfl, rfl, rfl, rfl, rfl, ?_,
    fun mt e w hc => PrepareExperiment_defined mt e w hc⟩
  · intro hn
    cases hg : GetStartingPosition n with
    | none => rfl
    | some t =>
      exact absurd ((GetStartingPosition_isSome n).1 (by rw [hg]; rfl)) hn
  · intro mt e w r hp
    obtain ⟨bx, by_, g, _, rfl⟩ := PrepareExperiment_cases mt e w r hp
    refine ⟨⟨bx, by_, by rw [movePlayers_eq_filterMap]⟩, ?_, ?_⟩
    · intro p x y z o hmem
      simp only [List.mem_append, List.mem_cons, List.mem_singleton, List.not_mem_nil,
        or_false, reduceCtorEq] at hmem
      have hm := (mem_movePlayers w.su.players p x y z o).1 hmem
      have hsome := (GetStartingPosition_isSome p.number).1 (by rw [hm.2.1]; rfl)
      exact ⟨hm.1, hsome.1, hsome.2, hm.2.1, hm.2.2⟩
    · intro p hp hn
      have hsome := (GetStartingPosition_isSome p.number).2 hn
      cases hg : GetStartingPosition p.number with
      | none => rw [hg] at hsome; exact absurd hsome (by simp)
      | some t =>
        obtain ⟨x1, y1, o1⟩ := t
        refine ⟨x1, y1, o1, rfl, ?_⟩
        simp only [List.mem_append]
        left
        exact (mem_movePlayers w.su.players p x1 y1 0.4 o1).2 ⟨hp, hg, rfl⟩

/-! ## Termination and the select-player command (C16, C19) -/

set_option maxRecDepth 100000 in
/-- C16, the code at the failing inputs: `Finish` writes a closing record exactly when the state
is TEST_STARTED or NOT_STARTED.  Before any agent has connected (NOT_STARTED, nothing written, no
trial open) it writes the record "5,-1" and increments the sequence index; after placement in
TEST_STARTING (tick 102 of `exampleHistory`, the opened record written and not closed) it writes
nothing. -/
theorem Finish_misses_open_trial :
    (∀ (e : FindBallExperiment) (w : World),
        (e.state_ = TEST_STARTED ∨ e.state_ = NOT_STARTED →
          Finish e w = ({ e with counter_ := intWrap (e.counter_ + 1) },
            [Effect.TestClosed (w.now - e.timer_) ['-', '1']]))
        ∧ (e.state_ = TEST_STARTING ∨ e.state_ = TEST_FINISHED → Finish e w = (e, [])))
    ∧ (trialOpen [] = false
        ∧ (FindBallExperiment.new exampleMt 1 100).state_ = NOT_STARTED
        ∧ (Finish (FindBallExperiment.new exampleMt 1 100) (exampleEmpty 105)).2
            = [Effect.TestClosed 5 ['-', '1']]
        ∧ (Finish (FindBallExperiment.new exampleMt 1 100) (exampleEmpty 105)).1.counter_ = 1)
    ∧ (run exampleMt (FindBallExperiment.new exampleMt 1 100) (exampleTwoTrials.take 102)
          = some (exampleHistory.take 102)
        ∧ (finalObject (FindBallExperiment.new exampleMt 1 100)
            (exampleHistory.take 102)).state_ = TEST_STARTING
        ∧ trialOpen (allEffects (exampleHistory.take 102)) = true
        ∧ (Finish (finalObject (FindBallExperiment.new exampleMt 1 100)
            (exampleHistory.take 102)) (exampleQuiet [0] 100)).2 = []) := by
  refine ⟨fun e w => ⟨fun hs => ?_, fun hs => ?_⟩, ⟨rfl, rfl, by decide, by decide⟩,
    ⟨?_, by decide, by decide, by decide⟩⟩
  · simp [Finish, CancelExperiment, GetExperimentState, hs, FinishExperiment,
      FinishExperiment.found_str, GetTimerSeconds]
  · have h1 : ¬ (e.state_ = TEST_STARTED ∨ e.state_ = NOT_STARTED) := by
      rcases hs with hs | hs <;> rw [hs] <;> decide
    simp [Finish, CancelExperiment, GetExperimentState, h1]
  · have h : (run exampleMt (FindBallExperiment.new exampleMt 1 100)
        (exampleTwoTrials.take 102)).isSome = true := by decide
    have h2 := Option.eq_some_getD _ [] h
    rw [h2]
    rfl

theorem LogAgentPositions_rows (e : FindBallExperiment) (w : World)
    (r : FindBallExperiment × List Effect) (hL : LogAgentPositions e w = some r) :
    r.2 = [] ∨ ∃ t s sl, r.2 = [Effect.PositionRow t s sl] := by
  by_cases hk : e.started_ = false ∨ e.last_log_ = w.now - e.timer_
  · rw [LogAgentPositions_skip e w hk] at hL
    left
    rw [← Option.some.inj hL]
  · have hs : e.started_ = true := by
      cases hst : e.started_ with
      | false => exact absurd (Or.inl hst) hk
      | true => rfl
    rw [LogAgentPositions_active e w hs (fun hh => hk (Or.inr hh))] at hL
    cases hF : LogAgentPositions.fill w 5 w.agents (List.replicate 5 w.blank) with
    | none => rw [hF] at hL; exact absurd hL (by simp)
    | some updates =>
      rw [hF] at hL
      simp only [Option.map_some', Option.some.injEq] at hL
      right
      rw [← hL]
      exact ⟨_, _, _, rfl⟩

theorem filter_isSelectPlayer_CheckSimulatorGameState (w : World) :
    (CheckSimulatorGameState w).filter Effect.isSelectPlayer = [] := by
  unfold CheckSimulatorGameState
  split <;> rfl

set_option maxRecDepth 100000 in
/-- C19, the code at the failing input: a tick in TEST_STARTING whose countdown is 0 reads
`players[0]` without a test; with an empty snapshot the read is out of bounds and the tick is
undefined, as on tick 151 of a run in which one agent is connected and the simulator reports no
player.  With a non-empty snapshot (and a position log that can be written) the tick sends exactly
one select-player command, to the first player of the snapshot, resets the timer and ends in
TEST_STARTED. -/
theorem select_player_unguarded :
    (∀ (mt : Mt19937) (e : FindBallExperiment) (w : World),
        e.state_ = TEST_STARTING → e.start_in_ = 0 → w.su.players = [] →
        HandleStarting mt e w = none ∧ Tick mt e w = none)
    ∧ (∀ (mt : Mt19937) (e : FindBallExperiment) (w : World) (p : Player) (rest : List Player),
        e.state_ = TEST_STARTING → e.start_in_ = 0 → w.su.players = p :: rest →
        positionsLoggable w →
        ∃ r, Tick mt e w = some r ∧ r.1.state_ = TEST_STARTED ∧ r.1.timer_ = w.now
          ∧ r.2.filter Effect.isSelectPlayer = [Effect.SendSelectPlayerCommand p])
    ∧ (run exampleMt (FindBallExperiment.new exampleMt 1 100)
          (List.replicate 151 (exampleNoPlayers 100)) = some exampleUnplaced
        ∧ (finalObject (FindBallExperiment.new exampleMt 1 100) exampleUnplaced).state_
            = TEST_STARTING
        ∧ (finalObject (FindBallExperiment.new exampleMt 1 100) exampleUnplaced).start_in_ = 0
        ∧ (exampleNoPlayers 100).su.players = []
        ∧ (Tick exampleMt (finalObject (FindBallExperiment.new exampleMt 1 100) exampleUnplaced)
            (exampleNoPlayers 100)).isSome = false
        ∧ (run exampleMt (FindBallExperiment.new exampleMt 1 100)
            (List.replicate 152 (exampleNoPlayers 100))).isSome = false) := by
  refine ⟨?_, ?_, ⟨Option.eq_some_getD _ [] (by decide), by decide, by decide, rfl, by decide,
    by decide⟩⟩
  · intro mt e w hs h0 hp
    have hH : HandleStarting mt e w = none := by
      simp [HandleStarting, h0, hp]
    refine ⟨hH, ?_⟩
    simp [Tick, Tick.handle, GetExperimentState, hs, hH]
  · intro mt e w p rest hs h0 hp hw
    obtain ⟨r1, hL⟩ := LogAgentPositions_defined
      { e with start_in_ := -1, started_ := true, timer_ := w.now, state_ := TEST_STARTED } w hw
    have hT := Tick_starting_go mt e w hs h0
    rw [hp] at hT
    simp only [List.getElem?_cons_zero, hL, Option.map_some'] at hT
    have hf := LogAgentPositions_fields _ w r1 hL
    refine ⟨_, hT, by rw [hf], by rw [hf], ?_⟩
    simp only [List.filter_append, filter_isSelectPlayer_CheckSimulatorGameState]
    rcases LogAgentPositions_rows _ w r1 hL with hk | ⟨t, s, sl, hk⟩ <;> rw [hk] <;> rfl

/-! ## The opened record (C17) -/

theorem openedNumbers_append (l1 l2 : List Effect) :
    openedNumbers (l1 ++ l2) = openedNumbers l1 ++ openedNumbers l2 := by
  induction l1 with
  | nil => rfl
  | cons x xs ih => cases x <;> simp [openedNumbers, ih]

theorem openedNumbers_of_silent (l : List Effect) (h : sinkWrites l = []) :
    openedNumbers l = [] := by
  induction l with
  | nil => rfl
  | cons x xs ih =>
    cases x <;> simp [sinkWrites] at h <;> simp [openedNumbers, ih h]

/-- A tick of a controller that awaits placement either writes no opened record and still awaits
placement, or writes exactly one opened record, with trial number `start_from`. -/
theorem Tick_awaitsPlacement (mt : Mt19937) (start_from : Int) (e : FindBallExperiment)
    (w : World) (r : FindBallExperiment × List Effect) (hlo : INT_MIN ≤ start_from)
    (hhi : start_from ≤ INT_MAX) (hq : awaitsPlacement start_from e)
    (hT : Tick mt e w = some r) :
    (openedNumbers r.2 = [] ∧ awaitsPlacement start_from r.1)
      ∨ openedNumbers r.2 = [start_from] := by
  obtain ⟨hc, hst⟩ := hq
  rcases hst with hs | ⟨hs, h50⟩
  · left
    rw [Tick_not_started mt e w hs] at hT
    rw [← Option.some.inj hT]
    refine ⟨?_, ?_⟩
    · exact openedNumbers_of_silent _
        (by rw [sinkWrites_append, sinkWrites_CheckSimulatorGameState]; rfl)
    · simp only [HandleNotStarted_eq]
      by_cases hg : rosterGrew e w
      · rw [if_pos hg]
        exact ⟨hc, Or.inr ⟨rfl, by show (50 : Int) ≤ 150; omega⟩⟩
      · rw [if_neg hg]
        exact ⟨hc, Or.inl hs⟩
  · by_cases h : e.start_in_ = 50
    · right
      rw [Tick_starting_prepare mt e w hs h] at hT
      cases hp : PrepareExperiment mt e w with
      | none => rw [hp] at hT; exact absurd hT (by simp)
      | some r1 =>
        rw [hp] at hT
        simp only [Option.map_some', Option.some.injEq] at hT
        obtain ⟨bx, by_, g, _, rfl⟩ := PrepareExperiment_cases mt e w r1 hp
        rw [← hT]
        simp only [openedNumbers_append,
          openedNumbers_of_silent _ (sinkWrites_CheckSimulatorGameState w),
          openedNumbers_of_silent _ (sinkWrites_movePlayers w.su.players)]
        have hn : intWrap (e.counter_ + 1) = start_from := by
          rw [hc, sub_add_cancel]
          exact intWrap_of_int _ hlo hhi
        simp [openedNumbers, hn]
    · left
      rw [Tick_starting_count mt e w hs (by omega) h] at hT
      rw [← Option.some.inj hT]
      refine ⟨?_, hc, Or.inr ⟨hs, ?_⟩⟩
      · exact openedNumbers_of_silent _
          (by rw [sinkWrites_append, sinkWrites_CheckSimulatorGameState]; rfl)
      · show 50 ≤ e.start_in_ - 1
        omega

/-- In a run of a controller that awaits placement, the first tick that writes an opened record
writes exactly one, with trial number `start_from`. -/
theorem run_first_opened (mt : Mt19937) (start_from : Int) (hlo : INT_MIN ≤ start_from)
    (hhi : start_from ≤ INT_MAX) (ws : List World) :
    ∀ (e : FindBallExperiment) (hist : List (FindBallExperiment × List Effect)),
      awaitsPlacement start_from e → run mt e ws = some hist →
      ∀ j, (∀ i, i < j → openedNumbers (effectsOf hist i) = []) →
        openedNumbers (effectsOf hist j) = [] ∨ openedNumbers (effectsOf hist j) = [start_from] := by
  induction ws with
  | nil =>
    intro e hist _ hrun j _
    simp only [run, Option.some.injEq] at hrun
    subst hrun
    left; rfl
  | cons w ws1 ih =>
    intro e hist hq hrun j hj
    obtain ⟨r, rs, hT, hR, rfl⟩ := run_cons_eq mt e w ws1 hist hrun
    cases j with
    | zero =>
      simp only [effectsOf]
      exact (Tick_awaitsPlacement mt start_from e w r hlo hhi hq hT).imp (fun h => h.1) id
    | succ j1 =>
      have h0 : openedNumbers r.2 = [] := by simpa [effectsOf] using hj 0 (by omega)
      have hq1 : awaitsPlacement start_from r.1 := by
        rcases Tick_awaitsPlacement mt start_from e w r hlo hhi hq hT with h | h
        · exact h.2
        · rw [h0] at h; exact absurd h (by simp)
      simp only [effectsOf]
      exact ih r.1 rs hq1 hR j1 (fun i hi => by simpa [effectsOf] using hj (i + 1) (by omega))

set_option maxRecDepth 100000 in
/-- C17, refuted as stated: in the run of the controller constructed with
`start_from = 2147483647` over the ticks of `exampleTwoTrials`, tick 404 is the placement of the
second trial; the sequence index before it is `INT_MAX`, the addition `counter_+1` overflows, and
the opened record carries the trial number `INT_MIN`, not the sequence index plus 1. -/
theorem opened_record_number_overflows :
    (run exampleMt (FindBallExperiment.new exampleMt 2147483647 100) exampleTwoTrials).map
      (fun hist =>
        ((objectBefore (FindBallExperiment.new exampleMt 2147483647 100) hist 404).state_,
         (objectBefore (FindBallExperiment.new exampleMt 2147483647 100) hist 404).start_in_,
         (objectBefore (FindBallExperiment.new exampleMt 2147483647 100) hist 404).counter_,
         openedNumbers (effectsOf hist 404),
         openedNumbers (allEffects hist)))
      = some (TEST_STARTING, 50, 2147483647, [-2147483648], [2147483647, -2147483648]) := by
  decide

/-- C17, amended: the opened record written by placement comes right after the move-ball command
and consists of the trial number, the two ball coordinates just sent to the simulator multiplied
by 1000, and the number of players of the simulator snapshot; the trial number is the `int`
result of the sequence index plus 1: the index plus 1 when the index is an `int` below `INT_MAX`,
and `INT_MIN` when the index is `INT_MAX`.  For a controller constructed with an `int`
`start_from` above `INT_MIN`, in every defined run the first tick that writes an opened record
writes exactly one, with trial number `start_from`; and after every tick that cancels a trial on
roster growth (which writes no opened record) the same holds for the run that follows. -/
theorem opened_record_content (mt : Mt19937) (start_from : Int)
    (hlo : INT_MIN < start_from) (hhi : start_from ≤ INT_MAX) :
    (∀ (e : FindBallExperiment) (w : World) (r : FindBallExperiment × List Effect),
        PrepareExperiment mt e w = some r →
        ∃ ball_x ball_y number, r.2 = PrepareExperiment.movePlayers w.su.players
          ++ [Effect.SendMoveBallCommand [ball_x, ball_y, 0, 0, 0, 0],
              Effect.TestOpened number (ball_x * 1000) (ball_y * 1000) w.su.players.length]
          ∧ number = intWrap (e.counter_ + 1)
          ∧ (INT_MIN ≤ e.counter_ → e.counter_ < INT_MAX → number = e.counter_ + 1)
          ∧ (e.counter_ = INT_MAX → number = INT_MIN))
    ∧ (∀ (t0 : Int) (ws : List World) (hist : List (FindBallExperiment × List Effect)),
        run mt (FindBallExperiment.new mt start_from t0) ws = some hist →
        ∀ j, (∀ i, i < j → openedNumbers (effectsOf hist i) = []) →
          openedNumbers (effectsOf hist j) = []
            ∨ openedNumbers (effectsOf hist j) = [start_from])
    ∧ (∀ (e : FindBallExperiment), Reachable mt start_from e → e.state_ = TEST_STARTED →
        ∀ (w : World), rosterGrew e w →
        ∃ r, Tick mt e w = some r ∧ openedNumbers r.2 = []
          ∧ ∀ (ws : List World) (hist : List (FindBallExperiment × List Effect)),
              run mt r.1 ws = some hist →
              ∀ j, (∀ i, i < j → openedNumbers (effectsOf hist i) = []) →
                openedNumbers (effectsOf hist j) = []
                  ∨ openedNumbers (effectsOf hist j) = [start_from]) := by
  refine ⟨?_, ?_, ?_⟩
  · intro e w r hp
    obtain ⟨bx, by_, g, _, rfl⟩ := PrepareExperiment_cases mt e w r hp
    refine ⟨bx, by_, intWrap (e.counter_ + 1), rfl, rfl, ?_, ?_⟩
    · intro h1 h2
      exact intWrap_of_int _ (by omega) (by omega)
    · intro hmax
      rw [hmax]
      exact intWrap_overflow
  · intro t0 ws hist hrun
    exact run_first_opened mt start_from (le_of_lt hlo) hhi ws _ hist ⟨rfl, Or.inl rfl⟩ hrun
  · intro e hr hs w hg
    have hsi := (Reachable.counter mt start_from e hr).1
    refine ⟨_, Tick_started_grew mt e w hs hg, ?_, ?_⟩
    · rw [openedNumbers_append, openedNumbers_of_silent _ (sinkWrites_CheckSimulatorGameState w)]
      rfl
    · intro ws hist hrun
      exact run_first_opened mt start_from (le_of_lt hlo) hhi ws _ hist
        ⟨hsi, Or.inr ⟨rfl, by show (50 : Int) ≤ 150; omega⟩⟩ hrun

set_option maxRecDepth 100000 in
/-- C17, amended, on the run `exampleHistory` of a controller constructed with `start_from = 1`:
no tick before tick 101 writes an opened record, and tick 101 writes one with trial number 1, the
first predefined point (2.25, 0) in millimetres and one player. -/
theorem opened_record_content_witness :
    (run exampleMt (FindBallExperiment.new exampleMt 1 100) exampleTwoTrials = some exampleHistory
      ∧ ∀ i, i < 101 → openedNumbers (effectsOf exampleHistory i) = [])
    ∧ openedNumbers (effectsOf exampleHistory 101) = [1]
    ∧ (effectsOf exampleHistory 101).filter Effect.isTestOpened
        = [Effect.TestOpened 1 (2.25 * 1000) (0 * 1000) 1] := by
  have hno : ∀ i, i < 101 → openedNumbers (effectsOf exampleHistory i) = [] := by decide
  have h := (opened_record_content exampleMt 1 (by decide) (by decide)).2.1 100 exampleTwoTrials
    exampleHistory exampleHistory_run 101 hno
  refine ⟨⟨exampleHistory_run, hno⟩, ?_, rfl⟩
  rcases h with h | h
  · exact absurd h (by decide)
  · exact h

/-! ## The finder field of the closing record (C18) -/

theorem playerChar_digit (n : Int) (h1 : 1 ≤ n) (h5 : n ≤ 5) :
    playerChar n = Nat.digitChar n.toNat := by
  have : n = 1 ∨ n = 2 ∨ n = 3 ∨ n = 4 ∨ n = 5 := by omega
  rcases this with h | h | h | h | h <;> subst h <;> decide

theorem FinishExperiment.found_str_eq (w : World) (found_by : List Agent)
    (hall : ∀ a ∈ found_by, ∃ u, w.lastUpdate a = some u) :
    FinishExperiment.found_str w found_by
      = List.intersperse ';'
          ((found_by.filterMap w.lastUpdate).map (fun u => playerChar u.player_number)) := by
  induction found_by with
  | nil => rfl
  | cons a rest ih =>
    obtain ⟨u, hu⟩ := hall a (by simp)
    have ih1 := ih (fun b hb => hall b (by simp [hb]))
    cases rest with
    | nil => simp [FinishExperiment.found_str, hu]
    | cons b rest1 =>
      obtain ⟨v, hv⟩ := hall b (by simp)
      rw [FinishExperiment.found_str, ih1]
      simp [hu, hv, List.filterMap_cons]

theorem FinishExperiment.found_str_ne_sentinel (w : World) (found_by : List Agent)
    (hall : ∀ a ∈ found_by, ∃ u, w.lastUpdate a = some u) (hne : found_by ≠ []) :
    FinishExperiment.found_str w found_by ≠ []
      ∧ FinishExperiment.found_str w found_by ≠ ['-', '1'] := by
  cases found_by with
  | nil => exact absurd rfl hne
  | cons a rest =>
    obtain ⟨u, hu⟩ := hall a (by simp)
    cases rest with
    | nil => simp [FinishExperiment.found_str, hu]
    | cons b rest1 => simp [FinishExperiment.found_str, hu]

/-- C18: when every agent of the finder list has telemetry, as is the case for every list the
handlers pass, the finder field of the closing record written by `FinishExperiment` is the
sentinel "-1" if and only if the list is empty (no agent is credited), which is the case for a
timeout at elapsed > 300 and for a cancellation; for a non-empty list whose agents report player
numbers in 1..5 it is the digits of those numbers in list order separated by single semicolons,
with no leading or trailing separator. -/
theorem closing_record_finder_field (e : FindBallExperiment) (w : World) (time : Int)
    (found_by : List Agent) (hall : ∀ a ∈ found_by, ∃ u, w.lastUpdate a = some u) :
    (∃ field, FinishExperiment e w time found_by
          = ({ e with counter_ := intWrap (e.counter_ + 1) }, [Effect.TestClosed time field])
        ∧ (field = ['-', '1'] ↔ found_by = [])
        ∧ ((∀ a ∈ found_by, ∃ u, w.lastUpdate a = some u ∧ 1 ≤ u.player_number
              ∧ u.player_number ≤ 5) → found_by ≠ [] →
            field = List.intersperse ';'
              ((found_by.filterMap w.lastUpdate).map
                (fun u => Nat.digitChar u.player_number.toNat))))
    ∧ (∀ t, ∀ a ∈ (HandleStarted.finish w t).2, ∃ u, w.lastUpdate a = some u)
    ∧ (∀ t, t > 300 → (HandleStarted.finish w t).2 = []) := by
  refine ⟨?_, ?_, ?_⟩
  · by_cases hne : found_by = []
    · subst hne
      exact ⟨['-', '1'], rfl, ⟨fun _ => rfl, fun _ => rfl⟩, fun _ h => absurd rfl h⟩
    · obtain ⟨h1, h2⟩ := FinishExperiment.found_str_ne_sentinel w found_by hall hne
      refine ⟨FinishExperiment.found_str w found_by, ?_, ⟨fun h => absurd h h2,
        fun h => absurd h hne⟩, fun hnum _ => ?_⟩
      · simp [FinishExperiment, h1]
      · rw [FinishExperiment.found_str_eq w found_by hall]
        congr 1
        apply List.map_congr_left
        intro u hu
        obtain ⟨a, ha, hau⟩ := List.mem_filterMap.1 hu
        obtain ⟨v, hv, hv1, hv5⟩ := hnum a ha
        rw [hv] at hau
        have : v = u := Option.some.inj hau
        subst this
        exact playerChar_digit v.player_number hv1 hv5
  · intro t a ha
    rw [HandleStarted.finish_eq] at ha
    split at ha
    · simp at ha
    · rw [List.mem_filter] at ha
      cases hu : w.lastUpdate a with
      | none => rw [satisfiesFoundBall_none w a hu] at ha; exact absurd ha.2 (by decide)
      | some u => exact ⟨u, rfl⟩
  · intro t ht
    rw [HandleStarted.finish_eq, if_pos ht]

/-- C18 at concrete lists: the finders 0, 2 and 1, who report player numbers 1, 3 and 2, give the
field "1;3;2", and the empty list gives the sentinel. -/
theorem closing_record_finder_field_witness :
    (FinishExperiment exampleStarted (exampleTeam [0, 1, 2] 102) 2 [0, 2, 1]).2
      = [Effect.TestClosed 2 ['1', ';', '3', ';', '2']]
    ∧ (FinishExperiment exampleStarted (exampleTeam [0, 1, 2] 401) 301 []).2
      = [Effect.TestClosed 301 ['-', '1']] := by
  obtain ⟨field, heq, _, hdig⟩ := (closing_record_finder_field exampleStarted
    (exampleTeam [0, 1, 2] 102) 2 [0, 2, 1] (fun a _ => ⟨_, rfl⟩)).1
  have hf := hdig (fun a ha => ⟨_, rfl, by
    simp only [List.mem_cons, List.mem_singleton, List.not_mem_nil, or_false] at ha
    rcases ha with h | h | h <;> subst h <;> decide⟩) (by simp)
  obtain ⟨field0, heq0, hiff0, _⟩ := (closing_record_finder_field exampleStarted
    (exampleTeam [0, 1, 2] 401) 301 [] (fun a ha => absurd ha (by simp))).1
  have hf0 := hiff0.2 rfl
  constructor
  · rw [heq, hf]; rfl
  · rw [heq0, hf0]

/-! ## The slots of the position-log row (C20) -/

theorem LogAgentPositions.fill_take (w : World) (n : Nat) :
    ∀ (agents : List Agent) (updates : List FromRunswiftAgent),
      LogAgentPositions.fill w n agents updates
        = LogAgentPositions.fill w n (agents.take n) updates := by
  induction n with
  | zero => intro agents updates; rfl
  | succ m ih =>
    intro agents updates
    cases agents with
    | nil => rfl
    | cons a rest =>
      simp only [List.take_succ_cons, LogAgentPositions.fill]
      split
      · exact ih rest _
      · rfl

/-- The first loop of `LogAgentPositions`: when the records of the first `n` roster entries carry
player numbers in 1..5, the loop is defined and slot `k` (from 0) ends with the record of the last
of these entries whose player number is `k + 1`, or with its initial content when there is none. -/
theorem LogAgentPositions.fill_spec (w : World) (n : Nat) :
    ∀ (agents : List Agent) (updates : List FromRunswiftAgent), updates.length = 5 →
      (∀ a ∈ agents.take n,
        1 ≤ (loggedUpdate w a).player_number ∧ (loggedUpdate w a).player_number ≤ 5) →
      ∃ filled, LogAgentPositions.fill w n agents updates = some filled ∧ filled.length = 5
        ∧ ∀ k : Nat, k < 5 → filled[k]? = some
            (((((agents.take n).map (loggedUpdate w)).filter
                (fun u => decide (u.player_number = (k : Int) + 1))).getLast?).getD
              (updates[k]?.getD w.blank)) := by
  induction n with
  | zero =>
    intro agents updates hlen _
    refine ⟨updates, rfl, hlen, fun k hk => ?_⟩
    have hk' : k < updates.length := by omega
    simp [List.getElem?_eq_getElem hk']
  | succ m ih =>
    intro agents updates hlen h
    cases agents with
    | nil =>
      refine ⟨updates, rfl, hlen, fun k hk => ?_⟩
      have hk' : k < updates.length := by omega
      simp [List.getElem?_eq_getElem hk']
    | cons a rest =>
      have ha := h a (by simp)
      have hrest : ∀ b ∈ rest.take m,
          1 ≤ (loggedUpdate w b).player_number ∧ (loggedUpdate w b).player_number ≤ 5 :=
        fun b hb => h b (by simp [List.take_succ_cons, hb])
      have hc : 0 ≤ (loggedUpdate w a).player_number - 1
          ∧ (loggedUpdate w a).player_number - 1 < 5 := by omega
      obtain ⟨filled, hfill, hflen, hslots⟩ :=
        ih rest (updates.set ((loggedUpdate w a).player_number - 1).toNat (loggedUpdate w a))
          (by rw [List.length_set]; exact hlen) hrest
      refine ⟨filled, ?_, hflen, fun k hk => ?_⟩
      · have hc' : 0 ≤ ((w.lastUpdate a).getD w.blank).player_number - 1
            ∧ ((w.lastUpdate a).getD w.blank).player_number - 1 < 5 := hc
        simp only [LogAgentPositions.fill, hc', and_self, if_true]
        exact hfill
      · rw [hslots k hk]
        congr 1
        have hk' : k < updates.length := by omega
        simp only [List.take_succ_cons, List.map_cons, List.filter_cons]
        by_cases hpk : (loggedUpdate w a).player_number = (k : Int) + 1
        · have hidx : ((loggedUpdate w a).player_number - 1).toNat = k := by omega
          rw [hidx, List.getElem?_set_self hk']
          simp [hpk, List.getLast?_cons]
        · have hidx : ((loggedUpdate w a).player_number - 1).toNat ≠ k := by omega
          rw [List.getElem?_set_ne hidx]
          simp [hpk]

/-- C20: when each of the first five roster entries has telemetry with a player number in 1..5,
the loop that fills the position-log row is defined and slot `k` (1..5) holds the record of the
last agent, in roster order among the first five roster entries, that reports player number `k`
(a later agent with the same number overwrites the slot), and the unfilled record when none does;
roster entries beyond the fifth have no influence; the row written by `LogAgentPositions` carries
the position and orientation of the five slots in order. -/
theorem position_log_slots (w : World)
    (hnum : ∀ a ∈ w.agents.take 5, ∃ u, w.lastUpdate a = some u ∧ 1 ≤ u.player_number
      ∧ u.player_number ≤ 5) :
    ∃ filled, LogAgentPositions.fill w 5 w.agents (List.replicate 5 w.blank) = some filled
      ∧ filled.length = 5
      ∧ (∀ k : Nat, 1 ≤ k → k ≤ 5 →
          filled[k - 1]? = some ((lastReport w (k : Int)).getD w.blank))
      ∧ (∀ (k : Int) (u : FromRunswiftAgent), lastReport w k = some u →
          u.player_number = k ∧ ∃ a ∈ w.agents.take 5, w.lastUpdate a = some u)
      ∧ (∀ updates, LogAgentPositions.fill w 5 w.agents updates
          = LogAgentPositions.fill w 5 (w.agents.take 5) updates)
      ∧ (∀ e : FindBallExperiment, e.started_ = true → e.last_log_ ≠ w.now - e.timer_ →
          LogAgentPositions e w = some ({ e with last_log_ := w.now - e.timer_ },
            [Effect.PositionRow (intWrap (e.counter_ + 1)) (w.now - e.timer_)
              (filled.map
                (fun u => (u.estimated_x_pos, u.estimated_y_pos, u.estimated_orientation)))])) := by
  have hlog : ∀ a ∈ w.agents.take 5,
      1 ≤ (loggedUpdate w a).player_number ∧ (loggedUpdate w a).player_number ≤ 5 := by
    intro a ha
    obtain ⟨u, hu, h1, h5⟩ := hnum a ha
    simp only [loggedUpdate, hu, Option.getD_some]
    exact ⟨h1, h5⟩
  obtain ⟨filled, hfill, hlen, hslots⟩ :=
    LogAgentPositions.fill_spec w 5 w.agents (List.replicate 5 w.blank) (by simp) hlog
  refine ⟨filled, hfill, hlen, ?_, ?_, fun updates => LogAgentPositions.fill_take w 5 _ _, ?_⟩
  · intro k hk1 hk5
    rw [hslots (k - 1) (by omega)]
    have hcast : ((k - 1 : Nat) : Int) + 1 = (k : Int) := by omega
    have hblank : (List.replicate 5 w.blank)[k - 1]?.getD w.blank = w.blank := by
      rw [List.getElem?_replicate]
      split <;> rfl
    rw [hcast, hblank]
    rfl
  · intro k u hu
    unfold lastReport at hu
    have hmem := List.mem_of_getLast?_eq_some hu
    rw [List.mem_filter, List.mem_map] at hmem
    obtain ⟨⟨a, ha, hau⟩, hpk⟩ := hmem
    refine ⟨by simpa using hpk, a, ha, ?_⟩
    obtain ⟨v, hv, _, _⟩ := hnum a ha
    rw [← hau, loggedUpdate, hv]
    rfl
  · intro e hs hl
    rw [LogAgentPositions_active e w hs hl, hfill]
    rfl

/-- C20 at a concrete roster: seven agents report the numbers 2, 1, 2, 5, 1, 3, 4; slot 1 holds
the fifth agent, slot 2 the third, slot 5 the fourth, and the slots 3 and 4, only reported by the
sixth and seventh agents, stay unfilled. -/
theorem position_log_slots_witness :
    (LogAgentPositions.fill (exampleCrowd 101) 5 (exampleCrowd 101).agents
        (List.replicate 5 exampleBlind)).map
      (fun filled => filled.map
        (fun u => (u.estimated_x_pos, u.estimated_y_pos, u.estimated_orientation)))
      = some [(40, 80, 4), (20, 40, 2), (0, 0, 0), (0, 0, 0), (30, 60, 3)]
    ∧ (LogAgentPositions.fill (exampleCrowd 101) 5 (exampleCrowd 101).agents
        (List.replicate 5 exampleBlind)).bind (fun filled => filled[0]?)
      = some ((lastReport (exampleCrowd 101) 1).getD exampleBlind) := by
  refine ⟨by decide, ?_⟩
  obtain ⟨filled, hfill, _, hslots, _⟩ := position_log_slots (exampleCrowd 101)
    (fun a _ => ⟨_, rfl, by
      show 1 ≤ ([2, 1, 2, 5, 1, 3, 4] : List Int).getD a 1
        ∧ ([2, 1, 2, 5, 1, 3, 4] : List Int).getD a 1 ≤ 5
      rcases a with _ | _ | _ | _ | _ | _ | _ | a <;> simp [List.getD]⟩)
  have h1 := hslots 1 (by decide) (by decide)
  have hfill' : LogAgentPositions.fill (exampleCrowd 101) 5 (exampleCrowd 101).agents
      (List.replicate 5 exampleBlind) = some filled := hfill
  rw [hfill', Option.some_bind]
  exact h1

/-! ## Agents without telemetry (C21) -/

/-- C21, the code at the failing input: an agent without telemetry is never credited by
`IsBallFound`, which tests the result of `GetLastUpdate`; but `LogAgentPositions` ignores that
result and executes `updates[u.player_number-1] = u` with the unfilled local.  With the roster
`[0, 1]`, agent 0 reporting player number 1 at (10, 20, 3) and agent 1 without telemetry, slot 1
of the row holds (10, 20, 3) when agent 1 is absent from the roster, is overwritten by the
unfilled record when that record holds player number 1, and the write is out of bounds when it
holds 0. -/
theorem silent_agent_writes_slot :
    (∀ (w : World) (a : Agent), w.lastUpdate a = none →
        satisfiesFoundBall w a = false
        ∧ ∀ v fb, a ∉ v → (IsBallFound w (some v)).2 = some fb → a ∉ fb)
    ∧ (∀ (w : World) (a : Agent) (rest : List Agent) (n : Nat)
        (updates : List FromRunswiftAgent), w.lastUpdate a = none →
        LogAgentPositions.fill w (n + 1) (a :: rest) updates
          = if 0 ≤ w.blank.player_number - 1 ∧ w.blank.player_number - 1 < 5 then
              LogAgentPositions.fill w n rest
                (updates.set (w.blank.player_number - 1).toNat w.blank)
            else none)
    ∧ ((exampleSilent 1 [0, 1]).lastUpdate 1 = none
        ∧ (LogAgentPositions.fill (exampleSilent 1 [0]) 5 [0]
            (List.replicate 5 (exampleSilent 1 [0]).blank)).map
              (fun filled => filled.map
                (fun u => (u.estimated_x_pos, u.estimated_y_pos, u.estimated_orientation)))
            = some [(10, 20, 3), (0, 0, 0), (0, 0, 0), (0, 0, 0), (0, 0, 0)]
        ∧ (LogAgentPositions.fill (exampleSilent 1 [0, 1]) 5 [0, 1]
            (List.replicate 5 (exampleSilent 1 [0, 1]).blank)).map
              (fun filled => filled.map
                (fun u => (u.estimated_x_pos, u.estimated_y_pos, u.estimated_orientation)))
            = some [(0, 0, 0), (0, 0, 0), (0, 0, 0), (0, 0, 0), (0, 0, 0)]
        ∧ (LogAgentPositions.fill (exampleSilent 0 [0, 1]) 5 [0, 1]
            (List.replicate 5 (exampleSilent 0 [0, 1]).blank)).isSome = false
        ∧ (Tick exampleMt exampleStarted (exampleSilent 0 [0])).isSome = true
        ∧ (Tick exampleMt { exampleStarted with num_agents_ := 2 }
            (exampleSilent 0 [0, 1])).isSome = false) := by
  refine ⟨?_, ?_, ⟨rfl, by decide, by decide, by decide, by decide, by decide⟩⟩
  · intro w a hu
    refine ⟨satisfiesFoundBall_none w a hu, ?_⟩
    intro v fb hv hfb hmem
    rw [IsBallFound_eq] at hfb
    simp only [Option.map_some', Option.some.injEq] at hfb
    rw [← hfb, List.mem_append, List.mem_filter] at hmem
    rcases hmem with h | h
    · exact hv h
    · rw [satisfiesFoundBall_none w a hu] at h
      exact absurd h.2 (by decide)
  · intro w a rest n updates hu
    simp only [LogAgentPositions.fill, hu, Option.getD_none]


/-! ## Bounds of the spawn index (C22) -/

set_option maxRecDepth 100000 in
/-- C22, refuted as stated: the controller constructed with `start_from = 2147483647 >= 1`
finalizes its second trial with the sequence index at `INT_MAX`; the increment overflows and the
index is `INT_MIN`, below `start_from - 1`; the index `counter_ % 10` of the next placement is
-8, the lookup in `PREDEFINED_POINTS` is out of bounds, and the run is undefined at the placement,
250 ticks later. -/
theorem spawn_index_out_of_bounds :
    (1 : Int) ≤ 2147483647
    ∧ Reachable exampleMt 2147483647 exampleWrapped
    ∧ exampleWrapped.counter_ = -2147483648
    ∧ exampleWrapped.counter_ < 2147483647 - 1
    ∧ Int.tmod exampleWrapped.counter_ UNIQUE_POINTS = -8
    ∧ (PrepareExperiment.ball exampleMt exampleWrapped).isSome = false
    ∧ (run exampleMt exampleWrapped (List.replicate 250 (exampleQuiet [0] 104))).map
        (fun hist => ((finalObject exampleWrapped hist).state_,
          (finalObject exampleWrapped hist).start_in_)) = some (TEST_STARTING, 50)
    ∧ (run exampleMt exampleWrapped (List.replicate 251 (exampleQuiet [0] 104))).isSome
        = false :=
  ⟨by decide, exampleWrapped_reachable, rfl, by decide, by decide, by decide, by decide,
    by decide⟩

/-- C22, amended: for a controller constructed with `1 <= start_from <= INT_MAX`, after every
defined sequence of ticks during which the sequence index before each tick is below `INT_MAX`
(no increment has overflowed), the sequence index `counter_` is at least `start_from - 1 >= 0`
and at most `start_from - 1` plus the number of ticks, so the index `counter_ % UNIQUE_POINTS`
computed by `PrepareExperiment` lies in 0..9, is a valid position of `PREDEFINED_POINTS`, and the
choice of the ball position is defined and takes that entry of the table. -/
theorem spawn_index_in_bounds (mt : Mt19937) (start_from t0 : Int) (ws : List World)
    (hist : List (FindBallExperiment × List Effect)) (hsf : 1 ≤ start_from)
    (hhi : start_from ≤ INT_MAX)
    (hrun : run mt (FindBallExperiment.new mt start_from t0) ws = some hist)
    (hno : ∀ k, k < ws.length →
      (objectBefore (FindBallExperiment.new mt start_from t0) hist k).counter_ < INT_MAX) :
    0 ≤ start_from - 1
    ∧ start_from - 1 ≤ (finalObject (FindBallExperiment.new mt start_from t0) hist).counter_
    ∧ (finalObject (FindBallExperiment.new mt start_from t0) hist).counter_
        ≤ start_from - 1 + ws.length
    ∧ (finalObject (FindBallExperiment.new mt start_from t0) hist).counter_ ≤ INT_MAX
    ∧ 0 ≤ Int.tmod (finalObject (FindBallExperiment.new mt start_from t0) hist).counter_
        UNIQUE_POINTS
    ∧ Int.tmod (finalObject (FindBallExperiment.new mt start_from t0) hist).counter_
        UNIQUE_POINTS < NUM_PREDEFINED_POINTS
    ∧ (Int.tmod (finalObject (FindBallExperiment.new mt start_from t0) hist).counter_
        UNIQUE_POINTS).toNat < PREDEFINED_POINTS.length
    ∧ ∃ p, PREDEFINED_POINTS[(Int.tmod
          (finalObject (FindBallExperiment.new mt start_from t0) hist).counter_
          UNIQUE_POINTS).toNat]? = some p
        ∧ PrepareExperiment.ball mt (finalObject (FindBallExperiment.new mt start_from t0) hist)
          = some (p, (finalObject (FindBallExperiment.new mt start_from t0) hist).mt_) := by
  obtain ⟨_, i2, i3, i4⟩ := run_counter_bounds mt ws (FindBallExperiment.new mt start_from t0)
    hist (by show INT_MIN ≤ start_from - 1; unfold INT_MIN; omega) (le_refl _)
    (by show start_from - 1 ≤ INT_MAX; omega) hrun hno
  have j2 : start_from - 1
      ≤ (finalObject (FindBallExperiment.new mt start_from t0) hist).counter_ := i2
  have j3 : (finalObject (FindBallExperiment.new mt start_from t0) hist).counter_
      ≤ start_from - 1 + ws.length := i3
  generalize (finalObject (FindBallExperiment.new mt start_from t0) hist) = e at j2 j3 i4 ⊢
  have hc : 0 ≤ e.counter_ := by omega
  have ht : Int.tmod e.counter_ 10 = e.counter_ % 10 := Int.tmod_eq_emod hc (by decide)
  have hlt : e.counter_ % 10 < 10 := Int.emod_lt_of_pos _ (by decide)
  have hge : 0 ≤ e.counter_ % 10 := Int.emod_nonneg _ (by decide)
  have hlen : (e.counter_ % 10).toNat < PREDEFINED_POINTS.length := by
    have : PREDEFINED_POINTS.length = 10 := rfl
    rw [this]; omega
  refine ⟨by omega, j2, j3, i4, ?_, ?_, ?_, ?_⟩
  · show 0 ≤ Int.tmod e.counter_ 10
    rw [ht]; exact hge
  · show Int.tmod e.counter_ 10 < 10
    rw [ht]; exact hlt
  · show (Int.tmod e.counter_ 10).toNat < PREDEFINED_POINTS.length
    rw [ht]; exact hlen
  · refine ⟨PREDEFINED_POINTS[(e.counter_ % 10).toNat], ?_, ?_⟩
    · show PREDEFINED_POINTS[(Int.tmod e.counter_ 10).toNat]? = _
      rw [ht]; exact List.getElem?_eq_getElem hlen
    · rw [PrepareExperiment.ball_of_nonneg mt e hc, List.getElem?_eq_getElem hlen]
      rfl

set_option maxRecDepth 100000 in
/-- C22, amended, on the run `exampleLogged` of a controller constructed with `start_from = 1`:
the index stays below `INT_MAX` and the spawn index of the final object is within the table. -/
theorem spawn_index_in_bounds_witness :
    (1 : Int) ≤ 1
    ∧ run exampleMt (FindBallExperiment.new exampleMt 1 100) exampleLoggedTrial
        = some exampleLogged
    ∧ (finalObject (FindBallExperiment.new exampleMt 1 100) exampleLogged).counter_
        ≤ 1 - 1 + exampleLoggedTrial.length
    ∧ Int.tmod (finalObject (FindBallExperiment.new exampleMt 1 100) exampleLogged).counter_
        UNIQUE_POINTS < NUM_PREDEFINED_POINTS :=
  have h := spawn_index_in_bounds exampleMt 1 100 exampleLoggedTrial exampleLogged (by decide)
    (by decide) exampleLogged_run (by decide)
  ⟨by decide, exampleLogged_run, h.2.2.1, h.2.2.2.2.2.1⟩

/-! ## State transitions (C23, C24) -/

/-- The state, the countdown and the stored agent count after a tick, by the state before it. -/
theorem Tick_transition (mt : Mt19937) (e : FindBallExperiment) (w : World)
    (r : FindBallExperiment × List Effect) (hT : Tick mt e w = some r) :
    (e.state_ = NOT_STARTED →
        r.1.num_agents_ = w.agents.length
        ∧ (rosterGrew e w → r.1.state_ = TEST_STARTING ∧ r.1.start_in_ = 150)
        ∧ (¬ rosterGrew e w → r.1.state_ = NOT_STARTED ∧ r.1.start_in_ = e.start_in_))
    ∧ (e.state_ = TEST_STARTING →
        r.1.num_agents_ = e.num_agents_
        ∧ (e.start_in_ = 0 → r.1.state_ = TEST_STARTED ∧ r.1.start_in_ = -1)
        ∧ (e.start_in_ ≠ 0 → r.1.state_ = TEST_STARTING ∧ r.1.start_in_ = e.start_in_ - 1))
    ∧ (e.state_ = TEST_STARTED →
        r.1.num_agents_ = w.agents.length
        ∧ (rosterGrew e w → r.1.state_ = TEST_STARTING ∧ r.1.start_in_ = 150)
        ∧ (¬ rosterGrew e w → trialEnds e w
            → r.1.state_ = TEST_FINISHED ∧ r.1.start_in_ = 300)
        ∧ (¬ rosterGrew e w → ¬ trialEnds e w
            → r.1.state_ = TEST_STARTED ∧ r.1.start_in_ = e.start_in_))
    ∧ (e.state_ = TEST_FINISHED →
        r.1.num_agents_ = e.num_agents_
        ∧ (e.start_in_ = 150 → r.1.state_ = TEST_STARTING ∧ r.1.start_in_ = 149)
        ∧ (e.start_in_ ≠ 150 → r.1.state_ = TEST_FINISHED ∧ r.1.start_in_ = e.start_in_ - 1)) := by
  obtain ⟨h, out2, hH, hR, _⟩ := Tick_parts mt e w r hT
  have hf := Tick.respond_fields h.1 w (r.1, out2) hR
  have hstate : r.1.state_ = h.1.state_ := by rw [hf]
  have hsin : r.1.start_in_ = h.1.start_in_ := by rw [hf]
  have hna : r.1.num_agents_ = h.1.num_agents_ := by rw [hf]
  rw [hstate, hsin, hna]
  unfold Tick.handle GetExperimentState at hH
  refine ⟨?_, ?_, ?_, ?_⟩
  · intro hs
    simp only [hs, Option.some.injEq] at hH
    subst hH
    rw [HandleNotStarted_eq]
    by_cases hg : rosterGrew e w
    · simp [hg]
    · simp [hg, hs]
  · intro hs
    simp only [hs] at hH
    rcases HandleStarting_cases mt e w h hH with ⟨h0, p, _, rfl⟩ | ⟨h50, r1, hp, rfl⟩ | ⟨h0, _, rfl⟩
    · simp [h0]
    · have hf1 := PrepareExperiment_fields mt e w r1 hp
      rw [hf1]
      simp [h50, hs]
    · simp [h0, hs]
  · intro hs
    simp only [hs, Option.some.injEq] at hH
    subst hH
    by_cases hg : rosterGrew e w
    · rw [HandleStarted_grew e w hs hg]
      simp [hg]
    · rw [HandleStarted_not_grew e w hg]
      by_cases hf2 : (HandleStarted.finish w (w.now - e.timer_)).1 = true
      · have ht := (HandleStarted.finish_iff e w).1 hf2
        rw [if_pos hf2]
        simp [SetExperimentState, FinishExperiment, hg, ht]
      · have ht : ¬ trialEnds e w := fun hh => hf2 ((HandleStarted.finish_iff e w).2 hh)
        rw [if_neg hf2]
        simp [hg, ht, hs]
  · intro hs
    simp only [hs, Option.some.injEq] at hH
    subst hH
    by_cases h300 : e.start_in_ = 300
    · simp [HandleFinished, h300, hs]
    · by_cases h150 : e.start_in_ = 150
      · simp [HandleFinished, h150, SetExperimentState]
      · simp [HandleFinished, h300, h150, hs]

/-- The range of the countdown in every reachable object: 0..150 in TEST_STARTING and 150..300
in TEST_FINISHED. -/
theorem Reachable.countdown (mt : Mt19937) (start_from : Int) (e : FindBallExperiment)
    (hr : Reachable mt start_from e) :
    (e.state_ = TEST_STARTING → 0 ≤ e.start_in_ ∧ e.start_in_ ≤ 150)
    ∧ (e.state_ = TEST_FINISHED → 150 ≤ e.start_in_ ∧ e.start_in_ ≤ 300) := by
  refine Reachable.induct mt start_from
    (fun e => (e.state_ = TEST_STARTING → 0 ≤ e.start_in_ ∧ e.start_in_ ≤ 150)
      ∧ (e.state_ = TEST_FINISHED → 150 ≤ e.start_in_ ∧ e.start_in_ ≤ 300)) ?_ ?_ e hr
  · intro t0
    constructor <;> intro h <;> simp [FindBallExperiment.new] at h
  · intro e w r ⟨i1, i2⟩ hT
    obtain ⟨t1, t2, t3, t4⟩ := Tick_transition mt e w r hT
    cases hs : e.state_ with
    | NOT_STARTED =>
      obtain ⟨_, a, b⟩ := t1 hs
      by_cases hg : rosterGrew e w
      · obtain ⟨a1, a2⟩ := a hg
        constructor <;> intro h
        · rw [a2]; omega
        · rw [a1] at h; exact absurd h (by decide)
      · obtain ⟨b1, _⟩ := b hg
        constructor <;> intro h <;> rw [b1] at h <;> exact absurd h (by decide)
    | TEST_STARTING =>
      obtain ⟨_, a, b⟩ := t2 hs
      by_cases h0 : e.start_in_ = 0
      · obtain ⟨a1, _⟩ := a h0
        constructor <;> intro h <;> rw [a1] at h <;> exact absurd h (by decide)
      · obtain ⟨b1, b2⟩ := b h0
        have := i1 hs
        constructor <;> intro h
        · rw [b2]; omega
        · rw [b1] at h; exact absurd h (by decide)
    | TEST_STARTED =>
      obtain ⟨_, a, b, c⟩ := t3 hs
      by_cases hg : rosterGrew e w
      · obtain ⟨a1, a2⟩ := a hg
        constructor <;> intro h
        · rw [a2]; omega
        · rw [a1] at h; exact absurd h (by decide)
      · by_cases ht : trialEnds e w
        · obtain ⟨b1, b2⟩ := b hg ht
          constructor <;> intro h
          · rw [b1] at h; exact absurd h (by decide)
          · rw [b2]; omega
        · obtain ⟨c1, _⟩ := c hg ht
          constructor <;> intro h <;> rw [c1] at h <;> exact absurd h (by decide)
    | TEST_FINISHED =>
      obtain ⟨_, a, b⟩ := t4 hs
      have := i2 hs
      by_cases h150 : e.start_in_ = 150
      · obtain ⟨a1, a2⟩ := a h150
        constructor <;> intro h
        · rw [a2]; omega
        · rw [a1] at h; exact absurd h (by decide)
      · obtain ⟨b1, b2⟩ := b h150
        constructor <;> intro h
        · rw [b1] at h; exact absurd h (by decide)
        · rw [b2]; omega


theorem Tick_state_after (mt : Mt19937) (e : FindBallExperiment) (w : World)
    (r : FindBallExperiment × List Effect) (hT : Tick mt e w = some r) :
    (e.state_ = NOT_STARTED →
        r.1.state_ = (if rosterGrew e w then TEST_STARTING else NOT_STARTED))
    ∧ (e.state_ = TEST_STARTING →
        r.1.state_ = (if e.start_in_ = 0 then TEST_STARTED else TEST_STARTING))
    ∧ (e.state_ = TEST_STARTED →
        r.1.state_ = (if rosterGrew e w then TEST_STARTING
          else if trialEnds e w then TEST_FINISHED else TEST_STARTED))
    ∧ (e.state_ = TEST_FINISHED →
        r.1.state_ = (if e.start_in_ = 150 then TEST_STARTING else TEST_FINISHED)) := by
  obtain ⟨t1, t2, t3, t4⟩ := Tick_transition mt e w r hT
  refine ⟨?_, ?_, ?_, ?_⟩
  · intro hs
    obtain ⟨_, a, b⟩ := t1 hs
    by_cases hg : rosterGrew e w
    · rw [if_pos hg]; exact (a hg).1
    · rw [if_neg hg]; exact (b hg).1
  · intro hs
    obtain ⟨_, a, b⟩ := t2 hs
    by_cases h0 : e.start_in_ = 0
    · rw [if_pos h0]; exact (a h0).1
    · rw [if_neg h0]; exact (b h0).1
  · intro hs
    obtain ⟨_, a, b, c⟩ := t3 hs
    by_cases hg : rosterGrew e w
    · rw [if_pos hg]; exact (a hg).1
    · rw [if_neg hg]
      by_cases ht : trialEnds e w
      · rw [if_pos ht]; exact (b hg ht).1
      · rw [if_neg ht]; exact (c hg ht).1
  · intro hs
    obtain ⟨_, a, b⟩ := t4 hs
    by_cases h150 : e.start_in_ = 150
    · rw [if_pos h150]; exact (a h150).1
    · rw [if_neg h150]; exact (b h150).1

theorem Tick_keeps_out_of_not_started (mt : Mt19937) (e : FindBallExperiment) (w : World)
    (r : FindBallExperiment × List Effect) (hT : Tick mt e w = some r)
    (hs : e.state_ ≠ NOT_STARTED) : r.1.state_ ≠ NOT_STARTED := by
  obtain ⟨_, t2, t3, t4⟩ := Tick_state_after mt e w r hT
  cases hst : e.state_ with
  | NOT_STARTED => exact absurd hst hs
  | TEST_STARTING =>
    rw [t2 hst]
    split <;> decide
  | TEST_STARTED =>
    rw [t3 hst]
    split
    · decide
    · split <;> decide
  | TEST_FINISHED =>
    rw [t4 hst]
    split <;> decide

theorem run_keeps_out_of_not_started (mt : Mt19937) (ws : List World) :
    ∀ (e : FindBallExperiment) (hist : List (FindBallExperiment × List Effect)),
      e.state_ ≠ NOT_STARTED → run mt e ws = some hist →
      (finalObject e hist).state_ ≠ NOT_STARTED
      ∧ ∀ k, (objectBefore e hist k).state_ ≠ NOT_STARTED := by
  induction ws with
  | nil =>
    intro e hist hs h
    simp [run] at h
    subst h
    exact ⟨hs, fun k => hs⟩
  | cons w ws ih =>
    intro e hist hs h
    obtain ⟨r, rs, hT, hR, rfl⟩ := run_cons_eq mt e w ws hist h
    obtain ⟨i1, i2⟩ := ih r.1 rs (Tick_keeps_out_of_not_started mt e w r hT hs) hR
    rw [finalObject_cons]
    refine ⟨i1, ?_⟩
    intro k
    cases k with
    | zero => exact hs
    | succ k => exact i2 k

/-- The cooldown: from TEST_FINISHED with a countdown in 150..300 and `started_` false, every
tick is defined and the tick that sees the countdown 150 ends in TEST_STARTING. -/
theorem run_finished_leaves (mt : Mt19937) (e : FindBallExperiment) (ws : List World)
    (hs : e.state_ = TEST_FINISHED) (hst : e.started_ = false)
    (hlo : 150 ≤ e.start_in_) (hhi : e.start_in_ ≤ 300)
    (hlen : ws.length = (e.start_in_ - 150).toNat + 1) :
    ∃ hist, run mt e ws = some hist ∧ (finalObject e hist).state_ = TEST_STARTING
      ∧ (finalObject e hist).start_in_ = 149 := by
  by_cases h300 : e.start_in_ = 300
  · obtain ⟨w, ws1, rfl⟩ : ∃ w ws1, ws = w :: ws1 := by
      cases ws with
      | nil => simp at hlen
      | cons w ws1 => exact ⟨w, ws1, rfl⟩
    obtain ⟨r, hT, hr1, _⟩ := Tick_finished_enter mt e w hs hst h300
    have hlen1 : ws1.length = 149 + 1 := by
      rw [h300] at hlen
      simp only [List.length_cons] at hlen
      have : ((300 : Int) - 150).toNat = 150 := by decide
      omega
    obtain ⟨rs, hR, _, f1, f2, _⟩ := run_finished_countdown mt 149 r.1 ws1
      (by rw [hr1]; exact hs) (by rw [hr1]; exact hst) (by rw [hr1]; rfl) (by decide) hlen1
    refine ⟨r :: rs, run_cons_some mt e w ws1 r rs hT hR, ?_, ?_⟩
    · rw [finalObject_cons]; exact f1
    · rw [finalObject_cons]; exact f2
  · obtain ⟨hist, hR, _, f1, f2, _⟩ := run_finished_countdown mt (e.start_in_ - 150).toNat e ws
      hs hst (by omega) (by omega) hlen
    exact ⟨hist, hR, f1, f2⟩

/-- The stored agent count does not change during ticks that start in TEST_STARTING or
TEST_FINISHED, whatever the rosters. -/
theorem run_num_agents_unchecked (mt : Mt19937) (ws : List World) :
    ∀ (e : FindBallExperiment) (hist : List (FindBallExperiment × List Effect)),
      run mt e ws = some hist →
      (∀ k, k < ws.length → (objectBefore e hist k).state_ = TEST_STARTING
        ∨ (objectBefore e hist k).state_ = TEST_FINISHED) →
      (finalObject e hist).num_agents_ = e.num_agents_ := by
  induction ws with
  | nil =>
    intro e hist h _
    simp [run] at h
    subst h
    rfl
  | cons w ws ih =>
    intro e hist h hq
    obtain ⟨r, rs, hT, hR, rfl⟩ := run_cons_eq mt e w ws hist h
    obtain ⟨_, t2, _, t4⟩ := Tick_transition mt e w r hT
    have h0 : e.state_ = TEST_STARTING ∨ e.state_ = TEST_FINISHED :=
      hq 0 (by simp)
    have hna : r.1.num_agents_ = e.num_agents_ := by
      rcases h0 with h0 | h0
      · exact (t2 h0).1
      · exact (t4 h0).1
    rw [finalObject_cons, ih r.1 rs hR (fun k hk => hq (k + 1) (by simpa using hk)), hna]

/-- While every roster is at most as large as the one before it and the first is at most as
large as the stored count, no tick that starts in TEST_STARTED ends in TEST_STARTING. -/
theorem run_shrinking_no_cancel (mt : Mt19937) (ws : List World) :
    ∀ (e : FindBallExperiment) (hist : List (FindBallExperiment × List Effect)),
      run mt e ws = some hist →
      List.Chain (fun a b : Int => b ≤ a) e.num_agents_
        (ws.map (fun w => (w.agents.length : Int))) →
      ∀ k, (objectBefore e hist k).state_ = TEST_STARTED →
        (objectBefore e hist (k + 1)).state_ ≠ TEST_STARTING := by
  induction ws with
  | nil =>
    intro e hist h _ k hk
    simp [run] at h
    subst h
    simp only [objectBefore] at hk ⊢
    rw [hk]; decide
  | cons w ws ih =>
    intro e hist h hc k hk
    obtain ⟨r, rs, hT, hR, rfl⟩ := run_cons_eq mt e w ws hist h
    simp only [List.map_cons, List.chain_cons] at hc
    obtain ⟨hle, hc1⟩ := hc
    obtain ⟨t1, t2, t3, t4⟩ := Tick_transition mt e w r hT
    have hng : ¬ rosterGrew e w := by
      unfold rosterGrew; omega
    have hchain : List.Chain (fun a b : Int => b ≤ a) r.1.num_agents_
        (ws.map (fun w => (w.agents.length : Int))) := by
      have hna : r.1.num_agents_ = w.agents.length ∨ r.1.num_agents_ = e.num_agents_ := by
        cases hs : e.state_ with
        | NOT_STARTED => exact Or.inl (t1 hs).1
        | TEST_STARTING => exact Or.inr (t2 hs).1
        | TEST_STARTED => exact Or.inl (t3 hs).1
        | TEST_FINISHED => exact Or.inr (t4 hs).1
      rcases hna with hna | hna
      · rw [hna]; exact hc1
      · rw [hna]
        cases hws : ws.map (fun w => (w.agents.length : Int)) with
        | nil => exact List.Chain.nil
        | cons x xs =>
          rw [hws, List.chain_cons] at hc1
          exact List.Chain.cons (le_trans hc1.1 hle) hc1.2
    cases k with
    | zero =>
      have hs : e.state_ = TEST_STARTED := hk
      have hr : (objectBefore e (r :: rs) 1) = r.1 := by
        cases rs <;> rfl
      rw [hr]
      obtain ⟨_, _, b, c⟩ := t3 hs
      by_cases ht : trialEnds e w
      · rw [(b hng ht).1]; decide
      · rw [(c hng ht).1]; decide
    | succ k => exact ih r.1 rs hR hchain k hk


/-- C23, refuted as stated: the controller constructed with `start_from = 1` has left
NOT_STARTED after its first tick; when the simulator snapshot has no player, the next 150 ticks
are spent in TEST_STARTING and the tick after them reads `players[0]` out of bounds: the run is
undefined, TEST_STARTED is never reached and no trial follows, whatever the later inputs. -/
theorem trial_cycle_stops :
    Reachable exampleMt 1 exampleEntered
    ∧ exampleEntered.state_ ≠ NOT_STARTED
    ∧ (run exampleMt exampleEntered (List.replicate 150 (exampleNoPlayers 100))).map
        (fun hist => ((finalObject exampleEntered hist).state_,
          (finalObject exampleEntered hist).start_in_)) = some (TEST_STARTING, 0)
    ∧ (run exampleMt exampleEntered (List.replicate 151 (exampleNoPlayers 100))).isSome = false
    ∧ (run exampleMt exampleEntered
        (List.replicate 151 (exampleNoPlayers 100) ++ [exampleQuiet [0] 101])).isSome = false :=
  ⟨exampleEntered_reachable, by decide, by decide, by decide, by decide⟩

/-- C23, amended: a reachable controller that is not in NOT_STARTED never is again: after every
defined run from it, whatever the inputs, the final state and every state on the way differ from NOT_STARTED.
The states follow the cycle: a tick from TEST_STARTING ends in TEST_STARTING or, at countdown 0,
in TEST_STARTED; from TEST_STARTED in TEST_STARTING (roster growth), TEST_FINISHED (trial ended)
or TEST_STARTED; from TEST_FINISHED in TEST_FINISHED or, at countdown 150, in TEST_STARTING.
No state is final: in TEST_STARTING the countdown is in 0..150 and a run of `start_in_ + 1`
ticks ends in TEST_STARTED, such a run being defined when the sequence index is not negative,
every snapshot has a player and every position log can be written; in TEST_STARTED a tick with roster growth or
with the trial-end condition (among others an elapsed time above 300) is defined and leaves the
state; in TEST_FINISHED the countdown is in 150..300 and the run of `start_in_ - 150 + 1` ticks
is defined and ends in TEST_STARTING. -/
theorem never_returns_to_not_started (mt : Mt19937) (start_from : Int)
    (e : FindBallExperiment) (hr : Reachable mt start_from e) (hs : e.state_ ≠ NOT_STARTED) :
    (∀ ws hist, run mt e ws = some hist →
        (finalObject e hist).state_ ≠ NOT_STARTED
        ∧ ∀ k, (objectBefore e hist k).state_ ≠ NOT_STARTED)
    ∧ (∀ w r, Tick mt e w = some r →
        r.1.state_
          = (if e.state_ = TEST_STARTING then
              (if e.start_in_ = 0 then TEST_STARTED else TEST_STARTING)
            else if e.state_ = TEST_STARTED then
              (if rosterGrew e w then TEST_STARTING
                else if trialEnds e w then TEST_FINISHED else TEST_STARTED)
            else
              (if e.start_in_ = 150 then TEST_STARTING else TEST_FINISHED)))
    ∧ (e.state_ = TEST_STARTING →
        0 ≤ e.start_in_ ∧ e.start_in_ ≤ 150
        ∧ ∀ ws : List World, ws.length = e.start_in_.toNat + 1 →
            (∀ hist, run mt e ws = some hist → (finalObject e hist).state_ = TEST_STARTED)
            ∧ (0 ≤ e.counter_ → (∀ w ∈ ws, w.su.players ≠ [] ∧ positionsLoggable w) →
                ∃ hist, run mt e ws = some hist))
    ∧ (e.state_ = TEST_STARTED →
        ∀ w, rosterGrew e w ∨ trialEnds e w →
          ∃ r, Tick mt e w = some r
            ∧ (r.1.state_ = TEST_STARTING ∨ r.1.state_ = TEST_FINISHED))
    ∧ (e.state_ = TEST_FINISHED →
        150 ≤ e.start_in_ ∧ e.start_in_ ≤ 300
        ∧ ∀ ws : List World, ws.length = (e.start_in_ - 150).toNat + 1 →
            ∃ hist, run mt e ws = some hist
              ∧ (finalObject e hist).state_ = TEST_STARTING) := by
  obtain ⟨c1, c2⟩ := Reachable.countdown mt start_from e hr
  refine ⟨?_, ?_, ?_, ?_, ?_⟩
  · intro ws hist hrun
    exact run_keeps_out_of_not_started mt ws e hist hs hrun
  · intro w r hT
    obtain ⟨_, t2, t3, t4⟩ := Tick_state_after mt e w r hT
    cases hst : e.state_ with
    | NOT_STARTED => exact absurd hst hs
    | TEST_STARTING => rw [t2 hst]; simp
    | TEST_STARTED => rw [t3 hst]; simp
    | TEST_FINISHED => rw [t4 hst]; simp
  · intro hst
    obtain ⟨hlo, hhi⟩ := c1 hst
    refine ⟨hlo, hhi, ?_⟩
    intro ws hlen
    constructor
    · intro hist hrun
      exact (run_starting_countdown mt e.start_in_.toNat e ws hist hst
        (Int.toNat_of_nonneg hlo).symm hlen hrun).2.1
    · intro hc hall
      exact run_starting_defined mt e.start_in_.toNat e ws hst
        (Int.toNat_of_nonneg hlo).symm hlen hc hall
  · intro hst w hw
    by_cases hg : rosterGrew e w
    · exact ⟨_, Tick_started_grew mt e w hst hg, Or.inl rfl⟩
    · have ht : trialEnds e w := hw.resolve_left hg
      obtain ⟨found_str, hT⟩ := Tick_started_finish mt e w hst hg ht
      exact ⟨_, hT, Or.inr rfl⟩
  · intro hst
    obtain ⟨hlo, hhi⟩ := c2 hst
    refine ⟨hlo, hhi, ?_⟩
    intro ws hlen
    have hsd : e.started_ = false := by
      cases hb : e.started_ with
      | false => rfl
      | true =>
        have := (Reachable.started mt start_from e hr).1 hb
        rw [hst] at this
        exact absurd this (by decide)
    obtain ⟨hist, hrun, hf, _⟩ := run_finished_leaves mt e ws hst hsd hlo hhi hlen
    exact ⟨hist, hrun, hf⟩

/-- C23, amended, at a concrete run: the live trial of `exampleStarted` is won and the roster is
empty on the next tick; the state after these two ticks is not NOT_STARTED. -/
theorem never_returns_to_not_started_witness :
    Reachable exampleMt 1 exampleStarted
    ∧ exampleStarted.state_ ≠ NOT_STARTED
    ∧ (finalObject exampleStarted
        ((run exampleMt exampleStarted
          [exampleWorld [0] 102, exampleEmpty 103]).getD [])).state_ ≠ NOT_STARTED :=
  ⟨exampleStarted_reachable, by decide,
    ((never_returns_to_not_started exampleMt 1 exampleStarted exampleStarted_reachable
      (by decide)).1 [exampleWorld [0] 102, exampleEmpty 103] _
      (Option.eq_some_getD _ [] (by decide))).1⟩

/-! ## Roster checks (C24) -/

/-- C24: `num_agents_` is stored by every tick that starts in NOT_STARTED or TEST_STARTED and by
no tick that starts in TEST_STARTING or TEST_FINISHED, where the next state depends on the
countdown only.  So after a run of ticks that all start in TEST_STARTING or TEST_FINISHED and
that ends in TEST_STARTED, the stored count is the one from before the run, and a first live tick
with more connected agents than that count is defined, writes the closing record "-1", puts the
sequence index back to the start offset and ends in TEST_STARTING.  While the rosters only
shrink, no tick that starts in TEST_STARTED ends in TEST_STARTING; but when a live tick that does
not end the trial has seen a smaller roster, a next tick with the earlier count cancels. -/
theorem roster_check_only_when_live (mt : Mt19937) (e0 : FindBallExperiment)
    (ws : List World) (hist : List (FindBallExperiment × List Effect))
    (hrun : run mt e0 ws = some hist)
    (hquiet : ∀ k, k < ws.length → (objectBefore e0 hist k).state_ = TEST_STARTING
      ∨ (objectBefore e0 hist k).state_ = TEST_FINISHED)
    (hlive : (finalObject e0 hist).state_ = TEST_STARTED) :
    (finalObject e0 hist).num_agents_ = e0.num_agents_
    ∧ (∀ w : World, (w.agents.length : Int) > e0.num_agents_ →
        Tick mt (finalObject e0 hist) w
          = some ({ finalObject e0 hist with
                      num_agents_ := w.agents.length,
                      counter_ := (finalObject e0 hist).start_index_,
                      start_in_ := 150, started_ := false, state_ := TEST_STARTING },
              CheckSimulatorGameState w
                ++ [Effect.TestClosed (w.now - (finalObject e0 hist).timer_) ['-', '1'],
                    Effect.Send responsePenalised]))
    ∧ (∀ (e1 : FindBallExperiment) (w : World) (r : FindBallExperiment × List Effect),
        Tick mt e1 w = some r →
        ((e1.state_ = NOT_STARTED ∨ e1.state_ = TEST_STARTED) →
          r.1.num_agents_ = w.agents.length)
        ∧ (e1.state_ = TEST_STARTING →
          r.1.num_agents_ = e1.num_agents_
          ∧ r.1.state_ = (if e1.start_in_ = 0 then TEST_STARTED else TEST_STARTING))
        ∧ (e1.state_ = TEST_FINISHED →
          r.1.num_agents_ = e1.num_agents_
          ∧ r.1.state_ = (if e1.start_in_ = 150 then TEST_STARTING else TEST_FINISHED)))
    ∧ (∀ (ws2 : List World) (hist2 : List (FindBallExperiment × List Effect)),
        run mt (finalObject e0 hist) ws2 = some hist2 →
        List.Chain (fun a b : Int => b ≤ a) e0.num_agents_
          (ws2.map (fun w => (w.agents.length : Int))) →
        ∀ k, (objectBefore (finalObject e0 hist) hist2 k).state_ = TEST_STARTED →
          (objectBefore (finalObject e0 hist) hist2 (k + 1)).state_ ≠ TEST_STARTING)
    ∧ (∀ (w1 w2 : World) (r1 : FindBallExperiment × List Effect),
        Tick mt (finalObject e0 hist) w1 = some r1 →
        (w1.agents.length : Int) < e0.num_agents_ →
        ¬ trialEnds (finalObject e0 hist) w1 →
        (w2.agents.length : Int) = e0.num_agents_ →
        r1.1.state_ = TEST_STARTED
        ∧ Tick mt r1.1 w2
          = some ({ r1.1 with
                      num_agents_ := w2.agents.length, counter_ := r1.1.start_index_,
                      start_in_ := 150, started_ := false, state_ := TEST_STARTING },
              CheckSimulatorGameState w2
                ++ [Effect.TestClosed (w2.now - r1.1.timer_) ['-', '1'],
                    Effect.Send responsePenalised])) := by
  have hna := run_num_agents_unchecked mt ws e0 hist hrun hquiet
  refine ⟨hna, ?_, ?_, ?_, ?_⟩
  · intro w hw
    have hg : rosterGrew (finalObject e0 hist) w := by
      unfold rosterGrew; rw [hna]; exact hw
    exact Tick_started_grew mt (finalObject e0 hist) w hlive hg
  · intro e1 w r hT
    obtain ⟨t1, t2, t3, t4⟩ := Tick_transition mt e1 w r hT
    obtain ⟨_, s2, _, s4⟩ := Tick_state_after mt e1 w r hT
    refine ⟨?_, ?_, ?_⟩
    · rintro (h | h)
      · exact (t1 h).1
      · exact (t3 h).1
    · intro h; exact ⟨(t2 h).1, s2 h⟩
    · intro h; exact ⟨(t4 h).1, s4 h⟩
  · intro ws2 hist2 hrun2 hc
    exact run_shrinking_no_cancel mt ws2 (finalObject e0 hist) hist2 hrun2 (by rw [hna]; exact hc)
  · intro w1 w2 r1 hT1 hlt hne heq
    obtain ⟨_, _, t3, _⟩ := Tick_transition mt (finalObject e0 hist) w1 r1 hT1
    obtain ⟨n1, _, _, c⟩ := t3 hlive
    have hng : ¬ rosterGrew (finalObject e0 hist) w1 := by
      unfold rosterGrew; rw [hna]; omega
    have hst1 : r1.1.state_ = TEST_STARTED := (c hng hne).1
    have hg2 : rosterGrew r1.1 w2 := by
      unfold rosterGrew; rw [n1]; omega
    exact ⟨hst1, Tick_started_grew mt r1.1 w2 hst1 hg2⟩

set_option maxRecDepth 100000 in
theorem roster_check_only_when_live_witness :
    run exampleMt exampleEntered (List.replicate 151 (exampleQuiet [0, 1] 100))
      = some exampleJoined
    ∧ (finalObject exampleEntered exampleJoined).state_ = TEST_STARTED
    ∧ (finalObject exampleEntered exampleJoined).num_agents_ = exampleEntered.num_agents_
    ∧ (Tick exampleMt (finalObject exampleEntered exampleJoined) (exampleQuiet [0, 1] 101)).map
        (fun r => (r.1.state_, r.1.counter_, r.1.num_agents_, r.2.any Effect.isTestClosed))
      = some (TEST_STARTING, 0, 2, true) :=
  have hrun : run exampleMt exampleEntered (List.replicate 151 (exampleQuiet [0, 1] 100))
      = some exampleJoined := Option.eq_some_getD _ [] (by decide)
  have hcd := run_starting_countdown exampleMt 150 exampleEntered
    (List.replicate 151 (exampleQuiet [0, 1] 100)) exampleJoined rfl rfl rfl hrun
  have h := roster_check_only_when_live exampleMt exampleEntered
    (List.replicate 151 (exampleQuiet [0, 1] 100)) exampleJoined hrun
    (fun k hk => Or.inl (hcd.1 k (by
      rw [List.length_replicate] at hk
      omega)).1)
    hcd.2.1
  ⟨hrun, hcd.2.1, h.1, by
    rw [h.2.1 (exampleQuiet [0, 1] 101) (by decide)]
    decide⟩

end findballexp
